import Mathlib

/-!
# A Flashbots relay client: simulate-then-broadcast of transaction bundles

Shallow embedding of the Go package `flashbot`: the bundle options and parameter
types of `bundle.go`, the request and response types of `types.go`, the constants
of `constants.go`, the client struct and the constructor `New` of `impl.go`, the
construction options of `option.go`, and of `func.go` the methods `Simulate`,
`Broadcast`, `newRequest`, `signRequest`, `EstimateGasBundle` and the three methods
that are not implemented.

Conventions of the embedding

* `[]byte` is `List Nat`, every element a byte value; `uint64` is `Nat`, reduced
  `% 2 ^ 64` wherever the Go code does arithmetic on it.
* Go strings are Lean strings.  Only ASCII text is ever produced by the code.
* A Go `error` is a value of `GoError`; a `(T, error)` result whose two parts are
  exclusive is an `Except GoError T`, and a result that may carry both parts (the
  relay answers of `Simulate` and `Broadcast`) is a pair of options.
* Effects (the pseudo random request id, the HTTP round trip, the line
  `Broadcast` prints) are threaded through an explicit `World`, whose `trace`
  records them in order.
* OpenTelemetry spans only annotate the call for an observer and never feed back
  into a result; they are not part of the embedding.
* Library code the package calls is embedded from the library sources where it is
  plain computation (`strconv`, `strings`, `encoding/hex`, `hexutil`, legacy
  Keccak-256, `accounts.TextHash`, `common.Address.Hex`, and of `encoding/json` the
  text of a string and of the struct `rpcReq`) and is a field of `Lib` where it is
  not (the JSON text of a parameters object, the decoding of an answer, secp256k1
  signing, `net/url`).
* A `*Bundle` argument is the bundle it points to; where a statement is about the
  memory behind the pointer, the methods are embedded a second time on an address of
  an explicit `Memory` (`SimulateAt`, `BroadcastAt`, `EstimateGasBundleAt`) and shown
  to return what the methods on the bundle return.
-/

/-- A Go byte slice. -/
abbrev Bytes := List Nat

/-- The bytes of an ASCII Go string, `[]byte(s)`. -/
def stringBytes (s : String) : Bytes := s.data.map Char.toNat

/-- The Go `error` values that occur in the package. -/
inductive GoError where
  /-- The value of `fmt.Errorf(msg)` with a format that has no `%w` verb; `msg` is the formatted text. -/
  | errorf (msg : String)
  /-- The value of `fmt.Errorf(msg ++ ": %w", cause)`. -/
  | wrap (msg : String) (cause : GoError)
  /-- A `*strconv.NumError` for function `fn` on input `num`; `err` is `ErrSyntax` or `ErrRange`. -/
  | numError (fn : String) (num : String) (err : String)
  /-- An error value produced by a library outside the package. -/
  | lib (msg : String)
deriving DecidableEq, Repr

/-! ## `strconv` and `strings` -/

namespace strconv

/-- The digit table of `strconv`: `"0123456789abcdefghijklmnopqrstuvwxyz"`. -/
def digits : List Char := "0123456789abcdefghijklmnopqrstuvwxyz".data

/-- The loop of `formatBits`: while `u >= b` emit the low digit in front of what is
already written and divide; then emit the last digit.  `fuel` bounds the number of
turns (a `uint64` has at most 64 digits in any base). -/
def formatBits : Nat → Nat → Nat → List Char → List Char
  | 0, _, u, a => digits.getD u '0' :: a
  | fuel + 1, b, u, a =>
    if u ≥ b then formatBits fuel b (u / b) (digits.getD (u % b) '0' :: a)
    else digits.getD u '0' :: a

/-- Model of `strconv.FormatUint(i, base)` for a `uint64` value `i` and `2 ≤ base ≤ 36`. -/
def FormatUint (i : Nat) (base : Nat) : String := String.mk (formatBits 64 base i [])

/-- Model of `strconv.Itoa` / the `%d` verb on a Go `int`. -/
def Itoa (i : Int) : String :=
  if i < 0 then "-" ++ FormatUint i.natAbs 10 else FormatUint i.natAbs 10

/-- The text of `strconv.ErrSyntax`. -/
def ErrSyntax : String := "invalid syntax"

/-- The text of `strconv.ErrRange`. -/
def ErrRange : String := "value out of range"

/-- The value of one input byte as a digit, or `none` when it is no digit or
letter: `c - '0'` for a decimal digit, `lower(c) - 'a' + 10` for a letter, where
`lower(c) = c | 0x20`. -/
def digitVal (c : Nat) : Option Nat :=
  if 48 ≤ c ∧ c ≤ 57 then some (c - 48)
  else if 97 ≤ (c ||| 32) ∧ (c ||| 32) ≤ 122 then some ((c ||| 32) - 97 + 10)
  else none

/-- The digit loop of `ParseUint` for an explicit base and bit size 64; `n` is the
value accumulated so far, `s0` the whole input (for the error value). -/
def parseLoop (s0 : String) (base : Nat) : List Char → Nat → Except GoError Nat
  | [], n => .ok n
  | c :: cs, n =>
    match digitVal c.toNat with
    | none => .error (.numError "ParseUint" s0 ErrSyntax)
    | some d =>
      if d ≥ base then .error (.numError "ParseUint" s0 ErrSyntax)
      else if n ≥ (2 ^ 64 - 1) / base + 1 then .error (.numError "ParseUint" s0 ErrRange)
      else
        let n1 := n * base + d
        if n1 > 2 ^ 64 - 1 then .error (.numError "ParseUint" s0 ErrRange)
        else parseLoop s0 base cs n1

/-- Model of `strconv.ParseUint(s, base, 64)` for an explicit base `2 ≤ base ≤ 36`
(no base prefix, no underscores). -/
def ParseUint (s : String) (base : Nat) : Except GoError Nat :=
  if s = "" then .error (.numError "ParseUint" s ErrSyntax)
  else parseLoop s base s.data 0

end strconv

namespace strings

/-- Model of `strings.TrimPrefix(s, pre)`. -/
def TrimPrefix (s pre : String) : String :=
  if pre.data.isPrefixOf s.data then String.mk (s.data.drop pre.data.length) else s

end strings

/-! ## `encoding/hex` and `hexutil` -/

namespace hex

/-- The table `hextable` of `encoding/hex`. -/
def hextable : List Char := "0123456789abcdef".data

/-- Model of `hex.Encode`: two lowercase digits per byte, high nibble first. -/
def Encode : Bytes → List Char
  | [] => []
  | v :: rest => hextable.getD (v / 16 % 16) '0' :: hextable.getD (v % 16) '0' :: Encode rest

end hex

namespace hexutil

/-- Model of `hexutil.Encode`: `"0x"` followed by `hex.Encode` of the bytes. -/
def Encode (b : Bytes) : String := "0x" ++ String.mk (hex.Encode b)

end hexutil

/-! ## Legacy Keccak-256 (`sha3.NewLegacyKeccak256`) -/

namespace sha3

/-- The 24 round constants of Keccak-f[1600]. -/
def roundConstants : List Nat :=
  [0x0000000000000001, 0x0000000000008082, 0x800000000000808A, 0x8000000080008000,
   0x000000000000808B, 0x0000000080000001, 0x8000000080008081, 0x8000000000008009,
   0x000000000000008A, 0x0000000000000088, 0x0000000080008009, 0x000000008000000A,
   0x000000008000808B, 0x800000000000008B, 0x8000000000008089, 0x8000000000008003,
   0x8000000000008002, 0x8000000000000080, 0x000000000000800A, 0x800000008000000A,
   0x8000000080008081, 0x8000000000008080, 0x0000000080000001, 0x8000000080008008]

/-- The rotation offsets of the rho step; lane `(x, y)` is at index `x + 5 * y`. -/
def rotationOffsets : List Nat :=
  [ 0,  1, 62, 28, 27,
   36, 44,  6, 55, 20,
    3, 10, 43, 25, 39,
   41, 45, 15, 21,  8,
   18,  2, 61, 56, 14]

/-- Rotate a 64-bit lane to the left. -/
def rotl64 (x n : Nat) : Nat := ((x <<< n) ||| (x >>> (64 - n))) % 2 ^ 64

/-- Lane `(x, y)` of a state, coordinates taken modulo 5. -/
def lane (a : List Nat) (x y : Nat) : Nat := a.getD (x % 5 + 5 * (y % 5)) 0

/-- The theta step. -/
def theta (a : List Nat) : List Nat :=
  let c := (List.range 5).map fun x =>
    lane a x 0 ^^^ lane a x 1 ^^^ lane a x 2 ^^^ lane a x 3 ^^^ lane a x 4
  let d := (List.range 5).map fun x =>
    c.getD ((x + 4) % 5) 0 ^^^ rotl64 (c.getD ((x + 1) % 5) 0) 1
  (List.range 25).map fun i => a.getD i 0 ^^^ d.getD (i % 5) 0

/-- The rho and pi steps: lane `(x, y)` of the result is the rotated lane
`(x + 3 y, x)` of the argument. -/
def rhoPi (a : List Nat) : List Nat :=
  (List.range 25).map fun i =>
    let x := i % 5
    let y := i / 5
    let sx := (x + 3 * y) % 5
    rotl64 (lane a sx x) (rotationOffsets.getD (sx + 5 * x) 0)

/-- The chi step. -/
def chi (b : List Nat) : List Nat :=
  (List.range 25).map fun i =>
    let x := i % 5
    let y := i / 5
    lane b x y ^^^ (((2 ^ 64 - 1) ^^^ lane b (x + 1) y) &&& lane b (x + 2) y)

/-- The iota step with round constant `rc`. -/
def iota (rc : Nat) (a : List Nat) : List Nat :=
  match a with
  | [] => []
  | a0 :: rest => (a0 ^^^ rc) :: rest

/-- The permutation Keccak-f[1600]: 24 rounds. -/
def keccakF1600 (a : List Nat) : List Nat :=
  roundConstants.foldl (fun st rc => iota rc (chi (rhoPi (theta st)))) a

/-- A little-endian byte string as a number. -/
def fromLE : Bytes → Nat
  | [] => 0
  | b :: bs => b % 256 + 256 * fromLE bs

/-- The `n` low bytes of a number, little-endian. -/
def toLE : Nat → Nat → Bytes
  | 0, _ => []
  | n + 1, v => v % 256 :: toLE n (v / 256)

/-- The rate of Keccak-256 in bytes. -/
def rate : Nat := 136

/-- The first `n` lanes of a block of bytes. -/
def lanesOf : Nat → Bytes → List Nat
  | 0, _ => []
  | n + 1, bs => fromLE (bs.take 8) :: lanesOf n (bs.drop 8)

/-- Xor one block of `rate` bytes into the state. -/
def xorIn (st : List Nat) (block : Bytes) : List Nat :=
  let ls := lanesOf 17 block
  (List.range 25).map fun i => st.getD i 0 ^^^ ls.getD i 0

/-- Pad a message to a whole number of blocks: domain byte `0x01`, zeros, final
bit `0x80` (both in one byte `0x81` when a single byte is missing). -/
def pad (msg : Bytes) : Bytes :=
  let q := rate - msg.length % rate
  if q = 1 then msg ++ [0x81]
  else msg ++ [0x01] ++ List.replicate (q - 2) 0 ++ [0x80]

/-- Absorb `n` blocks. -/
def absorb : Nat → List Nat → Bytes → List Nat
  | 0, st, _ => st
  | n + 1, st, msg => absorb n (keccakF1600 (xorIn st (msg.take rate))) (msg.drop rate)

/-- The 32-byte legacy Keccak-256 digest of a message. -/
def legacyKeccak256 (msg : Bytes) : Bytes :=
  let p := pad msg
  let st := absorb (p.length / rate) (List.replicate 25 0) p
  toLE 8 (st.getD 0 0) ++ toLE 8 (st.getD 1 0) ++ toLE 8 (st.getD 2 0) ++ toLE 8 (st.getD 3 0)

end sha3

/-! ## `go-ethereum`: `crypto`, `accounts`, `common` -/

/-- An `*ecdsa.PrivateKey` on secp256k1: the secret scalar and the coordinates of
the public point. -/
structure PrivateKey where
  D : Nat
  X : Nat
  Y : Nat
deriving DecidableEq, Repr

namespace common

/-- Model of `common.Hash.Hex`: `hexutil.Encode` of the 32 bytes. -/
def Hash.Hex (h : Bytes) : String := hexutil.Encode h

/-- The loop of `Address.checksumHex` over the 40 digits after `"0x"`: digit `i`
is turned to upper case when it is a letter and nibble `i` of the hash of the
lowercase digits is above 7. -/
def checksumLoop (hash : Bytes) : Nat → List Char → List Char
  | _, [] => []
  | i, c :: cs =>
    let hashByte := if i % 2 = 0 then hash.getD (i / 2) 0 / 16 % 16 else hash.getD (i / 2) 0 % 16
    (if c.toNat > 57 ∧ hashByte > 7 then Char.ofNat (c.toNat - 32) else c) :: checksumLoop hash (i + 1) cs

/-- Model of `common.Address.Hex`: the EIP-55 checksummed text of a 20-byte address. -/
def Address.Hex (a : Bytes) : String :=
  let buf := hex.Encode a
  "0x" ++ String.mk (checksumLoop (sha3.legacyKeccak256 (buf.map Char.toNat)) 0 buf)

end common

namespace crypto

/-- Model of `crypto.Keccak256` and of the bytes of `crypto.Keccak256Hash`. -/
def Keccak256 (data : Bytes) : Bytes := sha3.legacyKeccak256 data

/-- The `n` low bytes of a number, big-endian (`big.Int.FillBytes`). -/
def fillBytes (n : Nat) (v : Nat) : Bytes := (sha3.toLE n v).reverse

/-- Model of `crypto.PubkeyToAddress`: the last 20 bytes of the Keccak-256 digest
of the 64 bytes `X ‖ Y` of the uncompressed public point. -/
def PubkeyToAddress (k : PrivateKey) : Bytes :=
  (Keccak256 (fillBytes 32 k.X ++ fillBytes 32 k.Y)).drop 12

end crypto

namespace accounts

/-- Model of `accounts.TextHash`: the Keccak-256 digest of
`"\x19Ethereum Signed Message:\n" ++ decimal length ++ data`. -/
def TextHash (data : Bytes) : Bytes :=
  crypto.Keccak256
    (stringBytes ("\x19Ethereum Signed Message:\n" ++ strconv.FormatUint data.length 10) ++ data)

end accounts

deriving instance DecidableEq for Except

/-! ## `encoding/json`: strings -/

namespace json

/-- The UTF-8 encoding of a code point. -/
def utf8 (c : Nat) : Bytes :=
  if c < 0x80 then [c]
  else if c < 0x800 then [0xC0 ||| (c >>> 6), 0x80 ||| (c &&& 0x3F)]
  else if c < 0x10000 then
    [0xE0 ||| (c >>> 12), 0x80 ||| ((c >>> 6) &&& 0x3F), 0x80 ||| (c &&& 0x3F)]
  else
    [0xF0 ||| (c >>> 18), 0x80 ||| ((c >>> 12) &&& 0x3F), 0x80 ||| ((c >>> 6) &&& 0x3F),
      0x80 ||| (c &&& 0x3F)]

/-- The table `htmlSafeSet`: the ASCII characters from the space on, but for the
double quote, the ampersand, the angle brackets and the backslash. -/
def htmlSafe (b : Nat) : Bool :=
  0x20 ≤ b && b ≤ 0x7f && b != 34 && b != 38 && b != 60 && b != 62 && b != 92

/-- What `appendString` writes for one character of the string, with HTML
escaping on as `json.Marshal` has it. -/
def escape (c : Nat) : Bytes :=
  if c < 0x80 then
    if htmlSafe c then [c]
    else if c = 92 ∨ c = 34 then [92, c]
    else if c = 8 then [92, 98]
    else if c = 12 then [92, 102]
    else if c = 10 then [92, 110]
    else if c = 13 then [92, 114]
    else if c = 9 then [92, 116]
    else [92, 117, 48, 48, (hex.hextable.getD (c / 16) '0').toNat,
      (hex.hextable.getD (c % 16) '0').toNat]
  else if c = 0x2028 ∨ c = 0x2029 then
    [92, 117, 50, 48, 50, (hex.hextable.getD (c % 16) '0').toNat]
  else utf8 c

/-- Model of the JSON text of a Go string: the escaped characters between double
quotes. -/
def encodeString (s : String) : Bytes :=
  [34] ++ s.data.flatMap (fun c => escape c.toNat) ++ [34]

end json

/-! ## The package `flashbot`: data (`types.go`, `bundle.go`, `constants.go`, `impl.go`) -/

namespace Flashbot

/-- A Go `float64`, carried as its IEEE-754 bit pattern; the package never computes with it. -/
abbrev Float64 := Nat

/-- A `*types.Transaction` of go-ethereum, seen through the two methods the
package calls on it: the outcome of `MarshalBinary()` and the value of `Gas()`. -/
structure Transaction where
  MarshalBinary : Except GoError Bytes
  Gas : Nat
deriving DecidableEq, Repr

/-- The struct `Bundle` of `bundle.go`. -/
structure Bundle where
  Transactions : List Transaction
  CanRevert : List Bool
  ReplacementUUID : String
  Builders : List String
  MinTimestamp : Int
deriving DecidableEq, Repr

/-- The struct `MevSendBundleRefund`. -/
structure MevSendBundleRefund where
  BodyIdx : Int
  Percent : Float64
deriving DecidableEq, Repr

/-- The struct `MevSendBundleRefundConfig`. -/
structure MevSendBundleRefundConfig where
  Address : String
  Percent : Float64
deriving DecidableEq, Repr

/-- The struct `MevSendBundleValidity`. -/
structure MevSendBundleValidity where
  Refund : List MevSendBundleRefund
  RefundConfig : List MevSendBundleRefundConfig
deriving DecidableEq, Repr

/-- The struct `MevSendBundlePrivacy`. -/
structure MevSendBundlePrivacy where
  Hints : List String
  Builders : List String
deriving DecidableEq, Repr

/-- The struct `MevSendBundleMetadata`. -/
structure MevSendBundleMetadata where
  OriginID : Option String
deriving DecidableEq, Repr

/-- The struct `mevSendBundleInclusion`; a nil `MaxBlock` is `none`. -/
structure mevSendBundleInclusion where
  Block : String
  MaxBlock : Option String
deriving DecidableEq, Repr

mutual
/-- The struct `MevSendBundleParams` of `types.go`. -/
inductive MevSendBundleParams where
  | mk (Version : String) (Inclusion : mevSendBundleInclusion)
      (Body : List mevSendBundleBodyItem) (Validity : Option MevSendBundleValidity)
      (Privacy : Option MevSendBundlePrivacy) (Metadata : Option MevSendBundleMetadata)
/-- The struct `mevSendBundleBodyItem`: four optional fields, `none` for a nil pointer. -/
inductive mevSendBundleBodyItem where
  | mk (Hash : Option String) (Tx : Option String) (CanRevert : Option Bool)
      (Bundle : Option MevSendBundleParams)
end

/-- Field `Hash` of a body item. -/
def mevSendBundleBodyItem.Hash : mevSendBundleBodyItem → Option String
  | .mk h _ _ _ => h

/-- Field `Tx` of a body item. -/
def mevSendBundleBodyItem.Tx : mevSendBundleBodyItem → Option String
  | .mk _ t _ _ => t

/-- Field `CanRevert` of a body item. -/
def mevSendBundleBodyItem.CanRevert : mevSendBundleBodyItem → Option Bool
  | .mk _ _ c _ => c

/-- Field `Bundle` of a body item. -/
def mevSendBundleBodyItem.Bundle : mevSendBundleBodyItem → Option MevSendBundleParams
  | .mk _ _ _ b => b

/-- The struct `mevSimBundleParams` of `bundle.go`, the parameters object of both
`mev_simBundle` and `mev_sendBundle`. -/
structure mevSimBundleParams where
  Version : String
  Inclusion : mevSendBundleInclusion
  Body : List mevSendBundleBodyItem
  Validity : Option MevSendBundleValidity
  Privacy : Option MevSendBundlePrivacy
  Metadata : Option MevSendBundleMetadata

/-- The type `BundleOption`, `func(*mevSimBundleParams) error`: the parameters as
the call leaves them, and the error it returns (`none` for nil). -/
abbrev BundleOption := mevSimBundleParams → mevSimBundleParams × Option GoError

/-- The string type `method`. -/
abbrev method := String

/-- Constant `methodMevSendBundle`. -/
def methodMevSendBundle : method := "mev_sendBundle"

/-- Constant `methodMevSimBundle`. -/
def methodMevSimBundle : method := "mev_simBundle"

/-- Constant `headerFlashbotSignature`. -/
def headerFlashbotSignature : String := "X-Flashbots-Signature"

/-- Constant `jsonRPCVersion`. -/
def jsonRPCVersion : String := "2.0"

/-- Constant `MainnetRelayURL`. -/
def MainnetRelayURL : String := "https://relay.flashbots.net"

/-- Constant `SepoliaRelayURL`. -/
def SepoliaRelayURL : String := "https://relay-sepolia.flashbots.net"

/-- Constant `MainnetChainID`. -/
def MainnetChainID : Nat := 1

/-- Constant `SepoliaChainID`. -/
def SepoliaChainID : Nat := 11155111

/-- The struct `rpcReq`; `Params` is a `[]interface{}` that the package only ever
fills with parameters objects. -/
structure rpcReq where
  JsonRpc : String
  Id : Int
  Method : method
  Params : List mevSimBundleParams

/-- The struct `rpcError`. -/
structure rpcError where
  Code : Int
  Message : String
deriving DecidableEq, Repr

/-- The struct `LogEntry`. -/
structure LogEntry where
  Address : String
  Topics : List String
  Data : String
deriving DecidableEq, Repr

/-- The struct `TxLogResult`. -/
structure TxLogResult where
  TxLogs : List LogEntry
deriving DecidableEq, Repr

/-- The struct `MevSimResponse`. -/
structure MevSimResponse where
  Success : Bool
  StateBlock : String
  MevGasPrice : String
  Profit : String
  RefundableValue : String
  GasUsed : String
  Logs : List TxLogResult
deriving DecidableEq, Repr

/-- The alias `SimulateResponse = MevSimResponse`. -/
abbrev SimulateResponse := MevSimResponse

/-- The struct `BroadcastResponse`. -/
structure BroadcastResponse where
  BundleHash : String
  Smart : Bool
deriving DecidableEq, Repr

/-- The anonymous response struct that `Simulate` decodes into. -/
structure simRpcResp where
  Id : Int
  Result : Option MevSimResponse
  Error : Option rpcError
deriving DecidableEq, Repr

/-- The anonymous response struct that `Broadcast` decodes into. -/
structure broadcastRpcResp where
  Jsonrpc : String
  ID : Int
  Result : Option BroadcastResponse
  Error : Option rpcError
deriving DecidableEq, Repr

/-- An `*http.Request`, as far as the package sets it. -/
structure HttpRequest where
  Method : String
  URL : String
  Header : List (String × String)
  Body : Bytes
deriving DecidableEq, Repr

/-- An `*http.Response`: status and headers, the outcome of `io.ReadAll(resp.Body)`
and the outcome of `resp.Body.Close()` (`none` for nil). -/
structure HttpResponse where
  StatusCode : Int
  Header : List (String × String)
  Body : Except GoError Bytes
  Close : Option GoError
deriving DecidableEq, Repr

/-- Model of `http.Header.Set` for a key that is already in canonical form. -/
def HttpRequest.setHeader (r : HttpRequest) (key value : String) : HttpRequest :=
  { r with Header := (r.Header.filter fun kv => kv.1 ≠ key) ++ [(key, value)] }

/-- Model of `http.Header.Get` for a key that is already in canonical form. -/
def HttpRequest.getHeader (r : HttpRequest) (key : String) : Option String :=
  (r.Header.find? fun kv => kv.1 = key).map Prod.snd

/-- What the package does to the outside, in the order it does it. -/
inductive Event where
  /-- A call `f.newRequest(ctx, &req)`: the envelope is serialized and signed. -/
  | newRequest (req : rpcReq)
  /-- A call `f.client.Do(httpReq)`, `httpReq` built from the envelope `req`. -/
  | Do (req : rpcReq) (httpReq : HttpRequest)
  /-- A call `fmt.Println(string(bs))`. -/
  | Println (bs : Bytes)

/-- The envelope an event is about, if it is about one. -/
def Event.req? : Event → Option rpcReq
  | .newRequest req => some req
  | .Do req _ => some req
  | .Println _ => none

/-- The state outside the client: the pseudo random source of `math/rand` (the
value it yields at each draw, and how many draws were made) and the trace of
events so far, the most recent last. -/
structure World where
  rng : Nat → Nat
  draws : Nat
  trace : List Event

/-- Model of `rand.Intn(n)`: the next value of the source, reduced into `[0, n)`. -/
def World.Intn (w : World) (n : Nat) : Int × World :=
  (((w.rng w.draws % n : Nat) : Int), { w with draws := w.draws + 1 })

/-- Record an event. -/
def World.emit (w : World) (e : Event) : World := { w with trace := w.trace ++ [e] }

/-- An `*http.Client`: the outcome of `Do`, which may depend on everything the
world has seen before the call. -/
abbrev HttpClient := List Event → HttpRequest → Except GoError HttpResponse

/-- The library functions the package calls that are not embedded as computation. -/
structure Lib where
  /-- The JSON text `json.Marshal` writes for a parameters object, the element of
  `Params`, or the error it returns for it. -/
  jsonMarshalParams : mevSimBundleParams → Except GoError Bytes
  /-- The call `json.Unmarshal` into the response struct of `Simulate`. -/
  unmarshalSim : Bytes → Except GoError simRpcResp
  /-- The call `json.Unmarshal` into the response struct of `Broadcast`. -/
  unmarshalBroadcast : Bytes → Except GoError broadcastRpcResp
  /-- The call `crypto.Sign(digest, key)`: the 65-byte secp256k1 signature. -/
  Sign : Bytes → PrivateKey → Except GoError Bytes
  /-- The error of `url.Parse` inside `http.NewRequestWithContext`, `none` for a URL that parses. -/
  urlParse : String → Option GoError

/-- The struct `flashbot` of `impl.go` (its logger, tracer and node client play no
part in the relay calls). -/
structure flashbot where
  relayURL : String
  chainID : Nat
  builders : List String
  pk : PrivateKey
  client : HttpClient

/-! ## Bundle options (`bundle.go`) -/

/-- The option `WithValidity`. -/
def WithValidity (validity : MevSendBundleValidity) : BundleOption := fun params =>
  ({ params with Validity := some validity }, none)

/-- The option `WithPrivacy`. -/
def WithPrivacy (privacy : MevSendBundlePrivacy) : BundleOption := fun params =>
  ({ params with Privacy := some privacy }, none)

/-- The option `WithMetadata`. -/
def WithMetadata (metadata : MevSendBundleMetadata) : BundleOption := fun params =>
  ({ params with Metadata := some metadata }, none)

/-- The option `WithExpirationDurationInBlocks`: parse `Inclusion.Block` without its
`0x` prefix as a base-16 `uint64`, add the duration in `uint64` arithmetic, and
write the sum as `Inclusion.MaxBlock`. -/
def WithExpirationDurationInBlocks (duration : Nat) : BundleOption := fun params =>
  match strconv.ParseUint (strings.TrimPrefix params.Inclusion.Block "0x") 16 with
  | .error err => (params, some (.wrap "failed to parse block number" err))
  | .ok block =>
    let block := (block + duration) % 2 ^ 64
    let maxBlock := "0x" ++ strconv.FormatUint block 16
    ({ params with Inclusion := { params.Inclusion with MaxBlock := some maxBlock } }, none)

/-- The option `WithExpirationBlock`. -/
def WithExpirationBlock (block : Nat) : BundleOption := fun params =>
  let maxBlock := "0x" ++ strconv.FormatUint block 16
  ({ params with Inclusion := { params.Inclusion with MaxBlock := some maxBlock } }, none)

/-! ## Building the parameters (`func.go`, lines 28-75 and 152-197) -/

/-- The loop over the transactions (lines 34-51 of `Simulate`, repeated as lines
153-170 of `Broadcast`): `i` is the index of the next transaction, `body` the items
appended so far.  A transaction that does not serialize ends the call. -/
def encodeBody (canRevert : List Bool) :
    Nat → List Transaction → List mevSendBundleBodyItem → Except GoError (List mevSendBundleBodyItem)
  | _, [], body => .ok body
  | i, tx :: txs, body =>
    match tx.MarshalBinary with
    | .error err => .error (.wrap "failed to encode transaction" err)
    | .ok bs =>
      let txHex := hexutil.Encode bs
      let flag := if i < canRevert.length then canRevert.getD i false else false
      encodeBody canRevert (i + 1) txs (body ++ [.mk none (some txHex) (some flag) none])

/-- The text `blockHex` (lines 54-59 and 173-178). -/
def blockHex (targetBlock : Nat) : String :=
  if targetBlock = 0 then "latest" else "0x" ++ strconv.FormatUint targetBlock 16

/-- The loop that applies the options (lines 68-75 and 190-197): in list order,
stopping at the first one that returns an error. -/
def applyOptions : List BundleOption → mevSimBundleParams → mevSimBundleParams × Option GoError
  | [], params => (params, none)
  | opt :: opts, params =>
    match opt params with
    | (params, some err) => (params, some (.wrap "failed to apply option" err))
    | (params, none) => applyOptions opts params

/-- The parameters `Simulate` builds (lines 28-75), or the error it returns instead. -/
def simParams (bundle : Bundle) (targetBlock : Nat) (opts : List BundleOption) :
    Except GoError mevSimBundleParams :=
  if bundle.Transactions.length = 0 then .error (.errorf "bundle cannot be empty")
  else
    match encodeBody bundle.CanRevert 0 bundle.Transactions [] with
    | .error err => .error err
    | .ok body =>
      let params : mevSimBundleParams :=
        { Version := "v0.1"
          Inclusion := { Block := blockHex targetBlock, MaxBlock := none }
          Body := body, Validity := none, Privacy := none, Metadata := none }
      match applyOptions opts params with
      | (_, some err) => .error err
      | (params, none) => .ok params

/-- The parameters `Broadcast` builds after its simulation (lines 152-197), or the
error it returns instead. -/
def sendParams (bundle : Bundle) (targetBlock : Nat) (opts : List BundleOption) :
    Except GoError mevSimBundleParams :=
  match encodeBody bundle.CanRevert 0 bundle.Transactions [] with
  | .error err => .error err
  | .ok body =>
    let maxBlock := "0x" ++ strconv.FormatUint ((targetBlock + 30) % 2 ^ 64) 16
    let params : mevSimBundleParams :=
      { Version := "v0.1"
        Inclusion := { Block := blockHex targetBlock, MaxBlock := some maxBlock }
        Body := body, Validity := none, Privacy := none, Metadata := none }
    match applyOptions opts params with
    | (_, some err) => .error err
    | (params, none) => .ok params

/-! ## The request envelope as `encoding/json` writes it -/

/-- The JSON texts of the elements of `Params`, separated by commas; the first
element that does not serialize ends the call. -/
def marshalParamsList (marshalParams : mevSimBundleParams → Except GoError Bytes) :
    List mevSimBundleParams → Except GoError Bytes
  | [] => .ok []
  | p :: ps =>
    match marshalParams p with
    | .error err => .error err
    | .ok b =>
      match ps with
      | [] => .ok b
      | _ :: _ =>
        match marshalParamsList marshalParams ps with
        | .error err => .error err
        | .ok bs => .ok (b ++ [44] ++ bs)

/-- The JSON text of the slice `Params`: `null` for the nil slice, which is the zero
value of the field and what the empty list stands for (the package builds no empty
slice that is not nil), and an array of the texts of its elements otherwise. -/
def marshalParamsSlice (marshalParams : mevSimBundleParams → Except GoError Bytes) :
    List mevSimBundleParams → Except GoError Bytes
  | [] => .ok (stringBytes "null")
  | p :: ps =>
    match marshalParamsList marshalParams (p :: ps) with
    | .error err => .error err
    | .ok bs => .ok (stringBytes "[" ++ bs ++ stringBytes "]")

/-- Model of `json.Marshal` on a `*rpcReq`, given the serializer of a parameters
object: an object whose members are the fields of the struct `rpcReq` in the order
of their declaration, under the names of their tags `jsonrpc`, `id`, `method` and
`params`; an error of the serializer of the parameters is the error of the call. -/
def marshalRpcReq (marshalParams : mevSimBundleParams → Except GoError Bytes) (r : rpcReq) :
    Except GoError Bytes :=
  match marshalParamsSlice marshalParams r.Params with
  | .error err => .error err
  | .ok ps =>
    .ok (stringBytes "\x7b\"jsonrpc\":" ++ json.encodeString r.JsonRpc ++
      stringBytes ",\"id\":" ++ stringBytes (strconv.Itoa r.Id) ++
      stringBytes ",\"method\":" ++ json.encodeString r.Method ++
      stringBytes ",\"params\":" ++ ps ++ stringBytes "\x7d")

/-! ## Signing and sending (`func.go`, lines 324-371, 77-139 and 199-262) -/

/-- The method `rpcReq.ToJson`: `json.Marshal(r)`. -/
def rpcReq.ToJson (r : rpcReq) (L : Lib) : Except GoError Bytes :=
  marshalRpcReq L.jsonMarshalParams r

/-- The method `signRequest`. -/
def flashbot.signRequest (f : flashbot) (L : Lib) (body : Bytes) : Except GoError String :=
  let hashedBody := common.Hash.Hex (crypto.Keccak256 body)
  match L.Sign (accounts.TextHash (stringBytes hashedBody)) f.pk with
  | .error err => .error (.wrap "failed to sign request" err)
  | .ok sig =>
    let address := crypto.PubkeyToAddress f.pk
    .ok (common.Address.Hex address ++ ":" ++ hexutil.Encode sig)

/-- Model of `http.NewRequestWithContext` for a valid method and a byte reader as
body: it fails exactly when the URL does not parse. -/
def NewRequestWithContext (L : Lib) (httpMethod url : String) (body : Bytes) :
    Except GoError HttpRequest :=
  match L.urlParse url with
  | some err => .error err
  | none => .ok { Method := httpMethod, URL := url, Header := [], Body := body }

/-- The method `newRequest`. -/
def flashbot.newRequest (f : flashbot) (L : Lib) (req : rpcReq) : Except GoError HttpRequest :=
  match req.ToJson L with
  | .error err => .error (.wrap "failed to marshal request" err)
  | .ok jsonBody =>
    match f.signRequest L jsonBody with
    | .error err => .error (.wrap "failed to sign request" err)
    | .ok signature =>
      match NewRequestWithContext L "POST" f.relayURL jsonBody with
      | .error err => .error (.wrap "failed to create HTTP request" err)
      | .ok httpReq =>
        .ok ((httpReq.setHeader "Content-Type" "application/json").setHeader
          headerFlashbotSignature signature)

/-- The text of the error returned for a relay error object:
`"RPC error: %s (code: %d)"`. -/
def rpcErrorText (e : rpcError) : String :=
  "RPC error: " ++ e.Message ++ " (code: " ++ strconv.Itoa e.Code ++ ")"

/-- The method `Simulate`: the result pointer and the error it returns, and the
world it leaves. -/
def flashbot.Simulate (f : flashbot) (L : Lib) (w : World) (bundle : Bundle) (targetBlock : Nat)
    (opts : List BundleOption) : (Option SimulateResponse × Option GoError) × World :=
  match simParams bundle targetBlock opts with
  | .error err => ((none, some err), w)
  | .ok params =>
    let reqID := (w.Intn 1000000).1
    let w1 := (w.Intn 1000000).2
    let reqBody : rpcReq :=
      { JsonRpc := jsonRPCVersion, Id := reqID, Method := methodMevSimBundle, Params := [params] }
    let w2 := w1.emit (.newRequest reqBody)
    match f.newRequest L reqBody with
    | .error err => ((none, some (.wrap "failed to create HTTP request" err)), w2)
    | .ok httpReq =>
      let w3 := w2.emit (.Do reqBody httpReq)
      match f.client w2.trace httpReq with
      | .error err => ((none, some (.wrap "failed to execute request" err)), w3)
      | .ok resp =>
        match resp.Body with
        | .error err => ((none, some (.wrap "failed to read response body" err)), w3)
        | .ok bs =>
          match resp.Close with
          | some err => ((none, some (.wrap "failed to close response body" err)), w3)
          | none =>
            match L.unmarshalSim bs with
            | .error err => ((none, some (.wrap "failed to unmarshal response" err)), w3)
            | .ok rpcResp =>
              match rpcResp.Error with
              | some e => ((rpcResp.Result, some (.errorf (rpcErrorText e))), w3)
              | none =>
                match rpcResp.Result with
                | none => ((none, some (.errorf "empty result from relay")), w3)
                | some r => ((some r, none), w3)

/-- The method `Broadcast`: the result pointer and the error it returns, and the
world it leaves. -/
def flashbot.Broadcast (f : flashbot) (L : Lib) (w : World) (bundle : Bundle) (targetBlock : Nat)
    (opts : List BundleOption) : (Option BroadcastResponse × Option GoError) × World :=
  match f.Simulate L w bundle targetBlock [] with
  | ((_, some err), w0) => ((none, some (.wrap "failed to simulate bundle" err)), w0)
  | ((_, none), w0) =>
    match sendParams bundle targetBlock opts with
    | .error err => ((none, some err), w0)
    | .ok params =>
      let reqID := (w0.Intn 1000000).1
      let w1 := (w0.Intn 1000000).2
      let reqBody : rpcReq :=
        { JsonRpc := jsonRPCVersion, Id := reqID, Method := methodMevSendBundle, Params := [params] }
      let w2 := w1.emit (.newRequest reqBody)
      match f.newRequest L reqBody with
      | .error err => ((none, some (.wrap "failed to create HTTP request" err)), w2)
      | .ok httpReq =>
        let w3 := w2.emit (.Do reqBody httpReq)
        match f.client w2.trace httpReq with
        | .error err => ((none, some (.wrap "failed to execute request" err)), w3)
        | .ok resp =>
          match resp.Body with
          | .error err => ((none, some (.wrap "failed to read response body" err)), w3)
          | .ok bs =>
            let w4 := w3.emit (.Println bs)
            match resp.Close with
            | some err => ((none, some (.wrap "failed to close response body" err)), w4)
            | none =>
              match L.unmarshalBroadcast bs with
              | .error err => ((none, some (.wrap "failed to unmarshal response" err)), w4)
              | .ok rpcResp =>
                match rpcResp.Error with
                | some e => ((rpcResp.Result, some (.errorf (rpcErrorText e))), w4)
                | none =>
                  match rpcResp.Result with
                  | none => ((none, some (.errorf "empty result from relay")), w4)
                  | some r => ((some r, none), w4)

/-! ## Concrete inputs used to exercise the embedding -/

/-- The secp256k1 key with secret scalar 1; its public point is the generator. -/
def demoKey : PrivateKey :=
  { D := 1
    X := 0x79BE667EF9DCBBAC55A06295CE870B07029BFCDB2DCE28D959F2815B16F81798
    Y := 0x483ADA7726A3C4655DA4FBFC0E1108A8FD17B448A68554199C47D08FFB10D4B8 }

/-- A simulation result as a relay would report it. -/
def demoSimResponse : MevSimResponse :=
  { Success := true, StateBlock := "0x3e7", MevGasPrice := "0x1", Profit := "0x2",
    RefundableValue := "0x0", GasUsed := "0x5208", Logs := [] }

/-- A broadcast acknowledgement as a relay would report it. -/
def demoBroadcastResponse : BroadcastResponse := { BundleHash := "0xabcd", Smart := false }

/-- A relay error object. -/
def demoRpcError : rpcError := { Code := -32000, Message := "bundle reverted" }

/-- Stand-ins for the libraries of `Lib`.  The serializer of the parameters writes
their version and their block only; the decoders read a one-letter answer (`r` a
result, `e` an error object, `b` both, `n` neither); the signer checks the digest
length as `crypto.Sign` does and hands back the digest twice over and a zero byte,
65 bytes that expose what it was asked to sign; every URL parses. -/
def demoLib : Lib where
  jsonMarshalParams p := .ok (stringBytes
    ("\x7b\"version\":\"" ++ p.Version ++ "\",\"inclusion\":\x7b\"block\":\"" ++
      p.Inclusion.Block ++ "\"\x7d\x7d"))
  unmarshalSim bs :=
    if bs = [114] then .ok { Id := 1, Result := some demoSimResponse, Error := none }
    else if bs = [101] then .ok { Id := 1, Result := none, Error := some demoRpcError }
    else if bs = [98] then .ok { Id := 1, Result := some demoSimResponse, Error := some demoRpcError }
    else if bs = [110] then .ok { Id := 1, Result := none, Error := none }
    else .error (.lib "invalid character")
  unmarshalBroadcast bs :=
    if bs = [114] then
      .ok { Jsonrpc := "2.0", ID := 1, Result := some demoBroadcastResponse, Error := none }
    else if bs = [101] then .ok { Jsonrpc := "2.0", ID := 1, Result := none, Error := some demoRpcError }
    else if bs = [98] then
      .ok { Jsonrpc := "2.0", ID := 1, Result := some demoBroadcastResponse, Error := some demoRpcError }
    else if bs = [110] then .ok { Jsonrpc := "2.0", ID := 1, Result := none, Error := none }
    else .error (.lib "invalid character")
  Sign digest _ :=
    if digest.length = 32 then .ok (digest ++ digest ++ [0])
    else .error (.lib "hash is required to be exactly 32 bytes")
  urlParse _ := none

/-- A relay that answers every request with a result. -/
def relayAccepting : HttpClient := fun _ _ =>
  .ok { StatusCode := 200, Header := [], Body := .ok [114], Close := none }

/-- A relay that answers every request with an error object. -/
def relayRejecting : HttpClient := fun _ _ =>
  .ok { StatusCode := 200, Header := [], Body := .ok [101], Close := none }

/-- A client for the Sepolia relay, as the test of the package configures it. -/
def demoClient (client : HttpClient) : flashbot :=
  { relayURL := SepoliaRelayURL, chainID := SepoliaChainID, builders := [], pk := demoKey,
    client := client }

/-- A bundle of two transactions with one revert flag. -/
def demoBundle : Bundle :=
  { Transactions := [{ MarshalBinary := .ok [2, 248, 111], Gas := 21000 },
                     { MarshalBinary := .ok [2, 248, 176], Gas := 60000 }]
    CanRevert := [true], ReplacementUUID := "", Builders := [], MinTimestamp := 0 }

/-- A bundle whose second transaction does not serialize. -/
def failingBundle : Bundle :=
  { Transactions := [{ MarshalBinary := .ok [2, 248, 111], Gas := 21000 },
                     { MarshalBinary := .error (.lib "rlp: value too large"), Gas := 60000 }]
    CanRevert := [], ReplacementUUID := "", Builders := [], MinTimestamp := 0 }

/-- A bundle without transactions. -/
def emptyBundle : Bundle :=
  { Transactions := [], CanRevert := [], ReplacementUUID := "", Builders := [], MinTimestamp := 0 }

/-- A `mev_simBundle` envelope for target block 1000 with an empty body. -/
def demoEnvelope : rpcReq :=
  { JsonRpc := jsonRPCVersion, Id := 7, Method := methodMevSimBundle
    Params := [{ Version := "v0.1", Inclusion := { Block := "0x3e8", MaxBlock := none }
                 Body := [], Validity := none, Privacy := none, Metadata := none }] }

/-- The HTTP request the Sepolia client builds for `demoEnvelope` with the stand-in
libraries. -/
def demoHttpRequest : HttpRequest :=
  { Method := "POST", URL := "https://relay-sepolia.flashbots.net"
    Body := stringBytes ("\x7b\"jsonrpc\":\"2.0\",\"id\":7,\"method\":\"mev_simBundle\"," ++
      "\"params\":[\x7b\"version\":\"v0.1\",\"inclusion\":\x7b\"block\":\"0x3e8\"\x7d\x7d]\x7d")
    Header := [("Content-Type", "application/json"),
      ("X-Flashbots-Signature", "0x7E5F4552091A69125d5DfCb7b8C2659029395Bdf:0x" ++
        "21a9d4faf8083778adafbe026abcf0b1b60eb7def84013cae0a4353cf01209d5" ++
        "21a9d4faf8083778adafbe026abcf0b1b60eb7def84013cae0a4353cf01209d500")] }

/-- A world that has seen nothing yet. -/
def demoWorld : World := { rng := fun n => 1234567 + n, draws := 0, trace := [] }

/-! ## Vocabulary of the statements -/

/-- The events a call added, given the world before it and the world after it. -/
def World.eventsSince (w w' : World) : List Event := w'.trace.drop w.trace.length

/-- The parameters objects of the requests with method `m` that a call started to
build or handed to the HTTP client, given the world before it and the world after it. -/
def World.paramsSince (w w' : World) (m : method) : List mevSimBundleParams :=
  (((w.eventsSince w').filterMap Event.req?).filter fun req => req.Method = m).flatMap
    fun req => req.Params

/-- The requests a call handed to the HTTP client, given the world before it and
the world after it. -/
def World.sentSince (w w' : World) : List HttpRequest :=
  (w.eventsSince w').filterMap fun e =>
    match e with
    | .Do _ httpReq => some httpReq
    | _ => none

/-- The hex encoding of a natural number: `"0x"` followed by its base-16 digits,
most significant first, lowercase, without leading zeros (`"0x0"` for zero). -/
def hexEncoding (n : Nat) : String :=
  "0x" ++ String.mk (if n = 0 then ['0']
    else (Nat.digits 16 n).reverse.map fun d => "0123456789abcdef".data.getD d '0')

/-- The signer as the comment above `signRequest` words it ("Apply EIP-191 directly
on the JSON body bytes, not on a hash of the body"): the text hash of `msg` itself
is what is signed. -/
def flashbot.signTextHashOf (f : flashbot) (L : Lib) (msg : Bytes) : Except GoError String :=
  match L.Sign (accounts.TextHash msg) f.pk with
  | .error err => .error (.wrap "failed to sign request" err)
  | .ok sig => .ok (common.Address.Hex (crypto.PubkeyToAddress f.pk) ++ ":" ++ hexutil.Encode sig)

/-- A character is a hexadecimal digit, of either case. -/
def isHexDigit (c : Char) : Prop := c ∈ "0123456789abcdefABCDEF".data

/-- A character is a lowercase hexadecimal digit. -/
def isLowerHexDigit (c : Char) : Prop := c ∈ "0123456789abcdef".data

/-- An option is one of the five the package provides. -/
def BundleOption.IsProvided (o : BundleOption) : Prop :=
  (∃ v, o = WithValidity v) ∨ (∃ v, o = WithPrivacy v) ∨ (∃ v, o = WithMetadata v) ∨
    (∃ d, o = WithExpirationDurationInBlocks d) ∨ (∃ b, o = WithExpirationBlock b)

/-- An option is one of the three provided ones that are no expiration option. -/
def BundleOption.IsProvidedNonExpiration (o : BundleOption) : Prop :=
  (∃ v, o = WithValidity v) ∨ (∃ v, o = WithPrivacy v) ∨ (∃ v, o = WithMetadata v)

/-! ## The remaining methods of `func.go` -/

/-- The struct `UserStats`; the values of its map are carried as text. -/
structure UserStats where
  Reputation : Float64
  Stats : List (String × String)
deriving DecidableEq, Repr

/-- The struct `BundleStats`. -/
structure BundleStats where
  BundleHash : String
  BlockNumber : Nat
  Status : String
  Message : String
deriving DecidableEq, Repr

/-- The method `SendPrivateTransaction`: the error it returns and the world it
leaves. -/
def flashbot.SendPrivateTransaction (_f : flashbot) (w : World) (_signedTxHex : String)
    (_maxBlockHeight : Nat) : Option GoError × World :=
  (some (.errorf "not implemented"), w)

/-- The method `GetUserStats`; a nil `blockNumber` is `none`. -/
def flashbot.GetUserStats (_f : flashbot) (w : World) (_blockNumber : Option Int) :
    (Option UserStats × Option GoError) × World :=
  ((none, some (.errorf "not implemented")), w)

/-- The method `GetBundleStats`. -/
def flashbot.GetBundleStats (_f : flashbot) (w : World) (_bundleHash : String)
    (_blockNumber : Nat) : (Option BundleStats × Option GoError) × World :=
  ((none, some (.errorf "not implemented")), w)

/-- The method `EstimateGasBundle`: the loop adds the gas limit of each transaction
to a `uint64` total. -/
def flashbot.EstimateGasBundle (_f : flashbot) (w : World) (bundle : Bundle) :
    (Nat × Option GoError) × World :=
  ((bundle.Transactions.foldl (fun totalGas tx => (totalGas + tx.Gas) % 2 ^ 64) 0, none), w)

/-! ## Observing the answer of the relay -/

/-- The response `client.Do` returned to the `mev_simBundle` request of a call of
`Simulate`, when the call got as far as a response. -/
def flashbot.simulateResponse (f : flashbot) (L : Lib) (w : World) (bundle : Bundle)
    (targetBlock : Nat) (opts : List BundleOption) : Option HttpResponse :=
  match simParams bundle targetBlock opts with
  | .error _ => none
  | .ok params =>
    let reqBody : rpcReq :=
      { JsonRpc := jsonRPCVersion, Id := (w.Intn 1000000).1, Method := methodMevSimBundle
        Params := [params] }
    match f.newRequest L reqBody with
    | .error _ => none
    | .ok httpReq =>
      match f.client ((w.Intn 1000000).2.emit (.newRequest reqBody)).trace httpReq with
      | .error _ => none
      | .ok resp => some resp

/-- The response `client.Do` returned to the `mev_sendBundle` request of a call of
`Broadcast`, when the call got as far as a response to it. -/
def flashbot.broadcastResponse (f : flashbot) (L : Lib) (w : World) (bundle : Bundle)
    (targetBlock : Nat) (opts : List BundleOption) : Option HttpResponse :=
  match f.Simulate L w bundle targetBlock [] with
  | ((_, some _), _) => none
  | ((_, none), w0) =>
    match sendParams bundle targetBlock opts with
    | .error _ => none
    | .ok params =>
      let reqBody : rpcReq :=
        { JsonRpc := jsonRPCVersion, Id := (w0.Intn 1000000).1, Method := methodMevSendBundle
          Params := [params] }
      match f.newRequest L reqBody with
      | .error _ => none
      | .ok httpReq =>
        match f.client ((w0.Intn 1000000).2.emit (.newRequest reqBody)).trace httpReq with
        | .error _ => none
        | .ok resp => some resp

/-- A response as `Simulate` decodes it, when it is decodable: its body is read
and closed without error and parses. -/
def Lib.decodeSim (L : Lib) (resp : HttpResponse) : Option simRpcResp :=
  match resp.Body with
  | .error _ => none
  | .ok bs =>
    match resp.Close with
    | some _ => none
    | none =>
      match L.unmarshalSim bs with
      | .error _ => none
      | .ok d => some d

/-- A response as `Broadcast` decodes it, when it is decodable. -/
def Lib.decodeBroadcast (L : Lib) (resp : HttpResponse) : Option broadcastRpcResp :=
  match resp.Body with
  | .error _ => none
  | .ok bs =>
    match resp.Close with
    | some _ => none
    | none =>
      match L.unmarshalBroadcast bs with
      | .error _ => none
      | .ok d => some d

/-- What a call returns for a decoded answer with the given `result` and `error`
(lines 128-138 of `Simulate`, lines 251-261 of `Broadcast`). -/
def rpcOutcome {α : Type} (result : Option α) (error : Option rpcError) :
    Option α × Option GoError :=
  match error with
  | some e => (result, some (.errorf (rpcErrorText e)))
  | none =>
    match result with
    | none => (none, some (.errorf "empty result from relay"))
    | some r => (some r, none)

/-- The envelopes of the requests a call started to build or handed to the HTTP
client, given the world before it and the world after it. -/
def World.requestsSince (w w' : World) : List rpcReq :=
  (w.eventsSince w').filterMap Event.req?

/-- An envelope has the shape the package gives to a request of method `m`: version
`2.0`, an id from 0 up to 999999, exactly one parameters object, the method `m`;
and `encoding/json` writes it as the object with the members `jsonrpc`, `id`,
`method` and `params`, in this order, around the text of the parameters object. -/
def rpcReq.IsEnvelopeOf (req : rpcReq) (m : method) : Prop :=
  req.JsonRpc = "2.0" ∧ 0 ≤ req.Id ∧ req.Id < 1000000 ∧ req.Params.length = 1 ∧
    req.Method = m ∧
    ∃ p, req.Params = [p] ∧
      ∀ marshalParams : mevSimBundleParams → Except GoError Bytes,
        marshalRpcReq marshalParams req =
          (marshalParams p).map fun pb =>
            stringBytes "\x7b\"jsonrpc\":\"2.0\",\"id\":" ++ stringBytes (strconv.Itoa req.Id) ++
              stringBytes (",\"method\":\"" ++ m ++ "\",\"params\":[") ++ pb ++
              stringBytes "]\x7d"

/-! ## Classes of provided options -/

/-- An option is one of the four provided ones that do not write `Validity`. -/
def BundleOption.IsProvidedNonValidity (o : BundleOption) : Prop :=
  (∃ v, o = WithPrivacy v) ∨ (∃ v, o = WithMetadata v) ∨
    (∃ d, o = WithExpirationDurationInBlocks d) ∨ (∃ b, o = WithExpirationBlock b)

/-- An option is one of the four provided ones that do not write `Privacy`. -/
def BundleOption.IsProvidedNonPrivacy (o : BundleOption) : Prop :=
  (∃ v, o = WithValidity v) ∨ (∃ v, o = WithMetadata v) ∨
    (∃ d, o = WithExpirationDurationInBlocks d) ∨ (∃ b, o = WithExpirationBlock b)

/-- An option is one of the four provided ones that do not write `Metadata`. -/
def BundleOption.IsProvidedNonMetadata (o : BundleOption) : Prop :=
  (∃ v, o = WithValidity v) ∨ (∃ v, o = WithPrivacy v) ∨
    (∃ d, o = WithExpirationDurationInBlocks d) ∨ (∃ b, o = WithExpirationBlock b)

/-! ## More concrete inputs -/

/-- A relay that answers the first request it is handed with the body `first` and
every later one with the body `later`. -/
def relayThen (first later : Bytes) : HttpClient := fun trace _ =>
  if trace.all (fun e => match e with
      | .Do _ _ => false
      | _ => true)
  then .ok { StatusCode := 200, Header := [], Body := .ok first, Close := none }
  else .ok { StatusCode := 200, Header := [], Body := .ok later, Close := none }

/-- A parameters object for block 1000 with an empty body. -/
def demoParams : mevSimBundleParams :=
  { Version := "v0.1", Inclusion := { Block := "0x3e8", MaxBlock := none }
    Body := [], Validity := none, Privacy := none, Metadata := none }

/-- A parameters object whose block is the largest `uint64`. -/
def demoParamsTop : mevSimBundleParams :=
  { Version := "v0.1", Inclusion := { Block := "0xffffffffffffffff", MaxBlock := none }
    Body := [], Validity := none, Privacy := none, Metadata := none }

/-- A validity configuration. -/
def demoValidity : MevSendBundleValidity :=
  { Refund := [{ BodyIdx := 0, Percent := 0x4049000000000000 }], RefundConfig := [] }

/-- A privacy configuration. -/
def demoPrivacy : MevSendBundlePrivacy := { Hints := ["hash"], Builders := [] }

end Flashbot

namespace Flashbot

/-! ## Inputs for the claims on options and answers -/

/-- A metadata configuration. -/
def demoMetadata : MevSendBundleMetadata := { OriginID := some "origin" }

/-- The four options that write a field each, in one list. -/
def demoAllOptions : List BundleOption :=
  [WithValidity demoValidity, WithPrivacy demoPrivacy, WithMetadata demoMetadata,
    WithExpirationBlock 2000]

/-! ## Hexadecimal numbers in words -/

/-- The value of a hexadecimal digit, of either case; `none` for any other character. -/
def hexDigitValue (c : Char) : Option Nat :=
  if '0'.toNat ≤ c.toNat ∧ c.toNat ≤ '9'.toNat then some (c.toNat - '0'.toNat)
  else if 'a'.toNat ≤ c.toNat ∧ c.toNat ≤ 'f'.toNat then some (c.toNat - 'a'.toNat + 10)
  else if 'A'.toNat ≤ c.toNat ∧ c.toNat ≤ 'F'.toNat then some (c.toNat - 'A'.toNat + 10)
  else none

/-- The number that a run of hexadecimal digits denotes after the value `n` of the
digits before it, most significant digit first; `none` when some character is no
hexadecimal digit. -/
def hexDigitsValue : List Char → Nat → Option Nat
  | [], n => some n
  | c :: cs, n =>
    match hexDigitValue c with
    | none => none
    | some d => hexDigitsValue cs (n * 16 + d)

/-- The number a text denotes as a hexadecimal number: the text is not empty and
made of hexadecimal digits only.  There is no bound on the number. -/
def hexNumber (s : String) : Option Nat :=
  if s.data = [] then none else hexDigitsValue s.data 0

/-- A parameters object for the latest block that already carries a `maxBlock`. -/
def demoParamsLatest : mevSimBundleParams :=
  { Version := "v0.1", Inclusion := { Block := "latest", MaxBlock := some "0x406" }
    Body := [], Validity := none, Privacy := none, Metadata := none }

/-- A relay that answers every request with the given status code, headers and body. -/
def relayAnswering (status : Int) (header : List (String × String)) (body : Bytes) :
    HttpClient := fun _ _ =>
  .ok { StatusCode := status, Header := header, Body := .ok body, Close := none }

/-- The Sepolia client again, configured with a chain id and builders of its own. -/
def demoClientWithBuilders (client : HttpClient) : flashbot :=
  { demoClient client with chainID := MainnetChainID, builders := ["flashbots", "titan"] }

/-- The demonstration bundle with a replacement UUID, builders and a minimum
timestamp. -/
def demoBundleTagged : Bundle :=
  { demoBundle with
      ReplacementUUID := "6f1c3b62-3a5e-4c55-9d0e-2f4f3c1a7b10", Builders := ["beaverbuild"]
      MinTimestamp := 1700000000 }

/-! ## Construction (`impl.go`, `option.go`) -/

/-- What `New` takes from outside the package: the client `http.DefaultClient`, and
the outcome of the one call `crypto.GenerateKey()` that `setDefaults` makes. -/
structure Runtime where
  DefaultClient : HttpClient
  GenerateKey : Except GoError PrivateKey

/-- The type `Option` of `option.go`, `func(*flashbot) error`: the client as the call
leaves it, and the error it returns (`none` for nil).  It is named `ClientOption`
here, the name `Option` being the one of Lean's own type. -/
abbrev ClientOption := flashbot → flashbot × Option GoError

/-- The option `WithBuilders`. -/
def WithBuilders (builders : List String) : ClientOption := fun f =>
  ({ f with builders := builders }, none)

/-- The option `WithRelayURL`. -/
def WithRelayURL (relayURL : String) : ClientOption := fun f =>
  ({ f with relayURL := relayURL }, none)

/-- The option `WithChainID`. -/
def WithChainID (chainID : Nat) : ClientOption := fun f =>
  ({ f with chainID := chainID }, none)

/-- The statement `f := &flashbot{}` of `New` followed by the method `setDefaults`:
the HTTP client, the relay URL and the key are set, the chain id and the builders
keep the zero value of the struct literal; the error of `crypto.GenerateKey()` is
returned as it is. -/
def flashbot.setDefaults (R : Runtime) : Except GoError flashbot :=
  match R.GenerateKey with
  | .error err => .error err
  | .ok pk =>
    .ok { relayURL := MainnetRelayURL, chainID := 0, builders := [], pk := pk
          client := R.DefaultClient }

/-- The method `init`: it opens and closes a span and returns nil. -/
def flashbot.init (_f : flashbot) : Option GoError := none

/-- The loop of `New` over the options: in list order, stopping at the first one
that returns an error, which is returned as it is. -/
def applyClientOptions : List ClientOption → flashbot → flashbot × Option GoError
  | [], f => (f, none)
  | opt :: opts, f =>
    match opt f with
    | (f, some err) => (f, some err)
    | (f, none) => applyClientOptions opts f

/-- The constructor `New`: the client it returns, or the error it returns with a
nil client. -/
def New (R : Runtime) (opts : List ClientOption) : Except GoError flashbot :=
  match flashbot.setDefaults R with
  | .error err => .error err
  | .ok f =>
    match applyClientOptions opts f with
    | (_, some err) => .error err
    | (f, none) =>
      match f.init with
      | some err => .error err
      | none => .ok f

/-- A construction option is one of the three the package provides. -/
def ClientOption.IsProvided (o : ClientOption) : Prop :=
  (∃ b, o = WithBuilders b) ∨ (∃ u, o = WithRelayURL u) ∨ (∃ c, o = WithChainID c)

/-- A construction option is one of the two provided ones that do not write the relay URL. -/
def ClientOption.IsProvidedNonRelayURL (o : ClientOption) : Prop :=
  (∃ b, o = WithBuilders b) ∨ (∃ c, o = WithChainID c)

/-- A construction option is one of the two provided ones that do not write the chain id. -/
def ClientOption.IsProvidedNonChainID (o : ClientOption) : Prop :=
  (∃ b, o = WithBuilders b) ∨ (∃ u, o = WithRelayURL u)

/-- A construction option is one of the two provided ones that do not write the builders. -/
def ClientOption.IsProvidedNonBuilders (o : ClientOption) : Prop :=
  (∃ u, o = WithRelayURL u) ∨ (∃ c, o = WithChainID c)

/-- A runtime in which key generation yields `demoKey` and the default HTTP client
is a relay that accepts. -/
def demoRuntime : Runtime := { DefaultClient := relayAccepting, GenerateKey := .ok demoKey }

/-- A runtime in which key generation fails. -/
def failingRuntime : Runtime :=
  { DefaultClient := relayAccepting, GenerateKey := .error (.lib "entropy source unavailable") }

/-- A key of the caller: the secp256k1 key with secret scalar 2. -/
def callerKey : PrivateKey :=
  { D := 2
    X := 0xC6047F9441ED7D6D3045406E95C07CD85C778E4B8CEF3CA7ABAC09B95C709EE5
    Y := 0x1AE168FEA63DC339A3C58419466CEAEEF7F632653266D0E1236431A950CFE52A }

/-- The options of the test of the package, with a builder list before them. -/
def demoClientOptions : List ClientOption :=
  [WithBuilders ["flashbots"], WithChainID SepoliaChainID, WithRelayURL SepoliaRelayURL]

/-! ## Calls on a pointer to the bundle -/

/-- What an address of the memory holds: a `Bundle` of the caller, or a parameters
object (the local variable `params` of a call, whose address the option loop hands
to each option). -/
inductive Cell where
  | bundle (b : Bundle)
  | params (p : mevSimBundleParams)

/-- The memory: the cells allocated so far, a cell at each address below the length;
the next allocation takes the address that is the length. -/
abbrev Memory := List Cell

/-- The call `opt(&params)`: an option reads and writes the parameters object at the
address it is given.  It is `none` when the address does not hold one. -/
def BundleOption.callAt (opt : BundleOption) (m : Memory) (params : Nat) :
    Option (Memory × Option GoError) :=
  match m[params]? with
  | some (.params p) => some (m.set params (.params (opt p).1), (opt p).2)
  | _ => none

/-- The loop that applies the options (lines 68-75 and 190-197) to the parameters
object at an address. -/
def applyOptionsAt : List BundleOption → Memory → Nat → Option (Memory × Option GoError)
  | [], m, _ => some (m, none)
  | opt :: opts, m, params =>
    match opt.callAt m params with
    | none => none
    | some (m, some err) => some (m, some (.wrap "failed to apply option" err))
    | some (m, none) => applyOptionsAt opts m params

/-- Lines 77-139 of `Simulate`: the request for the parameters built before, and the
answer to it. -/
def flashbot.simulateSend (f : flashbot) (L : Lib) (w : World) (params : mevSimBundleParams) :
    (Option SimulateResponse × Option GoError) × World :=
  let reqID := (w.Intn 1000000).1
  let w1 := (w.Intn 1000000).2
  let reqBody : rpcReq :=
    { JsonRpc := jsonRPCVersion, Id := reqID, Method := methodMevSimBundle, Params := [params] }
  let w2 := w1.emit (.newRequest reqBody)
  match f.newRequest L reqBody with
  | .error err => ((none, some (.wrap "failed to create HTTP request" err)), w2)
  | .ok httpReq =>
    let w3 := w2.emit (.Do reqBody httpReq)
    match f.client w2.trace httpReq with
    | .error err => ((none, some (.wrap "failed to execute request" err)), w3)
    | .ok resp =>
      match resp.Body with
      | .error err => ((none, some (.wrap "failed to read response body" err)), w3)
      | .ok bs =>
        match resp.Close with
        | some err => ((none, some (.wrap "failed to close response body" err)), w3)
        | none =>
          match L.unmarshalSim bs with
          | .error err => ((none, some (.wrap "failed to unmarshal response" err)), w3)
          | .ok rpcResp =>
            match rpcResp.Error with
            | some e => ((rpcResp.Result, some (.errorf (rpcErrorText e))), w3)
            | none =>
              match rpcResp.Result with
              | none => ((none, some (.errorf "empty result from relay")), w3)
              | some r => ((some r, none), w3)

/-- Lines 199-262 of `Broadcast`: the request for the parameters built before, and
the answer to it. -/
def flashbot.broadcastSend (f : flashbot) (L : Lib) (w0 : World) (params : mevSimBundleParams) :
    (Option BroadcastResponse × Option GoError) × World :=
  let reqID := (w0.Intn 1000000).1
  let w1 := (w0.Intn 1000000).2
  let reqBody : rpcReq :=
    { JsonRpc := jsonRPCVersion, Id := reqID, Method := methodMevSendBundle, Params := [params] }
  let w2 := w1.emit (.newRequest reqBody)
  match f.newRequest L reqBody with
  | .error err => ((none, some (.wrap "failed to create HTTP request" err)), w2)
  | .ok httpReq =>
    let w3 := w2.emit (.Do reqBody httpReq)
    match f.client w2.trace httpReq with
    | .error err => ((none, some (.wrap "failed to execute request" err)), w3)
    | .ok resp =>
      match resp.Body with
      | .error err => ((none, some (.wrap "failed to read response body" err)), w3)
      | .ok bs =>
        let w4 := w3.emit (.Println bs)
        match resp.Close with
        | some err => ((none, some (.wrap "failed to close response body" err)), w4)
        | none =>
          match L.unmarshalBroadcast bs with
          | .error err => ((none, some (.wrap "failed to unmarshal response" err)), w4)
          | .ok rpcResp =>
            match rpcResp.Error with
            | some e => ((rpcResp.Result, some (.errorf (rpcErrorText e))), w4)
            | none =>
              match rpcResp.Result with
              | none => ((none, some (.errorf "empty result from relay")), w4)
              | some r => ((some r, none), w4)

/-- The method `Simulate` with its argument `bundle *Bundle` as an address of the
memory: the bundle is read through the pointer, the local `params` is allocated and
handed to the options by address.  The outcome is what the call returns, the world
and the memory it leaves; it is `none` when the call panics, `bundle` being nil or
not the address of a bundle. -/
def flashbot.SimulateAt (f : flashbot) (L : Lib) (w : World) (m : Memory) (bundle : Nat)
    (targetBlock : Nat) (opts : List BundleOption) :
    Option (((Option SimulateResponse × Option GoError) × World) × Memory) :=
  match m[bundle]? with
  | some (.bundle b) =>
    if b.Transactions.length = 0 then
      some (((none, some (.errorf "bundle cannot be empty")), w), m)
    else
      match encodeBody b.CanRevert 0 b.Transactions [] with
      | .error err => some (((none, some err), w), m)
      | .ok body =>
        let params := m.length
        let m1 := m ++ [.params
          { Version := "v0.1"
            Inclusion := { Block := blockHex targetBlock, MaxBlock := none }
            Body := body, Validity := none, Privacy := none, Metadata := none }]
        match applyOptionsAt opts m1 params with
        | none => none
        | some (m2, some err) => some (((none, some err), w), m2)
        | some (m2, none) =>
          match m2[params]? with
          | some (.params p) => some (f.simulateSend L w p, m2)
          | _ => none
  | _ => none

/-- The method `Broadcast` with its argument `bundle *Bundle` as an address of the
memory: the simulation is called on the same pointer, and the bundle is read through
it again afterwards. -/
def flashbot.BroadcastAt (f : flashbot) (L : Lib) (w : World) (m : Memory) (bundle : Nat)
    (targetBlock : Nat) (opts : List BundleOption) :
    Option (((Option BroadcastResponse × Option GoError) × World) × Memory) :=
  match f.SimulateAt L w m bundle targetBlock [] with
  | none => none
  | some (((_, some err), w0), m0) =>
    some (((none, some (.wrap "failed to simulate bundle" err)), w0), m0)
  | some (((_, none), w0), m0) =>
    match m0[bundle]? with
    | some (.bundle b) =>
      match encodeBody b.CanRevert 0 b.Transactions [] with
      | .error err => some (((none, some err), w0), m0)
      | .ok body =>
        let maxBlock := "0x" ++ strconv.FormatUint ((targetBlock + 30) % 2 ^ 64) 16
        let params := m0.length
        let m1 := m0 ++ [.params
          { Version := "v0.1"
            Inclusion := { Block := blockHex targetBlock, MaxBlock := some maxBlock }
            Body := body, Validity := none, Privacy := none, Metadata := none }]
        match applyOptionsAt opts m1 params with
        | none => none
        | some (m2, some err) => some (((none, some err), w0), m2)
        | some (m2, none) =>
          match m2[params]? with
          | some (.params p) => some (f.broadcastSend L w0 p, m2)
          | _ => none
    | _ => none

/-- The method `EstimateGasBundle` with its argument `bundle *Bundle` as an address
of the memory: the loop reads the transactions through the pointer and allocates
nothing. -/
def flashbot.EstimateGasBundleAt (_f : flashbot) (w : World) (m : Memory) (bundle : Nat) :
    Option (((Nat × Option GoError) × World) × Memory) :=
  match m[bundle]? with
  | some (.bundle b) =>
    some (((b.Transactions.foldl (fun totalGas tx => (totalGas + tx.Gas) % 2 ^ 64) 0, none), w), m)
  | _ => none

/-- A memory that holds a parameters object of an earlier call at address 0 and the
tagged demonstration bundle at address 1. -/
def demoMemory : Memory := [.params demoParams, .bundle demoBundleTagged]

end Flashbot

/-! # Theorems -/

/-! ## Known answers of the library models -/

/-- The Keccak-256 digest of the empty message. -/
theorem sha3.legacyKeccak256_nil :
    hexutil.Encode (sha3.legacyKeccak256 []) =
      "0xc5d2460186f7233c927e7db2dcc703c0e500b653ca82273b7bfad8045d85a470" := by
  decide!

/-- The Keccak-256 digest of `transfer(address,uint256)`, whose first four bytes
are the well-known selector `a9059cbb`. -/
theorem sha3.legacyKeccak256_transfer :
    hexutil.Encode (sha3.legacyKeccak256 (stringBytes "transfer(address,uint256)")) =
      "0xa9059cbb2ab09eb219583f4a59a5d0623ade346d962bcd4e46b11da047c9049b" := by
  decide!

/-- The text hash of `hello`. -/
theorem accounts.TextHash_hello :
    hexutil.Encode (accounts.TextHash (stringBytes "hello")) =
      "0x50b2c43fd39106bafbba0da34fc430e1f91e3c96ea2acee2bc34119f92b37750" := by
  decide!

/-- The checksummed address of the key with secret 1. -/
theorem crypto.PubkeyToAddress_demoKey :
    common.Address.Hex (crypto.PubkeyToAddress Flashbot.demoKey) =
      "0x7E5F4552091A69125d5DfCb7b8C2659029395Bdf" := by
  decide!

/-- A test vector of EIP-55. -/
theorem common.Address.Hex_eip55 :
    common.Address.Hex [0x5a, 0xae, 0xb6, 0x05, 0x3f, 0x3e, 0x94, 0xc9, 0xb9, 0xa0, 0x9f, 0x33,
        0x66, 0x94, 0x35, 0xe7, 0xef, 0x1b, 0xea, 0xed] =
      "0x5aAeb6053F3E94C9b9A09f33669435E7Ef1BeAed" := by
  decide!

/-- Formatting and parsing of block numbers on known values. -/
theorem strconv.known_answers :
    strconv.FormatUint 1000 16 = "3e8" ∧ strconv.FormatUint 0 16 = "0" ∧
      strconv.FormatUint (2 ^ 64 - 1) 16 = "ffffffffffffffff" ∧
      strconv.FormatUint 1030 10 = "1030" ∧ strconv.Itoa (-32000) = "-32000" ∧
      strconv.ParseUint "3e8" 16 = .ok 1000 ∧ strconv.ParseUint "3E8" 16 = .ok 1000 ∧
      strconv.ParseUint "ffffffffffffffff" 16 = .ok (2 ^ 64 - 1) ∧
      strconv.ParseUint "10000000000000000" 16 =
        .error (.numError "ParseUint" "10000000000000000" "value out of range") ∧
      strconv.ParseUint "latest" 16 = .error (.numError "ParseUint" "latest" "invalid syntax") ∧
      strconv.ParseUint "" 16 = .error (.numError "ParseUint" "" "invalid syntax") ∧
      strings.TrimPrefix "0x3e8" "0x" = "3e8" ∧ strings.TrimPrefix "latest" "0x" = "latest" := by
  decide!

namespace Flashbot

/-! ## The trace of a call -/

theorem eventsSince_self (w : World) : w.eventsSince w = [] := by
  simp [World.eventsSince]

theorem eventsSince_of_trace (w w' : World) (evs : List Event) (h : w'.trace = w.trace ++ evs) :
    w.eventsSince w' = evs := by
  simp [World.eventsSince, h]

theorem Intn_trace (w : World) (n : Nat) : (w.Intn n).2.trace = w.trace := rfl

theorem emit_trace (w : World) (e : Event) : (w.emit e).trace = w.trace ++ [e] := rfl

/-- The events `Simulate` adds: nothing, or the start of one `mev_simBundle` request
whose parameters are those of `simParams`, followed or not by its hand-over to the
HTTP client. -/
theorem Simulate_trace (f : flashbot) (L : Lib) (w : World) (bundle : Bundle) (targetBlock : Nat)
    (opts : List BundleOption) :
    ∃ evs, (f.Simulate L w bundle targetBlock opts).2.trace = w.trace ++ evs ∧
      (evs = [] ∨
        ∃ params id req, simParams bundle targetBlock opts = .ok params ∧
          req = { JsonRpc := jsonRPCVersion, Id := id, Method := methodMevSimBundle,
                  Params := [params] } ∧
          (evs = [.newRequest req] ∨
            ∃ httpReq, f.newRequest L req = .ok httpReq ∧
              evs = [.newRequest req, .Do req httpReq])) := by
  unfold flashbot.Simulate
  cases hp : simParams bundle targetBlock opts with
  | error err => exact ⟨[], by simp, Or.inl rfl⟩
  | ok params =>
    simp only []
    cases hn : f.newRequest L _ with
    | error err =>
      refine ⟨[.newRequest (⟨jsonRPCVersion, (w.Intn 1000000).1, methodMevSimBundle, [params]⟩ : rpcReq)], by simp [emit_trace, Intn_trace], Or.inr ?_⟩
      exact ⟨params, (w.Intn 1000000).1, _, rfl, rfl, Or.inl rfl⟩
    | ok httpReq =>
      refine ⟨[.newRequest (⟨jsonRPCVersion, (w.Intn 1000000).1, methodMevSimBundle, [params]⟩ : rpcReq), .Do (⟨jsonRPCVersion, (w.Intn 1000000).1, methodMevSimBundle, [params]⟩ : rpcReq) httpReq], ?_, Or.inr ?_⟩
      · simp only []
        split <;> (try split) <;> (try split) <;> (try split) <;> (try split) <;> (try split) <;>
          simp [emit_trace, Intn_trace]
      · exact ⟨params, (w.Intn 1000000).1, _, rfl, rfl, Or.inr ⟨httpReq, hn, rfl⟩⟩

/-- The events `Broadcast` adds after those of its simulation: nothing, or the start
of one `mev_sendBundle` request whose parameters are those of `sendParams`, followed
or not by its hand-over to the HTTP client and the printed answer. -/
theorem Broadcast_trace (f : flashbot) (L : Lib) (w : World) (bundle : Bundle) (targetBlock : Nat)
    (opts : List BundleOption) :
    ∃ evs, (f.Broadcast L w bundle targetBlock opts).2.trace =
        (f.Simulate L w bundle targetBlock []).2.trace ++ evs ∧
      (evs = [] ∨
        ∃ params id req, (f.Simulate L w bundle targetBlock []).1.2 = none ∧
          sendParams bundle targetBlock opts = .ok params ∧
          req = { JsonRpc := jsonRPCVersion, Id := id, Method := methodMevSendBundle,
                  Params := [params] } ∧
          (evs = [.newRequest req] ∨
            ∃ httpReq, f.newRequest L req = .ok httpReq ∧
              (evs = [.newRequest req, .Do req httpReq] ∨
                ∃ bs, evs = [.newRequest req, .Do req httpReq, .Println bs]))) := by
  unfold flashbot.Broadcast
  rcases hs : f.Simulate L w bundle targetBlock [] with ⟨⟨r, e⟩, w0⟩
  cases e with
  | some err => exact ⟨[], by simp, Or.inl rfl⟩
  | none =>
    simp only []
    cases hp : sendParams bundle targetBlock opts with
    | error err => exact ⟨[], by simp, Or.inl rfl⟩
    | ok params =>
      simp only []
      cases hn : f.newRequest L _ with
      | error err =>
        refine ⟨[.newRequest (⟨jsonRPCVersion, (w0.Intn 1000000).1, methodMevSendBundle, [params]⟩ : rpcReq)], by simp [emit_trace, Intn_trace], Or.inr ?_⟩
        exact ⟨params, (w0.Intn 1000000).1, _, trivial, rfl, rfl, Or.inl rfl⟩
      | ok httpReq =>
        simp only []
        cases hd : f.client _ httpReq with
        | error err =>
          refine ⟨[.newRequest (⟨jsonRPCVersion, (w0.Intn 1000000).1, methodMevSendBundle, [params]⟩ : rpcReq), .Do (⟨jsonRPCVersion, (w0.Intn 1000000).1, methodMevSendBundle, [params]⟩ : rpcReq) httpReq], by simp [emit_trace, Intn_trace], Or.inr ?_⟩
          exact ⟨params, (w0.Intn 1000000).1, _, trivial, rfl, rfl,
            Or.inr ⟨httpReq, hn, Or.inl rfl⟩⟩
        | ok resp =>
          simp only []
          cases hb : resp.Body with
          | error err =>
            refine ⟨[.newRequest (⟨jsonRPCVersion, (w0.Intn 1000000).1, methodMevSendBundle, [params]⟩ : rpcReq), .Do (⟨jsonRPCVersion, (w0.Intn 1000000).1, methodMevSendBundle, [params]⟩ : rpcReq) httpReq], by simp [emit_trace, Intn_trace], Or.inr ?_⟩
            exact ⟨params, (w0.Intn 1000000).1, _, trivial, rfl, rfl,
              Or.inr ⟨httpReq, hn, Or.inl rfl⟩⟩
          | ok bs =>
            refine ⟨[.newRequest (⟨jsonRPCVersion, (w0.Intn 1000000).1, methodMevSendBundle, [params]⟩ : rpcReq), .Do (⟨jsonRPCVersion, (w0.Intn 1000000).1, methodMevSendBundle, [params]⟩ : rpcReq) httpReq, .Println bs], ?_, Or.inr ?_⟩
            · simp only []
              split <;> (try split) <;> (try split) <;> (try split) <;>
                simp [emit_trace, Intn_trace]
            · exact ⟨params, (w0.Intn 1000000).1, _, trivial, rfl, rfl,
                Or.inr ⟨httpReq, hn, Or.inr ⟨bs, rfl⟩⟩⟩

/-- The parameters of every request `Simulate` starts are those of `simParams`, and
the request is a `mev_simBundle` one. -/
theorem Simulate_paramsSince (f : flashbot) (L : Lib) (w : World) (bundle : Bundle)
    (targetBlock : Nat) (opts : List BundleOption) (m : method) (p : mevSimBundleParams)
    (h : p ∈ w.paramsSince (f.Simulate L w bundle targetBlock opts).2 m) :
    m = methodMevSimBundle ∧ simParams bundle targetBlock opts = .ok p := by
  obtain ⟨evs, htr, hev⟩ := Simulate_trace f L w bundle targetBlock opts
  rw [World.paramsSince, eventsSince_of_trace _ _ _ htr] at h
  rcases hev with rfl | ⟨params, id, req, hp, rfl, rfl | ⟨httpReq, -, rfl⟩⟩
  · simp at h
  · by_cases hm : methodMevSimBundle = m
    · simp [Event.req?, hm] at h
      exact ⟨hm.symm, h ▸ hp⟩
    · simp [Event.req?, hm] at h
  · by_cases hm : methodMevSimBundle = m
    · simp [Event.req?, hm] at h
      exact ⟨hm.symm, h ▸ hp⟩
    · simp [Event.req?, hm] at h

/-- The parameters of every request `Broadcast` starts are those of `simParams`
without options for a `mev_simBundle` request and those of `sendParams` for a
`mev_sendBundle` request, and there is no request of another method. -/
theorem Broadcast_paramsSince (f : flashbot) (L : Lib) (w : World) (bundle : Bundle)
    (targetBlock : Nat) (opts : List BundleOption) (m : method) (p : mevSimBundleParams)
    (h : p ∈ w.paramsSince (f.Broadcast L w bundle targetBlock opts).2 m) :
    (m = methodMevSimBundle ∧ simParams bundle targetBlock [] = .ok p) ∨
      (m = methodMevSendBundle ∧ sendParams bundle targetBlock opts = .ok p ∧
        (f.Simulate L w bundle targetBlock []).1.2 = none) := by
  obtain ⟨evs, htr, hev⟩ := Simulate_trace f L w bundle targetBlock []
  obtain ⟨evs', htr', hev'⟩ := Broadcast_trace f L w bundle targetBlock opts
  have hsim : ∀ q, q ∈ (((evs.filterMap Event.req?).filter fun req => req.Method = m).flatMap
      fun req => req.Params) → m = methodMevSimBundle ∧ simParams bundle targetBlock [] = .ok q := by
    intro q hq
    apply Simulate_paramsSince f L w bundle targetBlock [] m q
    rw [World.paramsSince, eventsSince_of_trace _ _ _ htr]
    exact hq
  rw [htr, List.append_assoc] at htr'
  rw [World.paramsSince, eventsSince_of_trace _ _ _ htr', List.filterMap_append, List.filter_append,
    List.flatMap_append, List.mem_append] at h
  rcases h with h | h
  · exact Or.inl (hsim p h)
  · right
    rcases hev' with rfl | ⟨params, id, req, hs, hp, rfl, rfl | ⟨httpReq, -, rfl | ⟨bs, rfl⟩⟩⟩
    · simp at h
    all_goals
      by_cases hm : methodMevSendBundle = m
      · simp [Event.req?, hm] at h
        exact ⟨hm.symm, h ▸ hp, hs⟩
      · simp [Event.req?, hm] at h

/-- The requests handed to the HTTP client by `Simulate`: at most one, and built by
`newRequest`. -/
theorem Simulate_sentSince (f : flashbot) (L : Lib) (w : World) (bundle : Bundle)
    (targetBlock : Nat) (opts : List BundleOption) (httpReq : HttpRequest)
    (h : httpReq ∈ w.sentSince (f.Simulate L w bundle targetBlock opts).2) :
    ∃ params, simParams bundle targetBlock opts = .ok params := by
  obtain ⟨evs, htr, hev⟩ := Simulate_trace f L w bundle targetBlock opts
  rw [World.sentSince, eventsSince_of_trace _ _ _ htr] at h
  rcases hev with rfl | ⟨params, id, req, hp, rfl, rfl | ⟨httpReq, -, rfl⟩⟩
  · simp at h
  · exact ⟨params, hp⟩
  · exact ⟨params, hp⟩

end Flashbot

namespace Flashbot

/-! ## Empty bundles, and simulation before broadcast -/

/-- The builder `simParams` rejects a bundle without transactions. -/
theorem simParams_empty (bundle : Bundle) (targetBlock : Nat) (opts : List BundleOption)
    (h : bundle.Transactions = []) :
    simParams bundle targetBlock opts = .error (.errorf "bundle cannot be empty") := by
  simp [simParams, h]

/-- C1: for a bundle with zero transactions, whatever the target block and the
options, `Simulate` and `Broadcast` return no result and an error (the empty-bundle
error, wrapped once more by `Broadcast`) and leave the world as it was: no request
is built, signed or sent, and no random number is drawn. -/
theorem empty_bundle_rejected (f : flashbot) (L : Lib) (w : World) (bundle : Bundle)
    (targetBlock : Nat) (opts : List BundleOption) (h : bundle.Transactions = []) :
    f.Simulate L w bundle targetBlock opts =
        ((none, some (.errorf "bundle cannot be empty")), w) ∧
      f.Broadcast L w bundle targetBlock opts =
        ((none, some (.wrap "failed to simulate bundle" (.errorf "bundle cannot be empty"))), w) ∧
      w.eventsSince (f.Simulate L w bundle targetBlock opts).2 = [] ∧
      w.eventsSince (f.Broadcast L w bundle targetBlock opts).2 = [] := by
  have hs : ∀ o, f.Simulate L w bundle targetBlock o =
      ((none, some (.errorf "bundle cannot be empty")), w) := by
    intro o
    simp [flashbot.Simulate, simParams_empty bundle targetBlock o h]
  have hb : f.Broadcast L w bundle targetBlock opts =
      ((none, some (.wrap "failed to simulate bundle" (.errorf "bundle cannot be empty"))), w) := by
    simp [flashbot.Broadcast, hs []]
  refine ⟨hs opts, hb, ?_, ?_⟩
  · rw [hs opts]; exact eventsSince_self w
  · rw [hb]; exact eventsSince_self w

/-- C1 at a concrete input: the empty bundle, target block 1000, one option. -/
theorem empty_bundle_rejected_witness :
    emptyBundle.Transactions = [] ∧
      (demoClient relayAccepting).Simulate demoLib demoWorld emptyBundle 1000
          [WithExpirationBlock 1005] =
        ((none, some (.errorf "bundle cannot be empty")), demoWorld) :=
  ⟨rfl, (empty_bundle_rejected (demoClient relayAccepting) demoLib demoWorld emptyBundle 1000
    [WithExpirationBlock 1005] rfl).1⟩

/-- The requests `Simulate` starts are `mev_simBundle` requests. -/
theorem Simulate_events_method (f : flashbot) (L : Lib) (w : World) (bundle : Bundle)
    (targetBlock : Nat) (opts : List BundleOption) (e : Event)
    (he : e ∈ w.eventsSince (f.Simulate L w bundle targetBlock opts).2) (req : rpcReq)
    (hr : e.req? = some req) : req.Method = methodMevSimBundle := by
  obtain ⟨evs, htr, hev⟩ := Simulate_trace f L w bundle targetBlock opts
  rw [eventsSince_of_trace _ _ _ htr] at he
  rcases hev with rfl | ⟨params, id, req', -, rfl, rfl | ⟨httpReq, -, rfl⟩⟩
  · simp at he
  · simp at he
    subst he
    simp [Event.req?] at hr
    subst hr
    rfl
  · simp at he
    rcases he with rfl | rfl <;> simp [Event.req?] at hr <;> subst hr <;> rfl

/-- C2: the trace of `Broadcast` begins with the trace of its own `Simulate` call
(made without options); and when that call returns an error, `Broadcast` returns no
result and that error wrapped, leaves the world as the simulation left it, and every
request it started is a `mev_simBundle` one: no `mev_sendBundle` request is built
or sent. -/
theorem Broadcast_simulates_first (f : flashbot) (L : Lib) (w : World) (bundle : Bundle)
    (targetBlock : Nat) (opts : List BundleOption) :
    (∃ evs, (f.Broadcast L w bundle targetBlock opts).2.trace =
        (f.Simulate L w bundle targetBlock []).2.trace ++ evs) ∧
      ∀ err, (f.Simulate L w bundle targetBlock []).1.2 = some err →
        (f.Broadcast L w bundle targetBlock opts).1 =
            (none, some (.wrap "failed to simulate bundle" err)) ∧
          (f.Broadcast L w bundle targetBlock opts).2 = (f.Simulate L w bundle targetBlock []).2 ∧
          w.paramsSince (f.Broadcast L w bundle targetBlock opts).2 methodMevSendBundle = [] ∧
          ∀ e ∈ w.eventsSince (f.Broadcast L w bundle targetBlock opts).2,
            ∀ req, e.req? = some req → req.Method = methodMevSimBundle := by
  refine ⟨?_, ?_⟩
  · obtain ⟨evs, htr, -⟩ := Broadcast_trace f L w bundle targetBlock opts
    exact ⟨evs, htr⟩
  · intro err herr
    have hb : f.Broadcast L w bundle targetBlock opts =
        ((none, some (.wrap "failed to simulate bundle" err)),
          (f.Simulate L w bundle targetBlock []).2) := by
      unfold flashbot.Broadcast
      rcases hs : f.Simulate L w bundle targetBlock [] with ⟨⟨r, e⟩, w0⟩
      rw [hs] at herr
      simp only [] at herr
      subst herr
      rfl
    have hev : ∀ e ∈ w.eventsSince (f.Broadcast L w bundle targetBlock opts).2,
        ∀ req, e.req? = some req → req.Method = methodMevSimBundle := by
      rw [hb]
      exact fun e he req hr => Simulate_events_method f L w bundle targetBlock [] e he req hr
    refine ⟨by rw [hb], by rw [hb], ?_, hev⟩
    rw [List.eq_nil_iff_forall_not_mem]
    intro p hp
    rcases Broadcast_paramsSince f L w bundle targetBlock opts _ p hp with ⟨hm, -⟩ | ⟨-, -, hn⟩
    · exact absurd hm (by decide)
    · rw [herr] at hn
      exact absurd hn (by simp)

/-- C2 at a concrete input: a relay that answers the simulation with an error
object. -/
theorem Broadcast_simulates_first_witness :
    ((demoClient relayRejecting).Simulate demoLib demoWorld demoBundle 1000 []).1.2 =
        some (.errorf "RPC error: bundle reverted (code: -32000)") ∧
      ((demoClient relayRejecting).Broadcast demoLib demoWorld demoBundle 1000
          [WithExpirationBlock 1005]).1 =
        (none, some (.wrap "failed to simulate bundle"
          (.errorf "RPC error: bundle reverted (code: -32000)"))) :=
  ⟨by decide!,
    ((Broadcast_simulates_first (demoClient relayRejecting) demoLib demoWorld demoBundle 1000
      [WithExpirationBlock 1005]).2 _ (by decide!)).1⟩

end Flashbot

/-! ## Hex text and digests -/

theorem sha3.toLE_length (n v : Nat) : (sha3.toLE n v).length = n := by
  induction n generalizing v with
  | zero => rfl
  | succ n ih => simp [sha3.toLE, ih]

theorem sha3.legacyKeccak256_length (msg : Bytes) : (sha3.legacyKeccak256 msg).length = 32 := by
  simp [sha3.legacyKeccak256, sha3.toLE_length]

theorem crypto.Keccak256_length (data : Bytes) : (crypto.Keccak256 data).length = 32 :=
  sha3.legacyKeccak256_length data

theorem crypto.PubkeyToAddress_length (k : PrivateKey) : (crypto.PubkeyToAddress k).length = 20 := by
  simp [crypto.PubkeyToAddress, crypto.Keccak256_length]

theorem hex.Encode_length (b : Bytes) : (hex.Encode b).length = 2 * b.length := by
  induction b with
  | nil => rfl
  | cons v rest ih => simp [hex.Encode, ih]; omega

theorem hex.hextable_getD_mem (i : Nat) (h : i < 16) :
    hex.hextable.getD i '0' ∈ "0123456789abcdef".data := by
  interval_cases i <;> decide

theorem hex.Encode_lower (b : Bytes) : ∀ c ∈ hex.Encode b, c ∈ "0123456789abcdef".data := by
  induction b with
  | nil => simp [hex.Encode]
  | cons v rest ih =>
    intro c hc
    simp only [hex.Encode, List.mem_cons] at hc
    rcases hc with rfl | rfl | hc
    · exact hex.hextable_getD_mem _ (Nat.mod_lt _ (by decide))
    · exact hex.hextable_getD_mem _ (Nat.mod_lt _ (by decide))
    · exact ih c hc

theorem common.checksumLoop_length (hash : Bytes) (i : Nat) (cs : List Char) :
    (common.checksumLoop hash i cs).length = cs.length := by
  induction cs generalizing i with
  | nil => rfl
  | cons c cs ih => simp [common.checksumLoop, ih]

theorem common.checksum_char_hex (c : Char) (hc : c ∈ "0123456789abcdef".data) (hashByte : Nat) :
    (if c.toNat > 57 ∧ hashByte > 7 then Char.ofNat (c.toNat - 32) else c) ∈
      "0123456789abcdefABCDEF".data := by
  simp only [String.data, List.mem_cons, List.mem_singleton, List.not_mem_nil, or_false] at hc
  by_cases hb : hashByte > 7
  · simp only [hb, and_true]
    rcases hc with rfl | rfl | rfl | rfl | rfl | rfl | rfl | rfl | rfl | rfl | rfl | rfl | rfl |
      rfl | rfl | rfl <;> decide
  · simp only [hb, and_false, if_false]
    rcases hc with rfl | rfl | rfl | rfl | rfl | rfl | rfl | rfl | rfl | rfl | rfl | rfl | rfl |
      rfl | rfl | rfl <;> decide

theorem common.checksumLoop_hex (hash : Bytes) (i : Nat) (cs : List Char)
    (h : ∀ c ∈ cs, c ∈ "0123456789abcdef".data) :
    ∀ c ∈ common.checksumLoop hash i cs, c ∈ "0123456789abcdefABCDEF".data := by
  induction cs generalizing i with
  | nil => simp [common.checksumLoop]
  | cons c cs ih =>
    intro d hd
    simp only [common.checksumLoop, List.mem_cons] at hd
    rcases hd with rfl | hd
    · exact common.checksum_char_hex c (h c (List.mem_cons_self _ _)) _
    · exact ih (i + 1) (fun c hc => h c (List.mem_cons_of_mem _ hc)) d hd

namespace Flashbot

/-! ## The request signature -/

/-- C3: when signing succeeds, `signRequest` returns the checksummed address of the
key, a colon and the hex text of the signature, where the signature is made over
the text hash of the bytes of the `0x`-prefixed hex text of the Keccak-256 digest
of the body; the address is `0x` and 40 hex digits, the signature text is `0x` and
two lowercase hex digits per signature byte. -/
theorem signRequest_output (f : flashbot) (L : Lib) (body sig : Bytes)
    (h : L.Sign (accounts.TextHash (stringBytes (hexutil.Encode (crypto.Keccak256 body)))) f.pk =
      .ok sig) :
    f.signRequest L body =
        .ok (common.Address.Hex (crypto.PubkeyToAddress f.pk) ++ ":" ++ hexutil.Encode sig) ∧
      (∃ a : List Char, common.Address.Hex (crypto.PubkeyToAddress f.pk) = "0x" ++ String.mk a ∧
        a.length = 40 ∧ ∀ c ∈ a, isHexDigit c) ∧
      (∃ s : List Char, hexutil.Encode sig = "0x" ++ String.mk s ∧
        s.length = 2 * sig.length ∧ ∀ c ∈ s, isLowerHexDigit c) := by
  refine ⟨?_, ?_, ?_⟩
  · simp only [flashbot.signRequest, common.Hash.Hex, h]
  · refine ⟨_, rfl, ?_, ?_⟩
    · rw [common.checksumLoop_length, hex.Encode_length, crypto.PubkeyToAddress_length]
    · exact common.checksumLoop_hex _ _ _ (hex.Encode_lower _)
  · exact ⟨_, rfl, hex.Encode_length sig, hex.Encode_lower sig⟩

/-- C3 at a concrete input: the body `{}` signed with the key of secret 1 by the
stand-in signer. -/
theorem signRequest_output_witness :
    demoLib.Sign (accounts.TextHash (stringBytes (hexutil.Encode
        (crypto.Keccak256 (stringBytes "\x7b\x7d"))))) (demoClient relayAccepting).pk =
      .ok (accounts.TextHash (stringBytes (hexutil.Encode
        (crypto.Keccak256 (stringBytes "\x7b\x7d")))) ++ accounts.TextHash (stringBytes
          (hexutil.Encode (crypto.Keccak256 (stringBytes "\x7b\x7d")))) ++ [0]) ∧
      (demoClient relayAccepting).signRequest demoLib (stringBytes "\x7b\x7d") =
        .ok ("0x7E5F4552091A69125d5DfCb7b8C2659029395Bdf:0x" ++
          "e2734c4fce1ecb91f044597fb3f4dfc9b70d58ed11a10298332a7a0fbbadd23e" ++
          "e2734c4fce1ecb91f044597fb3f4dfc9b70d58ed11a10298332a7a0fbbadd23e00") :=
  ⟨by decide!,
    (signRequest_output (demoClient relayAccepting) demoLib (stringBytes "\x7b\x7d")
      (accounts.TextHash (stringBytes (hexutil.Encode
        (crypto.Keccak256 (stringBytes "\x7b\x7d")))) ++ accounts.TextHash (stringBytes
          (hexutil.Encode (crypto.Keccak256 (stringBytes "\x7b\x7d")))) ++ [0])
      (by decide!)).1.trans (by decide!)⟩

end Flashbot

namespace Flashbot

theorem stringBytes_append (s t : String) : stringBytes (s ++ t) = stringBytes s ++ stringBytes t := by
  simp [stringBytes, String.data_append]

theorem hexutil_Encode_bytes_length (b : Bytes) :
    (stringBytes (hexutil.Encode b)).length = 2 * b.length + 2 := by
  simp [stringBytes, hexutil.Encode, String.data_append, hex.Encode_length]

/-- C4: the code does not do what the comment above `signRequest` and the claim say.
For the body `{}` and the stand-in signer, which exposes the digest it is given,
`signRequest` signs the digest `e2734c4f…` of the hex text of the Keccak-256 digest
of the body, while the text hash of the body bytes themselves, which the comment
says is signed, is `c496eb97…`. -/
theorem signRequest_not_on_body :
    (demoClient relayAccepting).signRequest demoLib (stringBytes "\x7b\x7d") =
        .ok ("0x7E5F4552091A69125d5DfCb7b8C2659029395Bdf:0x" ++
          "e2734c4fce1ecb91f044597fb3f4dfc9b70d58ed11a10298332a7a0fbbadd23e" ++
          "e2734c4fce1ecb91f044597fb3f4dfc9b70d58ed11a10298332a7a0fbbadd23e00") ∧
      (demoClient relayAccepting).signTextHashOf demoLib (stringBytes "\x7b\x7d") =
        .ok ("0x7E5F4552091A69125d5DfCb7b8C2659029395Bdf:0x" ++
          "c496eb97e233a06697fa8bff2f26e72d174d1307686616c1e4e37bc6bdf0f6af" ++
          "c496eb97e233a06697fa8bff2f26e72d174d1307686616c1e4e37bc6bdf0f6af00") ∧
      (demoClient relayAccepting).signRequest demoLib (stringBytes "\x7b\x7d") ≠
        (demoClient relayAccepting).signTextHashOf demoLib (stringBytes "\x7b\x7d") := by
  decide!

/-- What the code signs, for every body and every signer: the text hash of the hex
text of the Keccak-256 digest of the body, not of the body; that text is always 66
bytes long, so the signed digest is the Keccak-256 digest of
`"\x19Ethereum Signed Message:\n66"` followed by the hex text. -/
theorem signRequest_on_digest_text (f : flashbot) (L : Lib) (body : Bytes) :
    f.signRequest L body =
        f.signTextHashOf L (stringBytes (hexutil.Encode (crypto.Keccak256 body))) ∧
      (stringBytes (hexutil.Encode (crypto.Keccak256 body))).length = 66 ∧
      accounts.TextHash (stringBytes (hexutil.Encode (crypto.Keccak256 body))) =
        crypto.Keccak256 (stringBytes "\x19Ethereum Signed Message:\n66" ++
          stringBytes (hexutil.Encode (crypto.Keccak256 body))) := by
  have hlen : (stringBytes (hexutil.Encode (crypto.Keccak256 body))).length = 66 := by
    rw [hexutil_Encode_bytes_length, crypto.Keccak256_length]
  refine ⟨rfl, hlen, ?_⟩
  have hpre : stringBytes ("\x19Ethereum Signed Message:\n" ++ strconv.FormatUint 66 10) =
      stringBytes "\x19Ethereum Signed Message:\n66" := by decide
  rw [accounts.TextHash, hlen, hpre]

end Flashbot

namespace Flashbot

/-! ## The HTTP request -/

/-- C5: a request returned by `newRequest` is a POST to the relay URL of the client
whose body is the serialized envelope, the very bytes given to `signRequest`, with
the two headers `Content-Type: application/json` and `X-Flashbots-Signature` set to
the output of `signRequest` for those bytes; when serialization or signing fails no
request is returned; and when both succeed and the URL parses, a request is
returned. -/
theorem newRequest_spec (f : flashbot) (L : Lib) (req : rpcReq) :
    (∀ httpReq, f.newRequest L req = .ok httpReq →
      ∃ jsonBody signature, req.ToJson L = .ok jsonBody ∧
        f.signRequest L jsonBody = .ok signature ∧
        httpReq = { Method := "POST", URL := f.relayURL, Body := jsonBody
                    Header := [("Content-Type", "application/json"),
                               ("X-Flashbots-Signature", signature)] } ∧
        httpReq.getHeader "Content-Type" = some "application/json" ∧
        httpReq.getHeader "X-Flashbots-Signature" = some signature) ∧
      (∀ err, req.ToJson L = .error err →
        f.newRequest L req = .error (.wrap "failed to marshal request" err)) ∧
      (∀ jsonBody err, req.ToJson L = .ok jsonBody → f.signRequest L jsonBody = .error err →
        f.newRequest L req = .error (.wrap "failed to sign request" err)) ∧
      (∀ jsonBody signature, req.ToJson L = .ok jsonBody →
        f.signRequest L jsonBody = .ok signature → L.urlParse f.relayURL = none →
        ∃ httpReq, f.newRequest L req = .ok httpReq) := by
  refine ⟨?_, ?_, ?_, ?_⟩
  · intro httpReq h
    unfold flashbot.newRequest at h
    cases hj : req.ToJson L with
    | error err => simp [hj] at h
    | ok jsonBody =>
      cases hs : f.signRequest L jsonBody with
      | error err => simp [hj, hs] at h
      | ok signature =>
        cases hu : L.urlParse f.relayURL with
        | some err => simp [hj, hs, NewRequestWithContext, hu] at h
        | none =>
          simp only [hj, hs, NewRequestWithContext, hu, Except.ok.injEq] at h
          subst h
          refine ⟨jsonBody, signature, rfl, hs, ?_, ?_, ?_⟩
          · simp [HttpRequest.setHeader, headerFlashbotSignature]
          · simp [HttpRequest.setHeader, HttpRequest.getHeader, headerFlashbotSignature]
          · simp [HttpRequest.setHeader, HttpRequest.getHeader, headerFlashbotSignature]
  · intro err hj
    simp [flashbot.newRequest, hj]
  · intro jsonBody err hj hs
    simp [flashbot.newRequest, hj, hs]
  · intro jsonBody signature hj hs hu
    simp [flashbot.newRequest, hj, hs, NewRequestWithContext, hu]

/-- C5 at a concrete input: the request built for a `mev_simBundle` envelope by the
Sepolia client. -/
theorem newRequest_spec_witness :
    (demoClient relayAccepting).newRequest demoLib demoEnvelope = .ok demoHttpRequest ∧
      ∃ jsonBody signature, demoEnvelope.ToJson demoLib = .ok jsonBody ∧
        (demoClient relayAccepting).signRequest demoLib jsonBody = .ok signature ∧
        demoHttpRequest.Body = jsonBody ∧
        demoHttpRequest.getHeader "X-Flashbots-Signature" = some signature :=
  ⟨by decide!, by
    obtain ⟨jsonBody, signature, hj, hs, hr, -, hh⟩ :=
      (newRequest_spec (demoClient relayAccepting) demoLib demoEnvelope).1 demoHttpRequest
        (by decide!)
    exact ⟨jsonBody, signature, hj, hs, by rw [hr], hh⟩⟩

end Flashbot

/-! ## Formatting numbers -/

theorem strconv.formatBits_eq_digits (fuel b u : Nat) (a : List Char) (hb : 2 ≤ b) (hu : 0 < u)
    (hlt : u < b ^ (fuel + 1)) :
    strconv.formatBits fuel b u a =
      (Nat.digits b u).reverse.map (fun d => strconv.digits.getD d '0') ++ a := by
  induction fuel generalizing u a with
  | zero =>
    have hub : u < b := by simpa using hlt
    simp [strconv.formatBits, Nat.digits_of_lt b u (by omega) hub]
  | succ fuel ih =>
    unfold strconv.formatBits
    by_cases hge : u ≥ b
    · have hdiv : 0 < u / b := Nat.div_pos hge (by omega)
      have hdlt : u / b < b ^ (fuel + 1) := by
        apply Nat.div_lt_of_lt_mul
        calc u < b ^ (fuel + 1 + 1) := hlt
          _ = b * b ^ (fuel + 1) := by ring
      rw [if_pos hge, ih (u / b) _ hdiv hdlt, Nat.digits_def' (by omega) hu]
      simp
    · have hub : u < b := by omega
      rw [if_neg hge, Nat.digits_of_lt b u (by omega) hub]
      simp

theorem strconv.digits_getD_hex (d : Nat) (h : d < 16) :
    strconv.digits.getD d '0' = "0123456789abcdef".data.getD d '0' := by
  interval_cases d <;> rfl

namespace Flashbot

/-- The text of `FormatUint` in base 16 is the hex encoding without its prefix. -/
theorem hexEncoding_eq_FormatUint (n : Nat) (h : n < 16 ^ 65) :
    hexEncoding n = "0x" ++ strconv.FormatUint n 16 := by
  unfold hexEncoding strconv.FormatUint
  by_cases h0 : n = 0
  · subst h0; rfl
  · rw [if_neg h0, strconv.formatBits_eq_digits 64 16 n [] (by decide) (by omega) h]
    congr 2
    rw [List.append_nil]
    apply List.map_congr_left
    intro d hd
    exact (strconv.digits_getD_hex d (Nat.digits_lt_base (by decide) (List.mem_reverse.mp hd))).symm

/-- The hex encoding of a nonzero number spelled out: digits below 16, the first
one nonzero, with the number as their value. -/
theorem hexEncoding_spec (n : Nat) (h : n ≠ 0) :
    ∃ ds : List Nat,
      hexEncoding n = "0x" ++ String.mk (ds.map fun d => "0123456789abcdef".data.getD d '0') ∧
      (∀ d ∈ ds, d < 16) ∧ ds.head? ≠ some 0 ∧ ds ≠ [] ∧ Nat.ofDigits 16 ds.reverse = n := by
  refine ⟨(Nat.digits 16 n).reverse, ?_, ?_, ?_, ?_, ?_⟩
  · simp [hexEncoding, h]
  · intro d hd
    exact Nat.digits_lt_base (by decide) (List.mem_reverse.mp hd)
  · rw [List.head?_reverse, List.getLast?_eq_getLast _ (Nat.digits_ne_nil_iff_ne_zero.mpr h)]
    intro hc
    exact Nat.getLast_digit_ne_zero 16 h (Option.some.inj hc)
  · simpa using Nat.digits_ne_nil_iff_ne_zero.mpr h
  · rw [List.reverse_reverse, Nat.ofDigits_digits]

/-- The hex encoding determines the number. -/
theorem hexEncoding_injective (n m : Nat) (h : hexEncoding n = hexEncoding m) : n = m := by
  have hchar : ∀ d e : Nat, d < 16 → e < 16 →
      "0123456789abcdef".data.getD d '0' = "0123456789abcdef".data.getD e '0' → d = e := by
    intro d e hd he
    interval_cases d <;> interval_cases e <;> decide
  have hmap : ∀ l₁ l₂ : List Nat, (∀ d ∈ l₁, d < 16) → (∀ d ∈ l₂, d < 16) →
      l₁.map (fun d => "0123456789abcdef".data.getD d '0') =
        l₂.map (fun d => "0123456789abcdef".data.getD d '0') → l₁ = l₂ := by
    intro l₁
    induction l₁ with
    | nil => intro l₂ _ _ h; cases l₂ <;> simp_all
    | cons a l₁ ih =>
      intro l₂ h₁ h₂ h
      cases l₂ with
      | nil => simp at h
      | cons b l₂ =>
        simp only [List.map_cons, List.cons.injEq] at h
        rw [hchar a b (h₁ a (List.mem_cons_self _ _)) (h₂ b (List.mem_cons_self _ _)) h.1,
          ih l₂ (fun d hd => h₁ d (List.mem_cons_of_mem _ hd))
            (fun d hd => h₂ d (List.mem_cons_of_mem _ hd)) h.2]
  have hzero : ∀ k : Nat, k ≠ 0 → hexEncoding k ≠ hexEncoding 0 := by
    intro k hk hc
    obtain ⟨ds, hds, hlt, hhead, hne, hval⟩ := hexEncoding_spec k hk
    rw [hds] at hc
    have hc' : ds.map (fun d => "0123456789abcdef".data.getD d '0') = ['0'] := by
      have := congrArg String.data hc
      simpa [hexEncoding, String.data_append] using this
    have : ds = [0] := hmap ds [0] hlt (by simp) (by simpa using hc')
    subst this
    simp at hhead
  by_cases hn : n = 0
  · by_cases hm : m = 0
    · rw [hn, hm]
    · subst hn; exact absurd h.symm (hzero m hm)
  · by_cases hm : m = 0
    · subst hm; exact absurd h (hzero n hn)
    · obtain ⟨ds, hds, hlt, -, -, hval⟩ := hexEncoding_spec n hn
      obtain ⟨es, hes, hlt', -, -, hval'⟩ := hexEncoding_spec m hm
      rw [hds, hes] at h
      have h' : ds.map (fun d => "0123456789abcdef".data.getD d '0') =
          es.map (fun d => "0123456789abcdef".data.getD d '0') := by
        have := congrArg String.data h
        simpa [String.data_append] using this
      rw [← hval, ← hval', hmap ds es hlt hlt' h']

end Flashbot

namespace Flashbot

/-! ## The parameter builder -/

/-- The body item built for serialized bytes `bs` at index `i`. -/
theorem encodeBody_ok (cr : List Bool) (txs : List Transaction) :
    ∀ (i : Nat) (body0 body : List mevSendBundleBodyItem),
      encodeBody cr i txs body0 = .ok body →
      ∃ bss : List Bytes, txs.map (fun tx => tx.MarshalBinary) = bss.map .ok ∧
        body = body0 ++ (bss.enumFrom i).map fun jb =>
          .mk none (some (hexutil.Encode jb.2)) (some (cr.getD jb.1 false)) none := by
  induction txs with
  | nil =>
    intro i body0 body h
    simp only [encodeBody, Except.ok.injEq] at h
    exact ⟨[], rfl, by simp [h]⟩
  | cons tx txs ih =>
    intro i body0 body h
    unfold encodeBody at h
    cases hm : tx.MarshalBinary with
    | error err => simp [hm] at h
    | ok bs =>
      simp only [hm] at h
      obtain ⟨bss, hbss, hbody⟩ := ih (i + 1) _ body h
      refine ⟨bs :: bss, by simp [hm, hbss], ?_⟩
      have hflag : (if i < cr.length then cr.getD i false else false) = cr.getD i false := by
        split
        · rfl
        · rw [List.getD_eq_default _ _ (by omega)]
      rw [hbody, hflag, List.enumFrom, List.map_cons, List.append_assoc]
      rfl

/-- A transaction that does not serialize makes the loop fail, with the error of
the first such transaction. -/
theorem encodeBody_error (cr : List Bool) (txs : List Transaction) :
    ∀ (i : Nat) (body0 : List mevSendBundleBodyItem),
      (∃ tx ∈ txs, ∃ e, tx.MarshalBinary = .error e) →
      ∃ tx ∈ txs, ∃ e, tx.MarshalBinary = .error e ∧
        encodeBody cr i txs body0 = .error (.wrap "failed to encode transaction" e) := by
  induction txs with
  | nil => intro i body0 h; simp at h
  | cons tx txs ih =>
    intro i body0 h
    unfold encodeBody
    cases hm : tx.MarshalBinary with
    | error err => exact ⟨tx, List.mem_cons_self _ _, err, hm, rfl⟩
    | ok bs =>
      have h' : ∃ tx' ∈ txs, ∃ e, tx'.MarshalBinary = .error e := by
        obtain ⟨tx', hmem, e, he⟩ := h
        rcases List.mem_cons.mp hmem with rfl | hmem
        · rw [hm] at he; cases he
        · exact ⟨tx', hmem, e, he⟩
      obtain ⟨tx', hmem, e, he, henc⟩ := ih (i + 1) _ h'
      exact ⟨tx', List.mem_cons_of_mem _ hmem, e, he, henc⟩

/-- A provided option leaves version, inclusion block and body alone. -/
theorem IsProvided_frame (o : BundleOption) (h : o.IsProvided) (p : mevSimBundleParams) :
    (o p).1.Version = p.Version ∧ (o p).1.Inclusion.Block = p.Inclusion.Block ∧
      (o p).1.Body = p.Body := by
  rcases h with ⟨v, rfl⟩ | ⟨v, rfl⟩ | ⟨v, rfl⟩ | ⟨d, rfl⟩ | ⟨b, rfl⟩
  · exact ⟨rfl, rfl, rfl⟩
  · exact ⟨rfl, rfl, rfl⟩
  · exact ⟨rfl, rfl, rfl⟩
  · unfold WithExpirationDurationInBlocks
    split <;> exact ⟨rfl, rfl, rfl⟩
  · exact ⟨rfl, rfl, rfl⟩

/-- Provided options leave version, inclusion block and body alone. -/
theorem applyOptions_frame (opts : List BundleOption) (h : ∀ o ∈ opts, o.IsProvided) :
    ∀ p : mevSimBundleParams,
      (applyOptions opts p).1.Version = p.Version ∧
        (applyOptions opts p).1.Inclusion.Block = p.Inclusion.Block ∧
        (applyOptions opts p).1.Body = p.Body := by
  induction opts with
  | nil => intro p; exact ⟨rfl, rfl, rfl⟩
  | cons o opts ih =>
    intro p
    have ho := IsProvided_frame o (h o (List.mem_cons_self _ _)) p
    have ih' := ih (fun o' ho' => h o' (List.mem_cons_of_mem _ ho')) (o p).1
    unfold applyOptions
    rcases hop : o p with ⟨p', e⟩
    rw [hop] at ho ih'
    cases e with
    | some err => exact ho
    | none =>
      simp only [] at ho ih' ⊢
      exact ⟨ih'.1.trans ho.1, ih'.2.1.trans ho.2.1, ih'.2.2.trans ho.2.2⟩

/-- What `simParams` returns when it returns parameters. -/
theorem simParams_ok (bundle : Bundle) (targetBlock : Nat) (opts : List BundleOption)
    (p : mevSimBundleParams) (h : simParams bundle targetBlock opts = .ok p) :
    bundle.Transactions ≠ [] ∧
      ∃ body, encodeBody bundle.CanRevert 0 bundle.Transactions [] = .ok body ∧
        applyOptions opts
          { Version := "v0.1", Inclusion := { Block := blockHex targetBlock, MaxBlock := none }
            Body := body, Validity := none, Privacy := none, Metadata := none } = (p, none) := by
  unfold simParams at h
  split at h
  · cases h
  · rename_i hne
    cases hb : encodeBody bundle.CanRevert 0 bundle.Transactions [] with
    | error err => simp [hb] at h
    | ok body =>
      simp only [hb] at h
      refine ⟨fun hc => hne (by simp [hc]), body, rfl, ?_⟩
      rcases ha : applyOptions opts _ with ⟨p', e⟩
      rw [ha] at h
      cases e with
      | some err => simp at h
      | none =>
        simp only [Except.ok.injEq] at h
        rw [h]

/-- What `sendParams` returns when it returns parameters. -/
theorem sendParams_ok (bundle : Bundle) (targetBlock : Nat) (opts : List BundleOption)
    (p : mevSimBundleParams) (h : sendParams bundle targetBlock opts = .ok p) :
    ∃ body, encodeBody bundle.CanRevert 0 bundle.Transactions [] = .ok body ∧
      applyOptions opts
        { Version := "v0.1"
          Inclusion := { Block := blockHex targetBlock
                         MaxBlock := some ("0x" ++ strconv.FormatUint ((targetBlock + 30) % 2 ^ 64) 16) }
          Body := body, Validity := none, Privacy := none, Metadata := none } = (p, none) := by
  unfold sendParams at h
  cases hb : encodeBody bundle.CanRevert 0 bundle.Transactions [] with
  | error err => simp [hb] at h
  | ok body =>
    simp only [hb] at h
    refine ⟨body, rfl, ?_⟩
    rcases ha : applyOptions opts _ with ⟨p', e⟩
    rw [ha] at h
    cases e with
    | some err => simp at h
    | none =>
      simp only [Except.ok.injEq] at h
      rw [h]

/-- The parameters of any request that `Simulate` or `Broadcast` starts under
provided options: the inclusion block is `blockHex` of the target block and the
body is the encoded body of the bundle. -/
theorem built_params_frame (f : flashbot) (L : Lib) (w : World) (bundle : Bundle)
    (targetBlock : Nat) (opts : List BundleOption) (hopts : ∀ o ∈ opts, o.IsProvided)
    (m : method) (p : mevSimBundleParams)
    (hp : p ∈ w.paramsSince (f.Simulate L w bundle targetBlock opts).2 m ∨
      p ∈ w.paramsSince (f.Broadcast L w bundle targetBlock opts).2 m) :
    p.Version = "v0.1" ∧ p.Inclusion.Block = blockHex targetBlock ∧
      encodeBody bundle.CanRevert 0 bundle.Transactions [] = .ok p.Body := by
  have hsim : ∀ os : List BundleOption, (∀ o ∈ os, o.IsProvided) →
      simParams bundle targetBlock os = .ok p →
      p.Version = "v0.1" ∧ p.Inclusion.Block = blockHex targetBlock ∧
        encodeBody bundle.CanRevert 0 bundle.Transactions [] = .ok p.Body := by
    intro os hos h
    obtain ⟨-, body, hb, ha⟩ := simParams_ok bundle targetBlock os p h
    have hf := applyOptions_frame os hos
      { Version := "v0.1", Inclusion := { Block := blockHex targetBlock, MaxBlock := none }
        Body := body, Validity := none, Privacy := none, Metadata := none }
    rw [ha] at hf
    exact ⟨hf.1, hf.2.1, by rw [hb, hf.2.2]⟩
  rcases hp with hp | hp
  · exact hsim opts hopts (Simulate_paramsSince f L w bundle targetBlock opts m p hp).2
  · rcases Broadcast_paramsSince f L w bundle targetBlock opts m p hp with ⟨-, h⟩ | ⟨-, h, -⟩
    · exact hsim [] (by simp) h
    · obtain ⟨body, hb, ha⟩ := sendParams_ok bundle targetBlock opts p h
      have hf := applyOptions_frame opts hopts
        { Version := "v0.1"
          Inclusion := { Block := blockHex targetBlock
                         MaxBlock := some ("0x" ++ strconv.FormatUint ((targetBlock + 30) % 2 ^ 64) 16) }
          Body := body, Validity := none, Privacy := none, Metadata := none }
      rw [ha] at hf
      exact ⟨hf.1, hf.2.1, by rw [hb, hf.2.2]⟩

end Flashbot

theorem hex.Encode_eq_flatMap (b : Bytes) :
    hex.Encode b = b.flatMap fun v =>
      ["0123456789abcdef".data.getD (v / 16 % 16) '0', "0123456789abcdef".data.getD (v % 16) '0'] := by
  induction b with
  | nil => rfl
  | cons v rest ih => simp [hex.Encode, ih, hex.hextable]

namespace Flashbot

/-- The body that the loop builds, item by item. -/
theorem encodeBody_index (cr : List Bool) (txs : List Transaction)
    (body : List mevSendBundleBodyItem) (h : encodeBody cr 0 txs [] = .ok body) :
    body.length = txs.length ∧
      ∀ (i : Nat) (hi : i < body.length) (ht : i < txs.length),
        ∃ bs, txs[i].MarshalBinary = .ok bs ∧
          body[i] = .mk none (some (hexutil.Encode bs)) (some (cr.getD i false)) none := by
  obtain ⟨bss, hbss, hbody⟩ := encodeBody_ok cr txs 0 [] body h
  have hlen : bss.length = txs.length := by
    have := congrArg List.length hbss
    simpa using this.symm
  subst hbody
  refine ⟨by simp [hlen], ?_⟩
  intro i hi ht
  have hb : i < bss.length := by omega
  refine ⟨bss[i], ?_, ?_⟩
  · have h1 : (txs.map fun tx => tx.MarshalBinary)[i]? = (bss.map Except.ok)[i]? := by rw [hbss]
    simpa [List.getElem?_eq_getElem ht, List.getElem?_eq_getElem hb] using h1
  · simp [List.getElem_enumFrom]

/-- C7: under provided options, in the parameters of every request that `Simulate`
or `Broadcast` starts, item `i` of the body has as `tx` the text `0x` followed by
two lowercase hex digits for each byte of the serialization of transaction `i`,
and no `hash` and no `bundle`; and when a transaction does not serialize, both
calls return that error, wrapped, with no result, and leave the world as it was. -/
theorem body_tx_hex (f : flashbot) (L : Lib) (w : World) (bundle : Bundle)
    (targetBlock : Nat) (opts : List BundleOption) :
    ((∀ o ∈ opts, o.IsProvided) → ∀ (m : method) (p : mevSimBundleParams),
      (p ∈ w.paramsSince (f.Simulate L w bundle targetBlock opts).2 m ∨
        p ∈ w.paramsSince (f.Broadcast L w bundle targetBlock opts).2 m) →
      p.Body.length = bundle.Transactions.length ∧
        ∀ (i : Nat) (hi : i < p.Body.length) (ht : i < bundle.Transactions.length),
          ∃ bs, bundle.Transactions[i].MarshalBinary = .ok bs ∧
            p.Body[i].Tx = some ("0x" ++ String.mk (bs.flatMap fun v =>
              ["0123456789abcdef".data.getD (v / 16 % 16) '0',
               "0123456789abcdef".data.getD (v % 16) '0'])) ∧
            p.Body[i].Hash = none ∧ p.Body[i].Bundle = none) ∧
      ((∃ tx ∈ bundle.Transactions, ∃ e, tx.MarshalBinary = .error e) →
        ∃ tx ∈ bundle.Transactions, ∃ e, tx.MarshalBinary = .error e ∧
          f.Simulate L w bundle targetBlock opts =
            ((none, some (.wrap "failed to encode transaction" e)), w) ∧
          f.Broadcast L w bundle targetBlock opts =
            ((none, some (.wrap "failed to simulate bundle"
              (.wrap "failed to encode transaction" e))), w)) := by
  refine ⟨?_, ?_⟩
  · intro hopts m p hp
    obtain ⟨-, -, hb⟩ := built_params_frame f L w bundle targetBlock opts hopts m p hp
    obtain ⟨hlen, hidx⟩ := encodeBody_index _ _ _ hb
    refine ⟨hlen, ?_⟩
    intro i hi ht
    obtain ⟨bs, hbs, hitem⟩ := hidx i hi ht
    refine ⟨bs, hbs, ?_, ?_, ?_⟩
    · rw [hitem, mevSendBundleBodyItem.Tx, hexutil.Encode, hex.Encode_eq_flatMap]
    · rw [hitem, mevSendBundleBodyItem.Hash]
    · rw [hitem, mevSendBundleBodyItem.Bundle]
  · intro hfail
    obtain ⟨tx, hmem, e, he, henc⟩ := encodeBody_error bundle.CanRevert bundle.Transactions 0 [] hfail
    have hne : bundle.Transactions.length ≠ 0 := by
      intro hc
      rw [List.length_eq_zero] at hc
      rw [hc] at hmem
      simp at hmem
    have hsim : ∀ os, f.Simulate L w bundle targetBlock os =
        ((none, some (.wrap "failed to encode transaction" e)), w) := by
      intro os
      simp [flashbot.Simulate, simParams, hne, henc]
    refine ⟨tx, hmem, e, he, hsim opts, ?_⟩
    simp [flashbot.Broadcast, hsim []]

/-- A bundle whose second transaction does not serialize. -/
theorem failingBundle_fails :
    ∃ tx ∈ failingBundle.Transactions, ∃ e, tx.MarshalBinary = .error e :=
  ⟨{ MarshalBinary := .error (.lib "rlp: value too large"), Gas := 60000 }, by decide,
    .lib "rlp: value too large", rfl⟩

/-- C7 at concrete inputs: the two transactions of the demonstration bundle, and a
bundle whose second transaction does not serialize. -/
theorem body_tx_hex_witness :
    (∃ p ∈ demoWorld.paramsSince ((demoClient relayAccepting).Broadcast demoLib demoWorld
        demoBundle 1000 []).2 methodMevSendBundle,
      p.Body.length = demoBundle.Transactions.length ∧
        p.Body.map (fun item => item.Tx) = [some "0x02f86f", some "0x02f8b0"]) ∧
      ∃ tx ∈ failingBundle.Transactions, ∃ e, tx.MarshalBinary = .error e ∧
        (demoClient relayAccepting).Simulate demoLib demoWorld failingBundle 1000 [] =
          ((none, some (.wrap "failed to encode transaction" e)), demoWorld) ∧
        (demoClient relayAccepting).Broadcast demoLib demoWorld failingBundle 1000 [] =
          ((none, some (.wrap "failed to simulate bundle"
            (.wrap "failed to encode transaction" e))), demoWorld) :=
  ⟨⟨(demoWorld.paramsSince ((demoClient relayAccepting).Broadcast demoLib demoWorld
        demoBundle 1000 []).2 methodMevSendBundle).get ⟨0, by decide!⟩,
      List.get_mem _ _ _,
      ((body_tx_hex (demoClient relayAccepting) demoLib demoWorld demoBundle 1000 []).1
        (by simp) methodMevSendBundle _ (Or.inr (List.get_mem _ _ _))).1,
      by decide!⟩,
    (body_tx_hex (demoClient relayAccepting) demoLib demoWorld failingBundle 1000 []).2
      failingBundle_fails⟩

end Flashbot

namespace Flashbot

/-! ## The inclusion window -/

/-- The text `blockHex` for a `uint64` target block. -/
theorem blockHex_eq (targetBlock : Nat) (h : targetBlock < 2 ^ 64) :
    blockHex targetBlock = if targetBlock = 0 then "latest" else hexEncoding targetBlock := by
  unfold blockHex
  split
  · rfl
  · rw [hexEncoding_eq_FormatUint targetBlock (lt_trans h (by norm_num))]

/-- C8: under provided options, the parameters of every request that `Simulate` or
`Broadcast` starts for a target block `N` have `inclusion.block` equal to `"latest"`
when `N = 0` and to the hex encoding of `N` otherwise: `0x`, then lowercase base-16
digits, the first one not zero, whose value is `N`. -/
theorem inclusion_block (f : flashbot) (L : Lib) (w : World) (bundle : Bundle)
    (targetBlock : Nat) (opts : List BundleOption) (hN : targetBlock < 2 ^ 64)
    (hopts : ∀ o ∈ opts, o.IsProvided) (m : method) (p : mevSimBundleParams)
    (hp : p ∈ w.paramsSince (f.Simulate L w bundle targetBlock opts).2 m ∨
      p ∈ w.paramsSince (f.Broadcast L w bundle targetBlock opts).2 m) :
    p.Inclusion.Block = (if targetBlock = 0 then "latest" else hexEncoding targetBlock) ∧
      (targetBlock ≠ 0 → ∃ ds : List Nat,
        p.Inclusion.Block =
          "0x" ++ String.mk (ds.map fun d => "0123456789abcdef".data.getD d '0') ∧
        (∀ d ∈ ds, d < 16) ∧ ds.head? ≠ some 0 ∧ ds ≠ [] ∧
        Nat.ofDigits 16 ds.reverse = targetBlock) := by
  obtain ⟨-, hb, -⟩ := built_params_frame f L w bundle targetBlock opts hopts m p hp
  rw [blockHex_eq targetBlock hN] at hb
  refine ⟨hb, ?_⟩
  intro hne
  rw [hb, if_neg hne]
  exact hexEncoding_spec targetBlock hne

/-- C8 at concrete inputs: target block 1000 gives `0x3e8`, target block 0 gives
`latest`. -/
theorem inclusion_block_witness :
    (∃ p ∈ demoWorld.paramsSince ((demoClient relayAccepting).Simulate demoLib demoWorld
        demoBundle 1000 []).2 methodMevSimBundle,
      p.Inclusion.Block = (if 1000 = 0 then "latest" else hexEncoding 1000) ∧
        p.Inclusion.Block = "0x3e8") ∧
      ∃ p ∈ demoWorld.paramsSince ((demoClient relayAccepting).Broadcast demoLib demoWorld
          demoBundle 0 []).2 methodMevSendBundle,
        p.Inclusion.Block = (if 0 = 0 then "latest" else hexEncoding 0) ∧
          p.Inclusion.Block = "latest" :=
  ⟨⟨(demoWorld.paramsSince ((demoClient relayAccepting).Simulate demoLib demoWorld
        demoBundle 1000 []).2 methodMevSimBundle).get ⟨0, by decide!⟩,
      List.get_mem _ _ _,
      (inclusion_block (demoClient relayAccepting) demoLib demoWorld demoBundle 1000 []
        (by norm_num) (by simp) methodMevSimBundle _ (Or.inl (List.get_mem _ _ _))).1,
      by decide!⟩,
    ⟨(demoWorld.paramsSince ((demoClient relayAccepting).Broadcast demoLib demoWorld
        demoBundle 0 []).2 methodMevSendBundle).get ⟨0, by decide!⟩,
      List.get_mem _ _ _,
      (inclusion_block (demoClient relayAccepting) demoLib demoWorld demoBundle 0 []
        (by norm_num) (by simp) methodMevSendBundle _ (Or.inr (List.get_mem _ _ _))).1,
      by decide!⟩⟩

/-- The default `maxBlock` of `Broadcast` when no option is given. -/
theorem sendParams_nil_maxBlock (bundle : Bundle) (targetBlock : Nat) (p : mevSimBundleParams)
    (h : sendParams bundle targetBlock [] = .ok p) :
    p.Inclusion.MaxBlock = some (hexEncoding ((targetBlock + 30) % 2 ^ 64)) := by
  obtain ⟨body, -, ha⟩ := sendParams_ok bundle targetBlock [] p h
  simp only [applyOptions, Prod.mk.injEq, and_true] at ha
  rw [← ha, hexEncoding_eq_FormatUint _
    (lt_trans (Nat.mod_lt _ (by norm_num)) (by norm_num))]

/-- C9, refuted as stated: for target block `2 ^ 64 - 1` and no options, `Broadcast`
sends `mev_sendBundle` parameters whose `inclusion.maxBlock` is `0x1d`, the hex
encoding of 29, while the hex encoding of the target plus 30 is
`0x1000000000000001d`. -/
theorem maxBlock_default_wraps :
    ∃ p ∈ demoWorld.paramsSince ((demoClient relayAccepting).Broadcast demoLib demoWorld
        demoBundle (2 ^ 64 - 1) []).2 methodMevSendBundle,
      p.Inclusion.Block = "0xffffffffffffffff" ∧ p.Inclusion.MaxBlock = some "0x1d" ∧
        hexEncoding (2 ^ 64 - 1 + 30) = "0x1000000000000001d" ∧
        p.Inclusion.MaxBlock ≠ some (hexEncoding (2 ^ 64 - 1 + 30)) := by
  have hhex : hexEncoding (2 ^ 64 - 1 + 30) = "0x1000000000000001d" := by
    rw [hexEncoding_eq_FormatUint _ (by norm_num)]
    decide
  refine ⟨(demoWorld.paramsSince ((demoClient relayAccepting).Broadcast demoLib demoWorld
      demoBundle (2 ^ 64 - 1) []).2 methodMevSendBundle).get ⟨0, by decide!⟩,
    List.get_mem _ _ _, by decide!, by decide!, hhex, ?_⟩
  rw [hhex]
  decide!

/-- C9, amended: for every `uint64` target block `N`, the `mev_sendBundle`
parameters that `Broadcast` sends when called without options have
`inclusion.maxBlock` equal to the hex encoding of `(N + 30) mod 2 ^ 64`, which is
the hex encoding of `N + 30` whenever `N + 30` fits in 64 bits. -/
theorem maxBlock_default (f : flashbot) (L : Lib) (w : World) (bundle : Bundle)
    (targetBlock : Nat) (p : mevSimBundleParams)
    (hp : p ∈ w.paramsSince (f.Broadcast L w bundle targetBlock []).2 methodMevSendBundle) :
    p.Inclusion.MaxBlock = some (hexEncoding ((targetBlock + 30) % 2 ^ 64)) ∧
      (targetBlock + 30 < 2 ^ 64 → p.Inclusion.MaxBlock = some (hexEncoding (targetBlock + 30))) := by
  have hmax : p.Inclusion.MaxBlock = some (hexEncoding ((targetBlock + 30) % 2 ^ 64)) := by
    rcases Broadcast_paramsSince f L w bundle targetBlock [] _ p hp with ⟨hm, -⟩ | ⟨-, h, -⟩
    · exact absurd hm (by decide)
    · exact sendParams_nil_maxBlock bundle targetBlock p h
  refine ⟨hmax, ?_⟩
  intro hlt
  rw [hmax, Nat.mod_eq_of_lt hlt]

/-- C9 at the input of the specification: target block 1000 gives `inclusion.block`
`0x3e8` and `inclusion.maxBlock` `0x406`. -/
theorem maxBlock_default_witness :
    ∃ p ∈ demoWorld.paramsSince ((demoClient relayAccepting).Broadcast demoLib demoWorld
        demoBundle 1000 []).2 methodMevSendBundle,
      p.Inclusion.MaxBlock = some (hexEncoding ((1000 + 30) % 2 ^ 64)) ∧
        p.Inclusion.Block = "0x3e8" ∧ p.Inclusion.MaxBlock = some "0x406" :=
  ⟨(demoWorld.paramsSince ((demoClient relayAccepting).Broadcast demoLib demoWorld
      demoBundle 1000 []).2 methodMevSendBundle).get ⟨0, by decide!⟩,
    List.get_mem _ _ _,
    (maxBlock_default (demoClient relayAccepting) demoLib demoWorld demoBundle 1000 _
      (List.get_mem _ _ _)).1,
    by decide!, by decide!⟩

end Flashbot

namespace Flashbot

theorem applyOptions_cons_ok (o : BundleOption) (opts : List BundleOption)
    (p p1 : mevSimBundleParams) (h : o p = (p1, none)) :
    applyOptions (o :: opts) p = applyOptions opts p1 := by
  rw [applyOptions, h]

theorem applyOptions_cons_error (o : BundleOption) (opts : List BundleOption)
    (p p1 : mevSimBundleParams) (err : GoError) (h : o p = (p1, some err)) :
    applyOptions (o :: opts) p = (p1, some (.wrap "failed to apply option" err)) := by
  rw [applyOptions, h]

/-- Options are applied in list order: a list applied without error is its first
part applied without error, then the rest applied to the outcome. -/
theorem applyOptions_append (pre rest : List BundleOption) :
    ∀ (p q : mevSimBundleParams), applyOptions (pre ++ rest) p = (q, none) →
      ∃ p1, applyOptions pre p = (p1, none) ∧ applyOptions rest p1 = (q, none) := by
  induction pre with
  | nil => intro p q h; exact ⟨p, rfl, h⟩
  | cons o pre ih =>
    intro p q h
    rw [List.cons_append] at h
    rcases ho : o p with ⟨p', e⟩
    cases e with
    | some err =>
      rw [applyOptions_cons_error _ _ _ _ _ ho] at h
      simp at h
    | none =>
      rw [applyOptions_cons_ok _ _ _ _ ho] at h ⊢
      exact ih p' q h

/-- A provided option that is no expiration option returns no error and leaves the
inclusion window alone. -/
theorem IsProvidedNonExpiration_frame (o : BundleOption) (h : o.IsProvidedNonExpiration)
    (p : mevSimBundleParams) : (o p).2 = none ∧ (o p).1.Inclusion = p.Inclusion := by
  rcases h with ⟨v, rfl⟩ | ⟨v, rfl⟩ | ⟨v, rfl⟩ <;> exact ⟨rfl, rfl⟩

/-- Provided options that are no expiration options leave the inclusion window alone. -/
theorem applyOptions_nonExpiration (post : List BundleOption)
    (h : ∀ o ∈ post, o.IsProvidedNonExpiration) :
    ∀ p : mevSimBundleParams, (applyOptions post p).2 = none ∧
      (applyOptions post p).1.Inclusion = p.Inclusion := by
  induction post with
  | nil => intro p; exact ⟨rfl, rfl⟩
  | cons o post ih =>
    intro p
    have ho := IsProvidedNonExpiration_frame o (h o (List.mem_cons_self _ _)) p
    have ih' := ih (fun o' ho' => h o' (List.mem_cons_of_mem _ ho')) (o p).1
    rcases hop : o p with ⟨p', e⟩
    rw [hop] at ho ih'
    obtain ⟨h1, h2⟩ := ho
    simp only [] at h1 h2 ih'
    subst h1
    rw [applyOptions_cons_ok _ _ _ _ hop]
    exact ⟨ih'.1, ih'.2.trans h2⟩

/-- C10: in `Broadcast` the default `maxBlock` is written before the options are
applied, so an option overrides it: when the last expiration option of the list is
`WithExpirationBlock(B)`, the `mev_sendBundle` parameters sent have
`inclusion.maxBlock` equal to the hex encoding of `B`, and not to that of the
target block plus 30 unless the two numbers are the same. -/
theorem expiration_block_overrides (f : flashbot) (L : Lib) (w : World) (bundle : Bundle)
    (targetBlock B : Nat) (pre post : List BundleOption) (hB : B < 2 ^ 64)
    (hpost : ∀ o ∈ post, o.IsProvidedNonExpiration) (p : mevSimBundleParams)
    (hp : p ∈ w.paramsSince
      (f.Broadcast L w bundle targetBlock (pre ++ WithExpirationBlock B :: post)).2
      methodMevSendBundle) :
    p.Inclusion.MaxBlock = some (hexEncoding B) ∧
      (B ≠ targetBlock + 30 → p.Inclusion.MaxBlock ≠ some (hexEncoding (targetBlock + 30))) ∧
      (B ≠ (targetBlock + 30) % 2 ^ 64 →
        p.Inclusion.MaxBlock ≠ some (hexEncoding ((targetBlock + 30) % 2 ^ 64))) := by
  have hmax : p.Inclusion.MaxBlock = some (hexEncoding B) := by
    rcases Broadcast_paramsSince f L w bundle targetBlock _ _ p hp with ⟨hm, -⟩ | ⟨-, h, -⟩
    · exact absurd hm (by decide)
    · obtain ⟨body, -, ha⟩ := sendParams_ok bundle targetBlock _ p h
      obtain ⟨p1, -, hrest⟩ := applyOptions_append pre _ _ p ha
      rw [applyOptions_cons_ok _ _ _ _ rfl] at hrest
      have hf := congrArg (fun r => r.1.Inclusion.MaxBlock) hrest
      simp only [] at hf
      rw [(applyOptions_nonExpiration post hpost _).2] at hf
      rw [← hf, hexEncoding_eq_FormatUint B (lt_trans hB (by norm_num))]
  refine ⟨hmax, ?_, ?_⟩
  · intro hne hc
    rw [hmax] at hc
    exact hne (hexEncoding_injective _ _ (Option.some.inj hc))
  · intro hne hc
    rw [hmax] at hc
    exact hne (hexEncoding_injective _ _ (Option.some.inj hc))

/-- C10 at a concrete input: target block 1000 with a duration option, then
`WithExpirationBlock(2000)`, then a privacy option. -/
theorem expiration_block_overrides_witness :
    ∃ p ∈ demoWorld.paramsSince ((demoClient relayAccepting).Broadcast demoLib demoWorld
        demoBundle 1000 ([WithExpirationDurationInBlocks 5] ++ WithExpirationBlock 2000 ::
          [WithPrivacy { Hints := ["hash"], Builders := [] }])).2 methodMevSendBundle,
      p.Inclusion.MaxBlock = some (hexEncoding 2000) ∧
        p.Inclusion.MaxBlock = some "0x7d0" :=
  ⟨(demoWorld.paramsSince ((demoClient relayAccepting).Broadcast demoLib demoWorld
      demoBundle 1000 ([WithExpirationDurationInBlocks 5] ++ WithExpirationBlock 2000 ::
        [WithPrivacy { Hints := ["hash"], Builders := [] }])).2 methodMevSendBundle).get
      ⟨0, by decide!⟩,
    List.get_mem _ _ _,
    (expiration_block_overrides (demoClient relayAccepting) demoLib demoWorld demoBundle 1000 2000
      [WithExpirationDurationInBlocks 5] [WithPrivacy { Hints := ["hash"], Builders := [] }]
      (by norm_num)
      (fun _ ho => Or.inr (Or.inl ⟨_, List.mem_singleton.mp ho⟩)) _ (List.get_mem _ _ _)).1,
    by decide!⟩

end Flashbot

namespace Flashbot

/-! ## Options: defaults, order and failure -/

/-- C11: `Simulate` writes no default `maxBlock`: when every option of the list is
one of the provided options other than the two expiration options, the parameters
of every request it starts have `inclusion.maxBlock` absent. -/
theorem Simulate_no_default_maxBlock (f : flashbot) (L : Lib) (w : World) (bundle : Bundle)
    (targetBlock : Nat) (opts : List BundleOption)
    (hopts : ∀ o ∈ opts, o.IsProvidedNonExpiration) (m : method) (p : mevSimBundleParams)
    (hp : p ∈ w.paramsSince (f.Simulate L w bundle targetBlock opts).2 m) :
    p.Inclusion.MaxBlock = none := by
  obtain ⟨-, hsim⟩ := Simulate_paramsSince f L w bundle targetBlock opts m p hp
  obtain ⟨-, body, -, ha⟩ := simParams_ok bundle targetBlock opts p hsim
  have hf := (applyOptions_nonExpiration opts hopts
    { Version := "v0.1", Inclusion := { Block := blockHex targetBlock, MaxBlock := none }
      Body := body, Validity := none, Privacy := none, Metadata := none }).2
  rw [ha] at hf
  simp only [] at hf
  rw [hf]

/-- C11 at a concrete input: a simulation with a privacy and a validity option. -/
theorem Simulate_no_default_maxBlock_witness :
    ∃ p ∈ demoWorld.paramsSince ((demoClient relayAccepting).Simulate demoLib demoWorld
        demoBundle 1000 [WithPrivacy demoPrivacy, WithValidity demoValidity]).2
        methodMevSimBundle,
      p.Inclusion.MaxBlock = none ∧ p.Inclusion.Block = "0x3e8" :=
  ⟨(demoWorld.paramsSince ((demoClient relayAccepting).Simulate demoLib demoWorld
      demoBundle 1000 [WithPrivacy demoPrivacy, WithValidity demoValidity]).2
      methodMevSimBundle).get ⟨0, by decide!⟩,
    List.get_mem _ _ _,
    Simulate_no_default_maxBlock (demoClient relayAccepting) demoLib demoWorld demoBundle 1000
      [WithPrivacy demoPrivacy, WithValidity demoValidity]
      (by
        intro o ho
        rcases List.mem_cons.mp ho with rfl | ho
        · exact Or.inr (Or.inl ⟨_, rfl⟩)
        · exact Or.inl ⟨_, List.mem_singleton.mp ho⟩)
      methodMevSimBundle _ (List.get_mem _ _ _),
    by decide!⟩

/-- What `WithExpirationDurationInBlocks` does on a block text that parses. -/
theorem WithExpirationDurationInBlocks_ok (D block : Nat) (p : mevSimBundleParams)
    (h : strconv.ParseUint (strings.TrimPrefix p.Inclusion.Block "0x") 16 = .ok block) :
    WithExpirationDurationInBlocks D p =
      ({ p with Inclusion := { p.Inclusion with
          MaxBlock := some (hexEncoding ((block + D) % 2 ^ 64)) } }, none) := by
  simp only [WithExpirationDurationInBlocks, h]
  rw [hexEncoding_eq_FormatUint _ (lt_trans (Nat.mod_lt _ (by norm_num)) (by norm_num))]

/-- What `WithExpirationBlock` does for a `uint64` block. -/
theorem WithExpirationBlock_eq (B : Nat) (hB : B < 2 ^ 64) (p : mevSimBundleParams) :
    WithExpirationBlock B p =
      ({ p with Inclusion := { p.Inclusion with MaxBlock := some (hexEncoding B) } }, none) := by
  simp only [WithExpirationBlock]
  rw [hexEncoding_eq_FormatUint _ (lt_trans hB (by norm_num))]

/-- C12, refuted as stated: on a parameters object whose block is
`0xffffffffffffffff`, `WithExpirationBlock(7)` followed by
`WithExpirationDurationInBlocks(1)` leaves `maxBlock` equal to `0x0`, while the hex
encoding of the block plus the duration is `0x10000000000000000`. -/
theorem duration_sum_wraps :
    strconv.ParseUint (strings.TrimPrefix demoParamsTop.Inclusion.Block "0x") 16 =
        .ok (2 ^ 64 - 1) ∧
      (applyOptions [WithExpirationBlock 7, WithExpirationDurationInBlocks 1] demoParamsTop).2 =
        none ∧
      (applyOptions [WithExpirationBlock 7, WithExpirationDurationInBlocks 1]
        demoParamsTop).1.Inclusion.MaxBlock = some "0x0" ∧
      hexEncoding (2 ^ 64 - 1 + 1) = "0x10000000000000000" ∧
      (applyOptions [WithExpirationBlock 7, WithExpirationDurationInBlocks 1]
        demoParamsTop).1.Inclusion.MaxBlock ≠ some (hexEncoding (2 ^ 64 - 1 + 1)) := by
  have hhex : hexEncoding (2 ^ 64 - 1 + 1) = "0x10000000000000000" := by
    rw [hexEncoding_eq_FormatUint _ (by norm_num)]
    decide
  refine ⟨by decide, by decide, by decide, hhex, ?_⟩
  rw [hhex]
  decide

/-- C12, amended: on a parameters object whose `inclusion.block` parses as the
`uint64` number `block`, the duration option followed by the block option leaves
`maxBlock` equal to the hex encoding of `B`, and the block option followed by the
duration option leaves it equal to the hex encoding of `(block + D) mod 2 ^ 64`,
which is that of `block + D` when the sum fits in 64 bits; in both orders the
option applied last decides, and nothing else of the object changes. -/
theorem expiration_last_applied_wins (p : mevSimBundleParams) (block B D : Nat)
    (hB : B < 2 ^ 64)
    (hblock : strconv.ParseUint (strings.TrimPrefix p.Inclusion.Block "0x") 16 = .ok block) :
    applyOptions [WithExpirationDurationInBlocks D, WithExpirationBlock B] p =
        ({ p with Inclusion := { p.Inclusion with MaxBlock := some (hexEncoding B) } }, none) ∧
      applyOptions [WithExpirationBlock B, WithExpirationDurationInBlocks D] p =
        ({ p with Inclusion := { p.Inclusion with
            MaxBlock := some (hexEncoding ((block + D) % 2 ^ 64)) } }, none) ∧
      (WithExpirationBlock B (WithExpirationDurationInBlocks D p).1).1.Inclusion.MaxBlock =
        some (hexEncoding B) ∧
      (WithExpirationDurationInBlocks D (WithExpirationBlock B p).1).1.Inclusion.MaxBlock =
        some (hexEncoding ((block + D) % 2 ^ 64)) ∧
      (block + D < 2 ^ 64 →
        (WithExpirationDurationInBlocks D (WithExpirationBlock B p).1).1.Inclusion.MaxBlock =
          some (hexEncoding (block + D))) := by
  have h1 : WithExpirationBlock B (WithExpirationDurationInBlocks D p).1 =
      ({ p with Inclusion := { p.Inclusion with MaxBlock := some (hexEncoding B) } }, none) := by
    rw [WithExpirationDurationInBlocks_ok D block p hblock, WithExpirationBlock_eq B hB]
  have h2 : WithExpirationDurationInBlocks D (WithExpirationBlock B p).1 =
      ({ p with Inclusion := { p.Inclusion with
          MaxBlock := some (hexEncoding ((block + D) % 2 ^ 64)) } }, none) := by
    rw [WithExpirationBlock_eq B hB,
      WithExpirationDurationInBlocks_ok D block _ (by simpa using hblock)]
  refine ⟨?_, ?_, by rw [h1], by rw [h2], ?_⟩
  · rw [applyOptions_cons_ok _ _ _ _ (WithExpirationDurationInBlocks_ok D block p hblock),
      applyOptions_cons_ok _ _ _ _ (WithExpirationBlock_eq B hB _)]
    rfl
  · rw [applyOptions_cons_ok _ _ _ _ (WithExpirationBlock_eq B hB p),
      applyOptions_cons_ok _ _ _ _
        (WithExpirationDurationInBlocks_ok D block _ (by simpa using hblock))]
    rfl
  · intro hlt
    rw [h2, Nat.mod_eq_of_lt hlt]

/-- C12 at a concrete input: block `0x3e8`, `B = 2000` and `D = 5`. -/
theorem expiration_last_applied_wins_witness :
    strconv.ParseUint (strings.TrimPrefix demoParams.Inclusion.Block "0x") 16 = .ok 1000 ∧
      (WithExpirationBlock 2000
        (WithExpirationDurationInBlocks 5 demoParams).1).1.Inclusion.MaxBlock =
        some (hexEncoding 2000) ∧
      (WithExpirationDurationInBlocks 5
        (WithExpirationBlock 2000 demoParams).1).1.Inclusion.MaxBlock =
        some (hexEncoding ((1000 + 5) % 2 ^ 64)) ∧
      (WithExpirationDurationInBlocks 5
        (WithExpirationBlock 2000 demoParams).1).1.Inclusion.MaxBlock = some "0x3ed" :=
  ⟨by decide,
    (expiration_last_applied_wins demoParams 1000 2000 5 (by norm_num) (by decide)).2.2.1,
    (expiration_last_applied_wins demoParams 1000 2000 5 (by norm_num) (by decide)).2.2.2.1,
    by decide⟩

end Flashbot

namespace Flashbot

/-- The duration option on the block text `latest`: a parse error, and the
parameters as they were. -/
theorem WithExpirationDurationInBlocks_latest (D : Nat) (p : mevSimBundleParams)
    (h : p.Inclusion.Block = "latest") :
    WithExpirationDurationInBlocks D p =
      (p, some (.wrap "failed to parse block number"
        (.numError "ParseUint" "latest" "invalid syntax"))) := by
  have hparse : strconv.ParseUint (strings.TrimPrefix "latest" "0x") 16 =
      .error (.numError "ParseUint" "latest" "invalid syntax") := by decide
  simp only [WithExpirationDurationInBlocks, h, hparse]

/-- The first option that fails ends the loop: the options after it play no part. -/
theorem applyOptions_first_failure (pre post : List BundleOption) (o : BundleOption)
    (p p1 p2 : mevSimBundleParams) (err : GoError) (hpre : applyOptions pre p = (p1, none))
    (ho : o p1 = (p2, some err)) :
    applyOptions (pre ++ o :: post) p = (p2, some (.wrap "failed to apply option" err)) := by
  induction pre generalizing p with
  | nil =>
    simp only [applyOptions, Prod.mk.injEq, and_true] at hpre
    subst hpre
    exact applyOptions_cons_error o post p p2 err ho
  | cons a pre ih =>
    rcases ha : a p with ⟨p', e⟩
    cases e with
    | some err' =>
      rw [applyOptions_cons_error _ _ _ _ _ ha] at hpre
      simp at hpre
    | none =>
      rw [applyOptions_cons_ok _ _ _ _ ha] at hpre
      rw [List.cons_append, applyOptions_cons_ok _ _ _ _ ha]
      exact ih p' hpre

/-- A list of provided options that holds a duration option fails on the block
text `latest`, with the parse error of the first duration option. -/
theorem applyOptions_latest (opts : List BundleOption) (hprov : ∀ o ∈ opts, o.IsProvided)
    (D : Nat) (hD : WithExpirationDurationInBlocks D ∈ opts) :
    ∀ p : mevSimBundleParams, p.Inclusion.Block = "latest" →
      ∃ q, applyOptions opts p = (q, some (.wrap "failed to apply option"
        (.wrap "failed to parse block number"
          (.numError "ParseUint" "latest" "invalid syntax")))) := by
  induction opts with
  | nil => simp at hD
  | cons o opts ih =>
    intro p hp
    have hfail := WithExpirationDurationInBlocks_latest D p hp
    have hnext : ∀ p', o p = (p', none) → p'.Inclusion.Block = "latest" →
        ∃ q, applyOptions (o :: opts) p = (q, some (.wrap "failed to apply option"
          (.wrap "failed to parse block number"
            (.numError "ParseUint" "latest" "invalid syntax")))) := by
      intro p' hop hp'
      have hne : WithExpirationDurationInBlocks D ∈ opts := by
        rcases List.mem_cons.mp hD with heq | hmem
        · rw [← heq, hfail] at hop
          simp at hop
        · exact hmem
      rw [applyOptions_cons_ok _ _ _ _ hop]
      exact ih (fun o' ho' => hprov o' (List.mem_cons_of_mem _ ho')) hne p' hp'
    rcases hprov o (List.mem_cons_self _ _) with
      ⟨v, rfl⟩ | ⟨v, rfl⟩ | ⟨v, rfl⟩ | ⟨d, rfl⟩ | ⟨b, rfl⟩
    · exact hnext _ rfl hp
    · exact hnext _ rfl hp
    · exact hnext _ rfl hp
    · exact ⟨p, applyOptions_cons_error _ _ _ _ _ (WithExpirationDurationInBlocks_latest d p hp)⟩
    · exact hnext _ rfl hp

/-- C13: options are applied in list order and the first failing one ends the
building of the parameters with its error wrapped; for target block 0 the block
text is `latest`, on which every duration option fails with a parse error and
writes nothing, so with a list of provided options that holds a duration option
`Simulate` returns no result and an error and leaves the world as it was (the
wrapped parse error when the bundle is not empty and serializes), and `Broadcast`
returns no result and a wrapped error and starts no `mev_sendBundle` request. -/
theorem duration_on_latest_aborts (f : flashbot) (L : Lib) (w : World) (bundle : Bundle)
    (opts : List BundleOption) (D : Nat) (hprov : ∀ o ∈ opts, o.IsProvided)
    (hD : WithExpirationDurationInBlocks D ∈ opts) :
    (∀ (pre post : List BundleOption) (o : BundleOption) (p p1 p2 : mevSimBundleParams)
        (err : GoError), applyOptions pre p = (p1, none) → o p1 = (p2, some err) →
        applyOptions (pre ++ o :: post) p = (p2, some (.wrap "failed to apply option" err))) ∧
      (∀ (d : Nat) (p : mevSimBundleParams), p.Inclusion.Block = "latest" →
        WithExpirationDurationInBlocks d p =
          (p, some (.wrap "failed to parse block number"
            (.numError "ParseUint" "latest" "invalid syntax")))) ∧
      ((f.Simulate L w bundle 0 opts).1.1 = none ∧
        (∃ err, (f.Simulate L w bundle 0 opts).1.2 = some err) ∧
        (f.Simulate L w bundle 0 opts).2 = w) ∧
      (∀ body, bundle.Transactions ≠ [] →
        encodeBody bundle.CanRevert 0 bundle.Transactions [] = .ok body →
        f.Simulate L w bundle 0 opts =
          ((none, some (.wrap "failed to apply option" (.wrap "failed to parse block number"
            (.numError "ParseUint" "latest" "invalid syntax")))), w)) ∧
      ((f.Broadcast L w bundle 0 opts).1.1 = none ∧
        (∃ msg cause, (f.Broadcast L w bundle 0 opts).1.2 = some (.wrap msg cause)) ∧
        w.paramsSince (f.Broadcast L w bundle 0 opts).2 methodMevSendBundle = []) ∧
      ((f.Simulate L w bundle 0 []).1.2 = none →
        (f.Broadcast L w bundle 0 opts).1 =
          (none, some (.wrap "failed to apply option" (.wrap "failed to parse block number"
            (.numError "ParseUint" "latest" "invalid syntax"))))) := by
  have hparams : ∀ body, ∀ mb : Option String, ∃ q, applyOptions opts
      { Version := "v0.1", Inclusion := { Block := blockHex 0, MaxBlock := mb }
        Body := body, Validity := none, Privacy := none, Metadata := none } =
      (q, some (.wrap "failed to apply option" (.wrap "failed to parse block number"
        (.numError "ParseUint" "latest" "invalid syntax")))) := by
    intro body mb
    exact applyOptions_latest opts hprov D hD _ rfl
  have hsimP : ∀ body, bundle.Transactions ≠ [] →
      encodeBody bundle.CanRevert 0 bundle.Transactions [] = .ok body →
      simParams bundle 0 opts = .error (.wrap "failed to apply option"
        (.wrap "failed to parse block number"
          (.numError "ParseUint" "latest" "invalid syntax"))) := by
    intro body hne hb
    obtain ⟨q, hq⟩ := hparams body none
    have hlen : bundle.Transactions.length ≠ 0 := by
      intro hc; exact hne (List.length_eq_zero.mp hc)
    simp only [simParams, hlen, if_false, hb, hq]
  have hsimErr : ∃ err, simParams bundle 0 opts = .error err := by
    by_cases hne : bundle.Transactions = []
    · exact ⟨_, simParams_empty bundle 0 opts hne⟩
    · cases hb : encodeBody bundle.CanRevert 0 bundle.Transactions [] with
      | error err =>
        have hlen : bundle.Transactions.length ≠ 0 := by
          intro hc; exact hne (List.length_eq_zero.mp hc)
        exact ⟨err, by simp only [simParams, hlen, if_false, hb]⟩
      | ok body => exact ⟨_, hsimP body hne hb⟩
  have hsendErr : sendParams bundle 0 opts = .error (.wrap "failed to apply option"
      (.wrap "failed to parse block number"
        (.numError "ParseUint" "latest" "invalid syntax"))) ∨
      ∃ err, encodeBody bundle.CanRevert 0 bundle.Transactions [] = .error err := by
    cases hb : encodeBody bundle.CanRevert 0 bundle.Transactions [] with
    | error err => exact Or.inr ⟨err, rfl⟩
    | ok body =>
      left
      obtain ⟨q, hq⟩ := hparams body
        (some ("0x" ++ strconv.FormatUint ((0 + 30) % 2 ^ 64) 16))
      simp only [sendParams, hb, hq]
  have henc : (f.Simulate L w bundle 0 []).1.2 = none →
      ∃ body, encodeBody bundle.CanRevert 0 bundle.Transactions [] = .ok body := by
    intro hok
    cases hsp : simParams bundle 0 [] with
    | error err =>
      simp only [flashbot.Simulate, hsp] at hok
      cases hok
    | ok p =>
      obtain ⟨-, body, hb, -⟩ := simParams_ok bundle 0 [] p hsp
      exact ⟨body, hb⟩
  obtain ⟨serr, hserr⟩ := hsimErr
  have hsim : f.Simulate L w bundle 0 opts = ((none, some serr), w) := by
    simp only [flashbot.Simulate, hserr]
  have hnosend : w.paramsSince (f.Broadcast L w bundle 0 opts).2 methodMevSendBundle = [] := by
    rw [List.eq_nil_iff_forall_not_mem]
    intro p hp
    rcases Broadcast_paramsSince f L w bundle 0 opts _ p hp with ⟨hm, -⟩ | ⟨-, hsp, hok⟩
    · exact absurd hm (by decide)
    · rcases hsendErr with hse | ⟨err, hbe⟩
      · rw [hse] at hsp; cases hsp
      · simp only [sendParams, hbe] at hsp
        cases hsp
  have hbro : (f.Broadcast L w bundle 0 opts).1.1 = none ∧
      ∃ msg cause, (f.Broadcast L w bundle 0 opts).1.2 = some (.wrap msg cause) := by
    unfold flashbot.Broadcast
    rcases hs : f.Simulate L w bundle 0 [] with ⟨⟨r, e⟩, w0⟩
    cases e with
    | some err => exact ⟨rfl, _, _, rfl⟩
    | none =>
      simp only []
      rcases hsendErr with hse | ⟨err, hbe⟩
      · rw [hse]
        exact ⟨rfl, _, _, rfl⟩
      · obtain ⟨body, hb⟩ := henc (by rw [hs])
        rw [hb] at hbe
        cases hbe
  refine ⟨fun pre post o p p1 p2 err => applyOptions_first_failure pre post o p p1 p2 err,
    fun d p hp => WithExpirationDurationInBlocks_latest d p hp,
    ⟨by rw [hsim], ⟨serr, by rw [hsim]⟩, by rw [hsim]⟩, ?_, ⟨hbro.1, hbro.2, hnosend⟩, ?_⟩
  · intro body hne hb
    simp only [flashbot.Simulate, hsimP body hne hb]
  · intro hok
    unfold flashbot.Broadcast
    rcases hs : f.Simulate L w bundle 0 [] with ⟨⟨r, e⟩, w0⟩
    rw [hs] at hok
    simp only [] at hok
    subst hok
    simp only []
    rcases hsendErr with hse | ⟨err, hbe⟩
    · rw [hse]
    · obtain ⟨body, hb⟩ := henc (by rw [hs])
      rw [hb] at hbe
      cases hbe

/-- The demonstration options hold a duration option and are provided ones. -/
theorem demoOptions_provided :
    ∀ o ∈ [WithPrivacy demoPrivacy, WithExpirationDurationInBlocks 3, WithValidity demoValidity],
      o.IsProvided := by
  intro o ho
  simp only [List.mem_cons, List.mem_singleton, List.not_mem_nil, or_false] at ho
  rcases ho with rfl | rfl | rfl
  · exact Or.inr (Or.inl ⟨_, rfl⟩)
  · exact Or.inr (Or.inr (Or.inr (Or.inl ⟨_, rfl⟩)))
  · exact Or.inl ⟨_, rfl⟩

/-- C13 at a concrete input: target block 0 with a privacy option, a duration
option and a validity option. -/
theorem duration_on_latest_aborts_witness :
    (demoClient relayAccepting).Simulate demoLib demoWorld demoBundle 0
        [WithPrivacy demoPrivacy, WithExpirationDurationInBlocks 3, WithValidity demoValidity] =
        ((none, some (.wrap "failed to apply option" (.wrap "failed to parse block number"
          (.numError "ParseUint" "latest" "invalid syntax")))), demoWorld) ∧
      ((demoClient relayAccepting).Simulate demoLib demoWorld demoBundle 0 []).1.2 = none ∧
      ((demoClient relayAccepting).Broadcast demoLib demoWorld demoBundle 0
        [WithPrivacy demoPrivacy, WithExpirationDurationInBlocks 3,
          WithValidity demoValidity]).1 =
        (none, some (.wrap "failed to apply option" (.wrap "failed to parse block number"
          (.numError "ParseUint" "latest" "invalid syntax")))) ∧
      demoWorld.paramsSince ((demoClient relayAccepting).Broadcast demoLib demoWorld demoBundle 0
        [WithPrivacy demoPrivacy, WithExpirationDurationInBlocks 3,
          WithValidity demoValidity]).2 methodMevSendBundle = [] :=
  ⟨(duration_on_latest_aborts (demoClient relayAccepting) demoLib demoWorld demoBundle
      [WithPrivacy demoPrivacy, WithExpirationDurationInBlocks 3, WithValidity demoValidity] 3
      demoOptions_provided (List.mem_cons_of_mem _ (List.mem_cons_self _ _))).2.2.2.1
      [.mk none (some "0x02f86f") (some true) none, .mk none (some "0x02f8b0") (some false) none]
      (by decide) rfl,
    by decide!,
    (duration_on_latest_aborts (demoClient relayAccepting) demoLib demoWorld demoBundle
      [WithPrivacy demoPrivacy, WithExpirationDurationInBlocks 3, WithValidity demoValidity] 3
      demoOptions_provided (List.mem_cons_of_mem _ (List.mem_cons_self _ _))).2.2.2.2.2
      (by decide!),
    (duration_on_latest_aborts (demoClient relayAccepting) demoLib demoWorld demoBundle
      [WithPrivacy demoPrivacy, WithExpirationDurationInBlocks 3, WithValidity demoValidity] 3
      demoOptions_provided (List.mem_cons_of_mem _ (List.mem_cons_self _ _))).2.2.2.2.1.2.2⟩

end Flashbot

namespace Flashbot

/-! ## The answer of the relay -/

/-- What `Simulate` returns once the relay's answer is decoded. -/
theorem Simulate_of_decoded (f : flashbot) (L : Lib) (w : World) (bundle : Bundle)
    (targetBlock : Nat) (opts : List BundleOption) (resp : HttpResponse) (d : simRpcResp)
    (hr : f.simulateResponse L w bundle targetBlock opts = some resp)
    (hd : L.decodeSim resp = some d) :
    (f.Simulate L w bundle targetBlock opts).1 = rpcOutcome d.Result d.Error := by
  unfold flashbot.simulateResponse at hr
  unfold Lib.decodeSim at hd
  unfold flashbot.Simulate
  cases hp : simParams bundle targetBlock opts with
  | error err => simp [hp] at hr
  | ok params =>
    simp only [hp] at hr ⊢
    cases hn : f.newRequest L _ with
    | error err => simp [hn] at hr
    | ok httpReq =>
      simp only [hn] at hr ⊢
      cases hc : f.client _ httpReq with
      | error err => simp [hc] at hr
      | ok resp' =>
        simp only [hc, Option.some.injEq] at hr ⊢
        subst hr
        cases hb : resp'.Body with
        | error err => simp [hb] at hd
        | ok bs =>
          simp only [hb] at hd ⊢
          cases hcl : resp'.Close with
          | some err => simp [hcl] at hd
          | none =>
            simp only [hcl] at hd ⊢
            cases hu : L.unmarshalSim bs with
            | error err => simp [hu] at hd
            | ok d' =>
              simp only [hu, Option.some.injEq] at hd ⊢
              subst hd
              unfold rpcOutcome
              cases d'.Error <;> cases d'.Result <;> rfl

/-- A call of `Simulate` that returns no error has decoded an answer of the relay. -/
theorem Simulate_ok_decoded (f : flashbot) (L : Lib) (w : World) (bundle : Bundle)
    (targetBlock : Nat) (opts : List BundleOption)
    (h : (f.Simulate L w bundle targetBlock opts).1.2 = none) :
    ∃ resp d, f.simulateResponse L w bundle targetBlock opts = some resp ∧
      L.decodeSim resp = some d := by
  unfold flashbot.simulateResponse Lib.decodeSim
  unfold flashbot.Simulate at h
  cases hp : simParams bundle targetBlock opts with
  | error err => simp [hp] at h
  | ok params =>
    simp only [hp] at h ⊢
    cases hn : f.newRequest L _ with
    | error err => simp [hn] at h
    | ok httpReq =>
      simp only [hn] at h ⊢
      cases hc : f.client _ httpReq with
      | error err => simp [hc] at h
      | ok resp =>
        simp only [hc] at h ⊢
        cases hb : resp.Body with
        | error err => simp [hb] at h
        | ok bs =>
          simp only [hb] at h
          cases hcl : resp.Close with
          | some err => simp [hcl] at h
          | none =>
            simp only [hcl] at h
            cases hu : L.unmarshalSim bs with
            | error err => simp [hu] at h
            | ok d => exact ⟨resp, d, rfl, by simp [hb, hcl, hu]⟩

/-- What `Broadcast` returns once the relay's answer to the send request is decoded. -/
theorem Broadcast_of_decoded (f : flashbot) (L : Lib) (w : World) (bundle : Bundle)
    (targetBlock : Nat) (opts : List BundleOption) (resp : HttpResponse) (d : broadcastRpcResp)
    (hr : f.broadcastResponse L w bundle targetBlock opts = some resp)
    (hd : L.decodeBroadcast resp = some d) :
    (f.Broadcast L w bundle targetBlock opts).1 = rpcOutcome d.Result d.Error := by
  unfold flashbot.broadcastResponse at hr
  unfold Lib.decodeBroadcast at hd
  unfold flashbot.Broadcast
  rcases hs : f.Simulate L w bundle targetBlock [] with ⟨⟨r, e⟩, w0⟩
  rw [hs] at hr
  cases e with
  | some err => simp at hr
  | none =>
    simp only [] at hr ⊢
    cases hp : sendParams bundle targetBlock opts with
    | error err => simp [hp] at hr
    | ok params =>
      simp only [hp] at hr ⊢
      cases hn : f.newRequest L _ with
      | error err => simp [hn] at hr
      | ok httpReq =>
        simp only [hn] at hr ⊢
        cases hc : f.client _ httpReq with
        | error err => simp [hc] at hr
        | ok resp' =>
          simp only [hc, Option.some.injEq] at hr ⊢
          subst hr
          cases hb : resp'.Body with
          | error err => simp [hb] at hd
          | ok bs =>
            simp only [hb] at hd ⊢
            cases hcl : resp'.Close with
            | some err => simp [hcl] at hd
            | none =>
              simp only [hcl] at hd ⊢
              cases hu : L.unmarshalBroadcast bs with
              | error err => simp [hu] at hd
              | ok d' =>
                simp only [hu, Option.some.injEq] at hd ⊢
                subst hd
                unfold rpcOutcome
                cases d'.Error <;> cases d'.Result <;> rfl

/-- A call of `Broadcast` that returns no error has decoded an answer of the relay
to its send request. -/
theorem Broadcast_ok_decoded (f : flashbot) (L : Lib) (w : World) (bundle : Bundle)
    (targetBlock : Nat) (opts : List BundleOption)
    (h : (f.Broadcast L w bundle targetBlock opts).1.2 = none) :
    ∃ resp d, f.broadcastResponse L w bundle targetBlock opts = some resp ∧
      L.decodeBroadcast resp = some d := by
  unfold flashbot.broadcastResponse Lib.decodeBroadcast
  unfold flashbot.Broadcast at h
  rcases hs : f.Simulate L w bundle targetBlock [] with ⟨⟨r, e⟩, w0⟩
  rw [hs] at h
  cases e with
  | some err => simp at h
  | none =>
    simp only [] at h ⊢
    cases hp : sendParams bundle targetBlock opts with
    | error err => simp [hp] at h
    | ok params =>
      simp only [hp] at h ⊢
      cases hn : f.newRequest L _ with
      | error err => simp [hn] at h
      | ok httpReq =>
        simp only [hn] at h ⊢
        cases hc : f.client _ httpReq with
        | error err => simp [hc] at h
        | ok resp =>
          simp only [hc] at h ⊢
          cases hb : resp.Body with
          | error err => simp [hb] at h
          | ok bs =>
            simp only [hb] at h
            cases hcl : resp.Close with
            | some err => simp [hcl] at h
            | none =>
              simp only [hcl] at h
              cases hu : L.unmarshalBroadcast bs with
              | error err => simp [hu] at h
              | ok d => exact ⟨resp, d, rfl, by simp [hb, hcl, hu]⟩

end Flashbot

namespace Flashbot

/-- C14: when the decoded answer of the relay carries both an error object and a
result, `Simulate` and the send step of `Broadcast` return an error (together with
that result): the error takes precedence and the call is not reported as a
success. -/
theorem error_takes_precedence (f : flashbot) (L : Lib) (w : World) (bundle : Bundle)
    (targetBlock : Nat) (opts : List BundleOption) :
    (∀ (resp : HttpResponse) (d : simRpcResp) (e : rpcError) (r : MevSimResponse),
        f.simulateResponse L w bundle targetBlock opts = some resp →
        L.decodeSim resp = some d → d.Error = some e → d.Result = some r →
        (f.Simulate L w bundle targetBlock opts).1 = (some r, some (.errorf (rpcErrorText e))) ∧
          (f.Simulate L w bundle targetBlock opts).1.2 ≠ none) ∧
      (∀ (resp : HttpResponse) (d : broadcastRpcResp) (e : rpcError) (r : BroadcastResponse),
        f.broadcastResponse L w bundle targetBlock opts = some resp →
        L.decodeBroadcast resp = some d → d.Error = some e → d.Result = some r →
        (f.Broadcast L w bundle targetBlock opts).1 = (some r, some (.errorf (rpcErrorText e))) ∧
          (f.Broadcast L w bundle targetBlock opts).1.2 ≠ none) := by
  refine ⟨?_, ?_⟩
  · intro resp d e r hr hd he hres
    have h := Simulate_of_decoded f L w bundle targetBlock opts resp d hr hd
    rw [he, hres] at h
    rw [h]
    exact ⟨rfl, by simp [rpcOutcome]⟩
  · intro resp d e r hr hd he hres
    have h := Broadcast_of_decoded f L w bundle targetBlock opts resp d hr hd
    rw [he, hres] at h
    rw [h]
    exact ⟨rfl, by simp [rpcOutcome]⟩

/-- C14 at concrete inputs: a relay that answers the simulation with both parts,
and a relay that answers the simulation with a result and the send request with
both parts. -/
theorem error_takes_precedence_witness :
    ((demoClient (relayThen [98] [114])).Simulate demoLib demoWorld demoBundle 1000 []).1 =
        (some demoSimResponse, some (.errorf (rpcErrorText demoRpcError))) ∧
      ((demoClient (relayThen [114] [98])).Broadcast demoLib demoWorld demoBundle 1000 []).1 =
        (some demoBroadcastResponse, some (.errorf (rpcErrorText demoRpcError))) :=
  ⟨((error_takes_precedence (demoClient (relayThen [98] [114])) demoLib demoWorld demoBundle
      1000 []).1 { StatusCode := 200, Header := [], Body := .ok [98], Close := none }
      { Id := 1, Result := some demoSimResponse, Error := some demoRpcError } demoRpcError
      demoSimResponse (by decide!) (by decide) rfl rfl).1,
    ((error_takes_precedence (demoClient (relayThen [114] [98])) demoLib demoWorld demoBundle
      1000 []).2 { StatusCode := 200, Header := [], Body := .ok [98], Close := none }
      { Jsonrpc := "2.0", ID := 1, Result := some demoBroadcastResponse
        Error := some demoRpcError } demoRpcError
      demoBroadcastResponse (by decide!) (by decide) rfl rfl).1⟩

/-- C15: when the decoded answer of the relay carries neither a result nor an error
object, `Simulate` and the send step of `Broadcast` return no result and the
empty-result error; and a call that returns no error has decoded an answer without
error object and with a result, and returns exactly that result. -/
theorem empty_result_and_success (f : flashbot) (L : Lib) (w : World) (bundle : Bundle)
    (targetBlock : Nat) (opts : List BundleOption) :
    (∀ (resp : HttpResponse) (d : simRpcResp),
        f.simulateResponse L w bundle targetBlock opts = some resp →
        L.decodeSim resp = some d → d.Error = none → d.Result = none →
        (f.Simulate L w bundle targetBlock opts).1 =
          (none, some (.errorf "empty result from relay"))) ∧
      ((f.Simulate L w bundle targetBlock opts).1.2 = none →
        ∃ resp d r, f.simulateResponse L w bundle targetBlock opts = some resp ∧
          L.decodeSim resp = some d ∧ d.Error = none ∧ d.Result = some r ∧
          (f.Simulate L w bundle targetBlock opts).1.1 = some r) ∧
      (∀ (resp : HttpResponse) (d : broadcastRpcResp),
        f.broadcastResponse L w bundle targetBlock opts = some resp →
        L.decodeBroadcast resp = some d → d.Error = none → d.Result = none →
        (f.Broadcast L w bundle targetBlock opts).1 =
          (none, some (.errorf "empty result from relay"))) ∧
      ((f.Broadcast L w bundle targetBlock opts).1.2 = none →
        ∃ resp d r, f.broadcastResponse L w bundle targetBlock opts = some resp ∧
          L.decodeBroadcast resp = some d ∧ d.Error = none ∧ d.Result = some r ∧
          (f.Broadcast L w bundle targetBlock opts).1.1 = some r) := by
  refine ⟨?_, ?_, ?_, ?_⟩
  · intro resp d hr hd he hres
    have h := Simulate_of_decoded f L w bundle targetBlock opts resp d hr hd
    rw [he, hres] at h
    exact h
  · intro hok
    obtain ⟨resp, d, hr, hd⟩ := Simulate_ok_decoded f L w bundle targetBlock opts hok
    have h := Simulate_of_decoded f L w bundle targetBlock opts resp d hr hd
    rw [h] at hok ⊢
    cases he : d.Error with
    | some e => simp [rpcOutcome, he] at hok
    | none =>
      cases hres : d.Result with
      | none => simp [rpcOutcome, he, hres] at hok
      | some r => exact ⟨resp, d, r, hr, hd, he, hres, by simp [rpcOutcome, he, hres]⟩
  · intro resp d hr hd he hres
    have h := Broadcast_of_decoded f L w bundle targetBlock opts resp d hr hd
    rw [he, hres] at h
    exact h
  · intro hok
    obtain ⟨resp, d, hr, hd⟩ := Broadcast_ok_decoded f L w bundle targetBlock opts hok
    have h := Broadcast_of_decoded f L w bundle targetBlock opts resp d hr hd
    rw [h] at hok ⊢
    cases he : d.Error with
    | some e => simp [rpcOutcome, he] at hok
    | none =>
      cases hres : d.Result with
      | none => simp [rpcOutcome, he, hres] at hok
      | some r => exact ⟨resp, d, r, hr, hd, he, hres, by simp [rpcOutcome, he, hres]⟩

/-- C15 at concrete inputs: relays that answer with neither part, and a relay that
accepts. -/
theorem empty_result_and_success_witness :
    ((demoClient (relayThen [110] [114])).Simulate demoLib demoWorld demoBundle 1000 []).1 =
        (none, some (.errorf "empty result from relay")) ∧
      ((demoClient (relayThen [114] [110])).Broadcast demoLib demoWorld demoBundle 1000 []).1 =
        (none, some (.errorf "empty result from relay")) ∧
      ((demoClient relayAccepting).Broadcast demoLib demoWorld demoBundle 1000 []).1.2 = none ∧
      ∃ resp d r, (demoClient relayAccepting).broadcastResponse demoLib demoWorld demoBundle
          1000 [] = some resp ∧
        demoLib.decodeBroadcast resp = some d ∧ d.Error = none ∧ d.Result = some r ∧
        ((demoClient relayAccepting).Broadcast demoLib demoWorld demoBundle 1000 []).1.1 =
          some r :=
  ⟨(empty_result_and_success (demoClient (relayThen [110] [114])) demoLib demoWorld demoBundle
      1000 []).1 { StatusCode := 200, Header := [], Body := .ok [110], Close := none }
      { Id := 1, Result := none, Error := none } (by decide!) (by decide) rfl rfl,
    (empty_result_and_success (demoClient (relayThen [114] [110])) demoLib demoWorld demoBundle
      1000 []).2.2.1 { StatusCode := 200, Header := [], Body := .ok [110], Close := none }
      { Jsonrpc := "2.0", ID := 1, Result := none, Error := none } (by decide!) (by decide)
      rfl rfl,
    by decide!,
    (empty_result_and_success (demoClient relayAccepting) demoLib demoWorld demoBundle
      1000 []).2.2.2 (by decide!)⟩

/-- C16: when the decoded answer of the relay carries an error object, `Simulate`
and the send step of `Broadcast` return the result of that same answer (none when
it has none) together with an error whose text is `RPC error: `, the message of the
relay, ` (code: `, its code in decimal, and `)`. -/
theorem relay_error_keeps_result (f : flashbot) (L : Lib) (w : World) (bundle : Bundle)
    (targetBlock : Nat) (opts : List BundleOption) :
    (∀ (resp : HttpResponse) (d : simRpcResp) (e : rpcError),
        f.simulateResponse L w bundle targetBlock opts = some resp →
        L.decodeSim resp = some d → d.Error = some e →
        (f.Simulate L w bundle targetBlock opts).1 =
          (d.Result, some (.errorf
            ("RPC error: " ++ e.Message ++ " (code: " ++ strconv.Itoa e.Code ++ ")")))) ∧
      (∀ (resp : HttpResponse) (d : broadcastRpcResp) (e : rpcError),
        f.broadcastResponse L w bundle targetBlock opts = some resp →
        L.decodeBroadcast resp = some d → d.Error = some e →
        (f.Broadcast L w bundle targetBlock opts).1 =
          (d.Result, some (.errorf
            ("RPC error: " ++ e.Message ++ " (code: " ++ strconv.Itoa e.Code ++ ")")))) := by
  refine ⟨?_, ?_⟩
  · intro resp d e hr hd he
    have h := Simulate_of_decoded f L w bundle targetBlock opts resp d hr hd
    rw [he] at h
    exact h
  · intro resp d e hr hd he
    have h := Broadcast_of_decoded f L w bundle targetBlock opts resp d hr hd
    rw [he] at h
    exact h

/-- C16 at concrete inputs: a relay error with a result beside it for `Simulate`,
and one without a result for the send step of `Broadcast`. -/
theorem relay_error_keeps_result_witness :
    ((demoClient (relayThen [98] [114])).Simulate demoLib demoWorld demoBundle 1000 []).1 =
        (some demoSimResponse,
          some (.errorf ("RPC error: " ++ "bundle reverted" ++ " (code: " ++
            strconv.Itoa (-32000) ++ ")"))) ∧
      ((demoClient (relayThen [114] [101])).Broadcast demoLib demoWorld demoBundle 1000 []).1 =
        (none, some (.errorf ("RPC error: " ++ "bundle reverted" ++ " (code: " ++
            strconv.Itoa (-32000) ++ ")"))) ∧
      "RPC error: " ++ "bundle reverted" ++ " (code: " ++ strconv.Itoa (-32000) ++ ")" =
        "RPC error: bundle reverted (code: -32000)" :=
  ⟨(relay_error_keeps_result (demoClient (relayThen [98] [114])) demoLib demoWorld demoBundle
      1000 []).1 { StatusCode := 200, Header := [], Body := .ok [98], Close := none }
      { Id := 1, Result := some demoSimResponse, Error := some demoRpcError } demoRpcError
      (by decide!) (by decide) rfl,
    (relay_error_keeps_result (demoClient (relayThen [114] [101])) demoLib demoWorld demoBundle
      1000 []).2 { StatusCode := 200, Header := [], Body := .ok [101], Close := none }
      { Jsonrpc := "2.0", ID := 1, Result := none, Error := some demoRpcError } demoRpcError
      (by decide!) (by decide) rfl,
    by decide⟩

end Flashbot

namespace Flashbot

/-! ## The request envelope -/

/-- The random request id is a number from 0 up to, but not including, the bound. -/
theorem Intn_range (w : World) (n : Nat) (hn : 0 < n) :
    0 ≤ (w.Intn n).1 ∧ (w.Intn n).1 < n := by
  simp only [World.Intn]
  exact ⟨Int.ofNat_nonneg _, by exact_mod_cast Nat.mod_lt _ hn⟩

/-- The body of a request that `newRequest` returns is the serialized envelope. -/
theorem newRequest_body (f : flashbot) (L : Lib) (req : rpcReq) (httpReq : HttpRequest)
    (h : f.newRequest L req = .ok httpReq) : req.ToJson L = .ok httpReq.Body := by
  unfold flashbot.newRequest at h
  cases hj : req.ToJson L with
  | error err => simp [hj] at h
  | ok jsonBody =>
    cases hs : f.signRequest L jsonBody with
    | error err => simp [hj, hs] at h
    | ok signature =>
      cases hu : L.urlParse f.relayURL with
      | some err => simp [hj, hs, NewRequestWithContext, hu] at h
      | none =>
        simp only [hj, hs, NewRequestWithContext, hu, Except.ok.injEq] at h
        subst h
        rfl

/-- The events `Simulate` adds, with the request id spelled out. -/
theorem Simulate_events (f : flashbot) (L : Lib) (w : World) (bundle : Bundle)
    (targetBlock : Nat) (opts : List BundleOption) :
    w.eventsSince (f.Simulate L w bundle targetBlock opts).2 = [] ∨
      ∃ params, simParams bundle targetBlock opts = .ok params ∧
        (w.eventsSince (f.Simulate L w bundle targetBlock opts).2 =
            [.newRequest ⟨jsonRPCVersion, (w.Intn 1000000).1, methodMevSimBundle, [params]⟩] ∨
          ∃ httpReq,
            f.newRequest L ⟨jsonRPCVersion, (w.Intn 1000000).1, methodMevSimBundle, [params]⟩ =
              .ok httpReq ∧
            w.eventsSince (f.Simulate L w bundle targetBlock opts).2 =
              [.newRequest ⟨jsonRPCVersion, (w.Intn 1000000).1, methodMevSimBundle, [params]⟩,
               .Do ⟨jsonRPCVersion, (w.Intn 1000000).1, methodMevSimBundle, [params]⟩
                 httpReq]) := by
  unfold flashbot.Simulate
  cases hp : simParams bundle targetBlock opts with
  | error err => left; exact eventsSince_self w
  | ok params =>
    right
    refine ⟨params, rfl, ?_⟩
    simp only []
    cases hn : f.newRequest L _ with
    | error err =>
      left
      exact eventsSince_of_trace _ _ _ (by simp [emit_trace, Intn_trace])
    | ok httpReq =>
      right
      refine ⟨httpReq, rfl, ?_⟩
      apply eventsSince_of_trace
      simp only []
      split <;> (try split) <;> (try split) <;> (try split) <;> (try split) <;> (try split) <;>
        simp [emit_trace, Intn_trace]

/-- The events of the send step of `Broadcast`, those after its simulation, with
the request id spelled out. -/
theorem Broadcast_send_events (f : flashbot) (L : Lib) (w : World) (bundle : Bundle)
    (targetBlock : Nat) (opts : List BundleOption) :
    (f.Simulate L w bundle targetBlock []).2.eventsSince
        (f.Broadcast L w bundle targetBlock opts).2 = [] ∨
      ∃ params, sendParams bundle targetBlock opts = .ok params ∧
        ((f.Simulate L w bundle targetBlock []).2.eventsSince
            (f.Broadcast L w bundle targetBlock opts).2 =
            [.newRequest ⟨jsonRPCVersion, ((f.Simulate L w bundle targetBlock []).2.Intn 1000000).1,
              methodMevSendBundle, [params]⟩] ∨
          ∃ httpReq,
            f.newRequest L ⟨jsonRPCVersion,
                ((f.Simulate L w bundle targetBlock []).2.Intn 1000000).1,
                methodMevSendBundle, [params]⟩ = .ok httpReq ∧
            ((f.Simulate L w bundle targetBlock []).2.eventsSince
                (f.Broadcast L w bundle targetBlock opts).2 =
                [.newRequest ⟨jsonRPCVersion,
                    ((f.Simulate L w bundle targetBlock []).2.Intn 1000000).1,
                    methodMevSendBundle, [params]⟩,
                 .Do ⟨jsonRPCVersion, ((f.Simulate L w bundle targetBlock []).2.Intn 1000000).1,
                    methodMevSendBundle, [params]⟩ httpReq] ∨
              ∃ bs, (f.Simulate L w bundle targetBlock []).2.eventsSince
                (f.Broadcast L w bundle targetBlock opts).2 =
                [.newRequest ⟨jsonRPCVersion,
                    ((f.Simulate L w bundle targetBlock []).2.Intn 1000000).1,
                    methodMevSendBundle, [params]⟩,
                 .Do ⟨jsonRPCVersion, ((f.Simulate L w bundle targetBlock []).2.Intn 1000000).1,
                    methodMevSendBundle, [params]⟩ httpReq,
                 .Println bs])) := by
  unfold flashbot.Broadcast
  rcases hs : f.Simulate L w bundle targetBlock [] with ⟨⟨r, e⟩, w0⟩
  cases e with
  | some err => left; exact eventsSince_self w0
  | none =>
    simp only []
    cases hp : sendParams bundle targetBlock opts with
    | error err => left; exact eventsSince_self w0
    | ok params =>
      right
      refine ⟨params, rfl, ?_⟩
      simp only []
      cases hn : f.newRequest L _ with
      | error err =>
        left
        exact eventsSince_of_trace _ _ _ (by simp [emit_trace, Intn_trace])
      | ok httpReq =>
        right
        refine ⟨httpReq, rfl, ?_⟩
        simp only []
        cases hd : f.client _ httpReq with
        | error err =>
          left
          exact eventsSince_of_trace _ _ _ (by simp [emit_trace, Intn_trace])
        | ok resp =>
          simp only []
          cases hb : resp.Body with
          | error err =>
            left
            exact eventsSince_of_trace _ _ _ (by simp [emit_trace, Intn_trace])
          | ok bs =>
            right
            refine ⟨bs, ?_⟩
            apply eventsSince_of_trace
            simp only []
            split <;> (try split) <;> (try split) <;> (try split) <;>
              simp [emit_trace, Intn_trace]

/-- The JSON text of a string of the package's constants has no escapes. -/
theorem encodeString_constants :
    json.encodeString jsonRPCVersion = stringBytes "\"2.0\"" ∧
      json.encodeString methodMevSimBundle = stringBytes "\"mev_simBundle\"" ∧
      json.encodeString methodMevSendBundle = stringBytes "\"mev_sendBundle\"" := by
  decide

end Flashbot

namespace Flashbot

/-- Once its parameters are built, `Simulate` starts a `mev_simBundle` request for
them. -/
theorem Simulate_builds (f : flashbot) (L : Lib) (w : World) (bundle : Bundle)
    (targetBlock : Nat) (opts : List BundleOption) (p : mevSimBundleParams)
    (hp : simParams bundle targetBlock opts = .ok p) :
    w.eventsSince (f.Simulate L w bundle targetBlock opts).2 =
        [.newRequest ⟨jsonRPCVersion, (w.Intn 1000000).1, methodMevSimBundle, [p]⟩] ∨
      ∃ httpReq,
        f.newRequest L ⟨jsonRPCVersion, (w.Intn 1000000).1, methodMevSimBundle, [p]⟩ =
          .ok httpReq ∧
        w.eventsSince (f.Simulate L w bundle targetBlock opts).2 =
          [.newRequest ⟨jsonRPCVersion, (w.Intn 1000000).1, methodMevSimBundle, [p]⟩,
           .Do ⟨jsonRPCVersion, (w.Intn 1000000).1, methodMevSimBundle, [p]⟩ httpReq] := by
  rcases Simulate_events f L w bundle targetBlock opts with h | ⟨params, hpar, h⟩
  · exfalso
    unfold flashbot.Simulate at h
    rw [hp] at h
    simp only [] at h
    revert h
    split <;> (try split) <;> (try split) <;> (try split) <;> (try split) <;> (try split) <;>
      (try split) <;> simp [World.eventsSince, emit_trace, Intn_trace]
  · rw [hp] at hpar
    simp only [Except.ok.injEq] at hpar
    subst hpar
    exact h

/-- Once the simulation has succeeded and its parameters are built, `Broadcast`
starts a `mev_sendBundle` request for them. -/
theorem Broadcast_builds (f : flashbot) (L : Lib) (w : World) (bundle : Bundle)
    (targetBlock : Nat) (opts : List BundleOption) (p : mevSimBundleParams)
    (hs : (f.Simulate L w bundle targetBlock []).1.2 = none)
    (hp : sendParams bundle targetBlock opts = .ok p) :
    ∃ evs, (f.Simulate L w bundle targetBlock []).2.eventsSince
        (f.Broadcast L w bundle targetBlock opts).2 =
      .newRequest ⟨jsonRPCVersion, ((f.Simulate L w bundle targetBlock []).2.Intn 1000000).1,
        methodMevSendBundle, [p]⟩ :: evs := by
  rcases Broadcast_send_events f L w bundle targetBlock opts with
    h | ⟨params, hpar, h | ⟨httpReq, -, h | ⟨bs, h⟩⟩⟩
  · exfalso
    unfold flashbot.Broadcast at h
    rcases hsim : f.Simulate L w bundle targetBlock [] with ⟨⟨r, e⟩, w0⟩
    rw [hsim] at hs h
    simp only at hs
    subst hs
    simp only [hp] at h
    revert h
    split <;> (try split) <;> (try split) <;> (try split) <;> (try split) <;> (try split) <;>
      (try split) <;> simp [World.eventsSince, emit_trace, Intn_trace]
  all_goals
    rw [hp] at hpar
    simp only [Except.ok.injEq] at hpar
    subst hpar
    exact ⟨_, h⟩

/-- The envelope of a request of one of the two methods, as the package fills it,
has the shape of an envelope of that method. -/
theorem isEnvelopeOf_mk (id : Int) (h0 : 0 ≤ id) (h1 : id < 1000000) (m : method)
    (hm : json.encodeString m = stringBytes ("\"" ++ m ++ "\"")) (p : mevSimBundleParams) :
    rpcReq.IsEnvelopeOf ⟨jsonRPCVersion, id, m, [p]⟩ m := by
  refine ⟨rfl, h0, h1, rfl, rfl, p, rfl, ?_⟩
  intro marshalParams
  simp only [marshalRpcReq, marshalParamsSlice, marshalParamsList]
  cases marshalParams p with
  | error err => rfl
  | ok pb =>
    simp only [Except.map, hm, encodeString_constants.1, Except.ok.injEq]
    simp only [stringBytes_append, List.append_assoc]
    rfl

/-- The text of an envelope of the shape the package builds, as `ToJson` writes it:
the members `jsonrpc`, `id`, `method` and `params`, in this order, around the text
of the parameters object. -/
theorem ToJson_envelope (L : Lib) (req : rpcReq) (m : method) (henv : req.IsEnvelopeOf m)
    (body : Bytes) (h : req.ToJson L = .ok body) :
    ∃ p pb, req.Params = [p] ∧ L.jsonMarshalParams p = .ok pb ∧
      body = stringBytes "\x7b\"jsonrpc\":\"2.0\",\"id\":" ++ stringBytes (strconv.Itoa req.Id) ++
        stringBytes (",\"method\":\"" ++ req.Method ++ "\",\"params\":[") ++ pb ++
        stringBytes "]\x7d" := by
  obtain ⟨-, -, -, -, hm, p, hp, heq⟩ := henv
  have hb := heq L.jsonMarshalParams
  unfold rpcReq.ToJson at h
  rw [hb] at h
  cases hpb : L.jsonMarshalParams p with
  | error err =>
    rw [hpb] at h
    cases h
  | ok pb =>
    rw [hpb] at h
    simp only [Except.map, Except.ok.injEq] at h
    exact ⟨p, pb, hp, hpb, by rw [hm, ← h]⟩

/-- C17: every envelope `Simulate` builds, and every envelope the send step of
`Broadcast` builds, has `jsonrpc` equal to `2.0`, an id `0 <= id < 1000000`, exactly
one parameters object in `params`, and the method `mev_simBundle`, respectively
`mev_sendBundle`; the body of every request handed to the HTTP client is the text
`ToJson` writes for its envelope, which has the members `jsonrpc`, `id`, `method` and
`params` in this order, around the text of the parameters object; and the envelope
is built whenever the parameters are: by `Simulate` once its parameters are built, by
the send step of `Broadcast` once the simulation has succeeded and its parameters
are built. -/
theorem envelope_shape (f : flashbot) (L : Lib) (w : World) (bundle : Bundle)
    (targetBlock : Nat) (opts : List BundleOption) :
    (∀ req ∈ w.requestsSince (f.Simulate L w bundle targetBlock opts).2,
        req.IsEnvelopeOf "mev_simBundle") ∧
      (∀ req ∈ (f.Simulate L w bundle targetBlock []).2.requestsSince
          (f.Broadcast L w bundle targetBlock opts).2,
        req.IsEnvelopeOf "mev_sendBundle") ∧
      (∀ e ∈ w.eventsSince (f.Simulate L w bundle targetBlock opts).2 ++
          (f.Simulate L w bundle targetBlock []).2.eventsSince
            (f.Broadcast L w bundle targetBlock opts).2,
        ∀ req httpReq, e = .Do req httpReq →
          req.ToJson L = .ok httpReq.Body ∧
            ∃ p pb, req.Params = [p] ∧ L.jsonMarshalParams p = .ok pb ∧
              httpReq.Body =
                stringBytes "\x7b\"jsonrpc\":\"2.0\",\"id\":" ++
                  stringBytes (strconv.Itoa req.Id) ++
                  stringBytes (",\"method\":\"" ++ req.Method ++ "\",\"params\":[") ++ pb ++
                  stringBytes "]\x7d") ∧
      (∀ p, simParams bundle targetBlock opts = .ok p →
        ∃ req ∈ w.requestsSince (f.Simulate L w bundle targetBlock opts).2,
          req.Params = [p] ∧ req.Method = "mev_simBundle") ∧
      (∀ p, (f.Simulate L w bundle targetBlock []).1.2 = none →
        sendParams bundle targetBlock opts = .ok p →
        ∃ req ∈ (f.Simulate L w bundle targetBlock []).2.requestsSince
            (f.Broadcast L w bundle targetBlock opts).2,
          req.Params = [p] ∧ req.Method = "mev_sendBundle") := by
  have hsimM := encodeString_constants.2.1
  have hsendM := encodeString_constants.2.2
  have hid := Intn_range w 1000000 (by norm_num)
  have hid' := Intn_range (f.Simulate L w bundle targetBlock []).2 1000000 (by norm_num)
  have hbody : ∀ (req : rpcReq) (m : method) (httpReq : HttpRequest), req.IsEnvelopeOf m →
      f.newRequest L req = .ok httpReq →
      req.ToJson L = .ok httpReq.Body ∧
        ∃ p pb, req.Params = [p] ∧ L.jsonMarshalParams p = .ok pb ∧
          httpReq.Body =
            stringBytes "\x7b\"jsonrpc\":\"2.0\",\"id\":" ++
              stringBytes (strconv.Itoa req.Id) ++
              stringBytes (",\"method\":\"" ++ req.Method ++ "\",\"params\":[") ++ pb ++
              stringBytes "]\x7d" := by
    intro req m httpReq henv hn
    have hj := newRequest_body f L req httpReq hn
    exact ⟨hj, ToJson_envelope L req m henv _ hj⟩
  refine ⟨?_, ?_, ?_, ?_, ?_⟩
  · intro req hreq
    unfold World.requestsSince at hreq
    rcases Simulate_events f L w bundle targetBlock opts with h | ⟨params, -, h | ⟨httpReq, -, h⟩⟩
    · rw [h] at hreq; simp at hreq
    · rw [h] at hreq
      simp only [List.filterMap_cons, Event.req?, List.filterMap_nil, List.mem_singleton] at hreq
      subst hreq
      exact isEnvelopeOf_mk _ hid.1 (by exact_mod_cast hid.2) _ hsimM params
    · rw [h] at hreq
      simp only [List.filterMap_cons, Event.req?, List.filterMap_nil, List.mem_cons,
        List.mem_singleton, List.not_mem_nil, or_false, or_self] at hreq
      subst hreq
      exact isEnvelopeOf_mk _ hid.1 (by exact_mod_cast hid.2) _ hsimM params
  · intro req hreq
    unfold World.requestsSince at hreq
    rcases Broadcast_send_events f L w bundle targetBlock opts with
      h | ⟨params, -, h | ⟨httpReq, -, h | ⟨bs, h⟩⟩⟩
    · rw [h] at hreq; simp at hreq
    · rw [h] at hreq
      simp only [List.filterMap_cons, Event.req?, List.filterMap_nil, List.mem_singleton] at hreq
      subst hreq
      exact isEnvelopeOf_mk _ hid'.1 (by exact_mod_cast hid'.2) _ hsendM params
    · rw [h] at hreq
      simp only [List.filterMap_cons, Event.req?, List.filterMap_nil, List.mem_cons,
        List.mem_singleton, List.not_mem_nil, or_false, or_self] at hreq
      subst hreq
      exact isEnvelopeOf_mk _ hid'.1 (by exact_mod_cast hid'.2) _ hsendM params
    · rw [h] at hreq
      simp only [List.filterMap_cons, Event.req?, List.filterMap_nil, List.mem_cons,
        List.mem_singleton, List.not_mem_nil, or_false, or_self] at hreq
      subst hreq
      exact isEnvelopeOf_mk _ hid'.1 (by exact_mod_cast hid'.2) _ hsendM params
  · intro e he req httpReq heq
    subst heq
    rcases List.mem_append.mp he with hm | hm
    · rcases Simulate_events f L w bundle targetBlock opts with
        h | ⟨params, -, h | ⟨httpReq', hn, h⟩⟩
      · rw [h] at hm; simp at hm
      · rw [h] at hm; simp at hm
      · rw [h] at hm
        simp only [List.mem_cons, List.mem_singleton, List.not_mem_nil, or_false, false_or,
          Event.Do.injEq] at hm
        rcases hm with h0 | ⟨h1, h2⟩
        · cases h0
        rw [h1, h2]
        exact hbody _ _ _ (isEnvelopeOf_mk _ hid.1 (by exact_mod_cast hid.2) _ hsimM params) hn
    · rcases Broadcast_send_events f L w bundle targetBlock opts with
        h | ⟨params, -, h | ⟨httpReq', hn, h | ⟨bs, h⟩⟩⟩
      · rw [h] at hm; simp at hm
      · rw [h] at hm; simp at hm
      · rw [h] at hm
        simp only [List.mem_cons, List.mem_singleton, List.not_mem_nil, or_false, false_or,
          Event.Do.injEq] at hm
        rcases hm with h0 | ⟨h1, h2⟩
        · cases h0
        rw [h1, h2]
        exact hbody _ _ _
          (isEnvelopeOf_mk _ hid'.1 (by exact_mod_cast hid'.2) _ hsendM params) hn
      · rw [h] at hm
        simp only [List.mem_cons, List.mem_singleton, List.not_mem_nil, or_false, false_or,
          Event.Do.injEq] at hm
        rcases hm with h0 | ⟨h1, h2⟩ | h0
        · cases h0
        · rw [h1, h2]
          exact hbody _ _ _
            (isEnvelopeOf_mk _ hid'.1 (by exact_mod_cast hid'.2) _ hsendM params) hn
        · cases h0
  · intro p hp
    refine ⟨⟨jsonRPCVersion, (w.Intn 1000000).1, methodMevSimBundle, [p]⟩, ?_, rfl, rfl⟩
    unfold World.requestsSince
    rcases Simulate_builds f L w bundle targetBlock opts p hp with h | ⟨httpReq, -, h⟩ <;>
      rw [h] <;> simp [Event.req?]
  · intro p hs hp
    obtain ⟨evs, h⟩ := Broadcast_builds f L w bundle targetBlock opts p hs hp
    refine ⟨⟨jsonRPCVersion, ((f.Simulate L w bundle targetBlock []).2.Intn 1000000).1,
      methodMevSendBundle, [p]⟩, ?_, rfl, rfl⟩
    unfold World.requestsSince
    rw [h]
    simp [Event.req?]

end Flashbot

namespace Flashbot

/-- C17 at a concrete input: a broadcast of the demonstration bundle for block 1000.
The envelope of the simulation has the id 234567 and the envelope of the send step
the id 234568, and the two bodies handed to the HTTP client are the texts of the
two envelopes, written around the text of the parameters. -/
theorem envelope_shape_witness :
    (∃ req ∈ demoWorld.requestsSince
        ((demoClient relayAccepting).Simulate demoLib demoWorld demoBundle 1000 []).2,
      req.IsEnvelopeOf "mev_simBundle" ∧ req.Id = 234567) ∧
      (∃ req ∈ ((demoClient relayAccepting).Simulate demoLib demoWorld demoBundle 1000
          []).2.requestsSince
          ((demoClient relayAccepting).Broadcast demoLib demoWorld demoBundle 1000 []).2,
        req.IsEnvelopeOf "mev_sendBundle" ∧ req.Id = 234568) ∧
      (demoWorld.sentSince ((demoClient relayAccepting).Broadcast demoLib demoWorld demoBundle
          1000 []).2).map (fun httpReq => httpReq.Body) =
        [stringBytes ("\x7b\"jsonrpc\":\"2.0\",\"id\":234567,\"method\":\"mev_simBundle\"," ++
            "\"params\":[\x7b\"version\":\"v0.1\",\"inclusion\":\x7b\"block\":\"0x3e8\"\x7d\x7d]\x7d"),
          stringBytes ("\x7b\"jsonrpc\":\"2.0\",\"id\":234568,\"method\":\"mev_sendBundle\"," ++
            "\"params\":[\x7b\"version\":\"v0.1\",\"inclusion\":\x7b\"block\":\"0x3e8\"\x7d\x7d]\x7d")] :=
  ⟨⟨(demoWorld.requestsSince
        ((demoClient relayAccepting).Simulate demoLib demoWorld demoBundle 1000 []).2).get
        ⟨0, by decide!⟩,
      List.get_mem _ _ _,
      (envelope_shape (demoClient relayAccepting) demoLib demoWorld demoBundle 1000 []).1 _
        (List.get_mem _ _ _),
      by decide!⟩,
    ⟨(((demoClient relayAccepting).Simulate demoLib demoWorld demoBundle 1000
        []).2.requestsSince
        ((demoClient relayAccepting).Broadcast demoLib demoWorld demoBundle 1000 []).2).get
        ⟨0, by decide!⟩,
      List.get_mem _ _ _,
      (envelope_shape (demoClient relayAccepting) demoLib demoWorld demoBundle 1000 []).2.1 _
        (List.get_mem _ _ _),
      by decide!⟩,
    by decide!⟩

/-! ## The methods that are not implemented, and the gas estimate -/

/-- C18: `SendPrivateTransaction`, `GetUserStats` and `GetBundleStats` return the
error `not implemented` for every input, with no result where they have one, and
leave the world as it was: no request is built or sent. -/
theorem not_implemented (f : flashbot) (w : World) (signedTxHex bundleHash : String)
    (maxBlockHeight blockNumber : Nat) (statsBlock : Option Int) :
    f.SendPrivateTransaction w signedTxHex maxBlockHeight =
        (some (.errorf "not implemented"), w) ∧
      f.GetUserStats w statsBlock = ((none, some (.errorf "not implemented")), w) ∧
      f.GetBundleStats w bundleHash blockNumber =
        ((none, some (.errorf "not implemented")), w) ∧
      w.eventsSince (f.SendPrivateTransaction w signedTxHex maxBlockHeight).2 = [] ∧
      w.eventsSince (f.GetUserStats w statsBlock).2 = [] ∧
      w.eventsSince (f.GetBundleStats w bundleHash blockNumber).2 = [] :=
  ⟨rfl, rfl, rfl, eventsSince_self w, eventsSince_self w, eventsSince_self w⟩

/-- The loop of `EstimateGasBundle` started from a total `a`. -/
theorem foldl_gas (txs : List Transaction) (a : Nat) :
    txs.foldl (fun totalGas tx => (totalGas + tx.Gas) % 2 ^ 64) a % 2 ^ 64 =
      (a + (txs.map fun tx => tx.Gas).sum) % 2 ^ 64 := by
  induction txs generalizing a with
  | nil => simp
  | cons tx txs ih =>
    rw [List.foldl_cons, ih, List.map_cons, List.sum_cons, Nat.mod_add_mod, Nat.add_assoc]

/-- The total of the loop is a `uint64`. -/
theorem foldl_gas_lt (txs : List Transaction) (a : Nat) (ha : a < 2 ^ 64) :
    txs.foldl (fun totalGas tx => (totalGas + tx.Gas) % 2 ^ 64) a < 2 ^ 64 := by
  induction txs generalizing a with
  | nil => exact ha
  | cons tx txs ih =>
    rw [List.foldl_cons]
    exact ih _ (Nat.mod_lt _ (by norm_num))

/-- C19: `EstimateGasBundle` returns the sum of the gas limits of the transactions
of the bundle in 64-bit unsigned arithmetic, that is the sum modulo `2 ^ 64` (the
sum itself when it fits, 0 for a bundle without transactions), with a nil error; it
leaves the world as it was, and its result depends on neither the client nor the
world. -/
theorem EstimateGasBundle_sum (f : flashbot) (w : World) (bundle : Bundle) :
    f.EstimateGasBundle w bundle =
        (((bundle.Transactions.map fun tx => tx.Gas).sum % 2 ^ 64, none), w) ∧
      ((bundle.Transactions.map fun tx => tx.Gas).sum < 2 ^ 64 →
        (f.EstimateGasBundle w bundle).1.1 = (bundle.Transactions.map fun tx => tx.Gas).sum) ∧
      (bundle.Transactions = [] → (f.EstimateGasBundle w bundle).1.1 = 0) ∧
      (f.EstimateGasBundle w bundle).1.2 = none ∧
      w.eventsSince (f.EstimateGasBundle w bundle).2 = [] ∧
      ∀ (f' : flashbot) (w' : World),
        (f'.EstimateGasBundle w' bundle).1 = (f.EstimateGasBundle w bundle).1 := by
  have hsum : bundle.Transactions.foldl (fun totalGas tx => (totalGas + tx.Gas) % 2 ^ 64) 0 =
      (bundle.Transactions.map fun tx => tx.Gas).sum % 2 ^ 64 := by
    have h := foldl_gas bundle.Transactions 0
    rw [Nat.mod_eq_of_lt (foldl_gas_lt bundle.Transactions 0 (by norm_num)), Nat.zero_add] at h
    exact h
  have heq : f.EstimateGasBundle w bundle =
      (((bundle.Transactions.map fun tx => tx.Gas).sum % 2 ^ 64, none), w) := by
    simp only [flashbot.EstimateGasBundle, hsum]
  refine ⟨heq, ?_, ?_, by rw [heq], by rw [heq]; exact eventsSince_self w, fun f' w' => rfl⟩
  · intro hlt
    rw [heq, Nat.mod_eq_of_lt hlt]
  · intro hnil
    rw [heq, hnil]
    rfl

/-- C19 at concrete inputs: the demonstration bundle, a bundle whose sum wraps, and
the empty bundle. -/
theorem EstimateGasBundle_sum_witness :
    ((demoClient relayAccepting).EstimateGasBundle demoWorld demoBundle).1.1 =
        (demoBundle.Transactions.map fun tx => tx.Gas).sum ∧
      ((demoClient relayAccepting).EstimateGasBundle demoWorld demoBundle).1.1 = 81000 ∧
      ((demoClient relayAccepting).EstimateGasBundle demoWorld emptyBundle).1.1 = 0 ∧
      ((demoClient relayAccepting).EstimateGasBundle demoWorld
        { demoBundle with Transactions :=
            [{ MarshalBinary := .ok [], Gas := 2 ^ 64 - 1 },
             { MarshalBinary := .ok [], Gas := 5 }] }).1 = (4, none) :=
  ⟨(EstimateGasBundle_sum (demoClient relayAccepting) demoWorld demoBundle).2.1 (by decide),
    by decide,
    (EstimateGasBundle_sum (demoClient relayAccepting) demoWorld emptyBundle).2.2.1 rfl,
    by decide⟩

end Flashbot

namespace Flashbot

/-! ## The frame of the options -/

/-- A provided option other than `WithValidity` leaves `Validity` alone. -/
theorem applyOptions_nonValidity (post : List BundleOption)
    (h : ∀ o ∈ post, o.IsProvidedNonValidity) :
    ∀ p : mevSimBundleParams, (applyOptions post p).1.Validity = p.Validity := by
  induction post with
  | nil => intro p; rfl
  | cons o post ih =>
    intro p
    have ho : (o p).1.Validity = p.Validity := by
      rcases h o (List.mem_cons_self _ _) with ⟨v, rfl⟩ | ⟨v, rfl⟩ | ⟨d, rfl⟩ | ⟨b, rfl⟩
      · rfl
      · rfl
      · unfold WithExpirationDurationInBlocks
        split <;> rfl
      · rfl
    have ih' := ih (fun o' ho' => h o' (List.mem_cons_of_mem _ ho')) (o p).1
    rcases hop : o p with ⟨p', e⟩
    rw [hop] at ho ih'
    cases e with
    | some err => rw [applyOptions_cons_error _ _ _ _ _ hop]; exact ho
    | none => rw [applyOptions_cons_ok _ _ _ _ hop]; exact ih'.trans ho

/-- A provided option other than `WithPrivacy` leaves `Privacy` alone. -/
theorem applyOptions_nonPrivacy (post : List BundleOption)
    (h : ∀ o ∈ post, o.IsProvidedNonPrivacy) :
    ∀ p : mevSimBundleParams, (applyOptions post p).1.Privacy = p.Privacy := by
  induction post with
  | nil => intro p; rfl
  | cons o post ih =>
    intro p
    have ho : (o p).1.Privacy = p.Privacy := by
      rcases h o (List.mem_cons_self _ _) with ⟨v, rfl⟩ | ⟨v, rfl⟩ | ⟨d, rfl⟩ | ⟨b, rfl⟩
      · rfl
      · rfl
      · unfold WithExpirationDurationInBlocks
        split <;> rfl
      · rfl
    have ih' := ih (fun o' ho' => h o' (List.mem_cons_of_mem _ ho')) (o p).1
    rcases hop : o p with ⟨p', e⟩
    rw [hop] at ho ih'
    cases e with
    | some err => rw [applyOptions_cons_error _ _ _ _ _ hop]; exact ho
    | none => rw [applyOptions_cons_ok _ _ _ _ hop]; exact ih'.trans ho

/-- A provided option other than `WithMetadata` leaves `Metadata` alone. -/
theorem applyOptions_nonMetadata (post : List BundleOption)
    (h : ∀ o ∈ post, o.IsProvidedNonMetadata) :
    ∀ p : mevSimBundleParams, (applyOptions post p).1.Metadata = p.Metadata := by
  induction post with
  | nil => intro p; rfl
  | cons o post ih =>
    intro p
    have ho : (o p).1.Metadata = p.Metadata := by
      rcases h o (List.mem_cons_self _ _) with ⟨v, rfl⟩ | ⟨v, rfl⟩ | ⟨d, rfl⟩ | ⟨b, rfl⟩
      · rfl
      · rfl
      · unfold WithExpirationDurationInBlocks
        split <;> rfl
      · rfl
    have ih' := ih (fun o' ho' => h o' (List.mem_cons_of_mem _ ho')) (o p).1
    rcases hop : o p with ⟨p', e⟩
    rw [hop] at ho ih'
    cases e with
    | some err => rw [applyOptions_cons_error _ _ _ _ _ hop]; exact ho
    | none => rw [applyOptions_cons_ok _ _ _ _ hop]; exact ih'.trans ho

/-- The outcome of a list of options that ends its first part with the option `o`. -/
theorem applyOptions_split (pre post : List BundleOption) (o : BundleOption)
    (p q : mevSimBundleParams) (h : applyOptions (pre ++ o :: post) p = (q, none)) :
    ∃ p1, applyOptions pre p = (p1, none) ∧ (o p1).2 = none ∧
      q = (applyOptions post (o p1).1).1 := by
  obtain ⟨p1, hpre, hrest⟩ := applyOptions_append pre (o :: post) p q h
  refine ⟨p1, hpre, ?_⟩
  rcases hop : o p1 with ⟨p2, e⟩
  cases e with
  | some err =>
    rw [applyOptions_cons_error _ _ _ _ _ hop] at hrest
    simp at hrest
  | none =>
    rw [applyOptions_cons_ok _ _ _ _ hop] at hrest
    exact ⟨rfl, by rw [hrest]⟩

/-- C20: each provided option writes only its own field (`WithValidity` the
validity, `WithPrivacy` the privacy, `WithMetadata` the metadata, the two expiration
options `inclusion.maxBlock`); so a list of provided options leaves version,
inclusion block and body as they were, the parameters of every request `Simulate`
or `Broadcast` starts have version `v0.1`, the block text of the target and the
encoded body of the bundle, and in a list applied without error the last option
that writes a field decides its value. -/
theorem options_frame :
    (∀ (p : mevSimBundleParams) v, WithValidity v p = ({ p with Validity := some v }, none)) ∧
      (∀ (p : mevSimBundleParams) v, WithPrivacy v p = ({ p with Privacy := some v }, none)) ∧
      (∀ (p : mevSimBundleParams) v, WithMetadata v p = ({ p with Metadata := some v }, none)) ∧
      (∀ (p : mevSimBundleParams) b, WithExpirationBlock b p =
        ({ p with Inclusion := { p.Inclusion with
            MaxBlock := some ("0x" ++ strconv.FormatUint b 16) } }, none)) ∧
      (∀ (p : mevSimBundleParams) d, ∃ mb, (WithExpirationDurationInBlocks d p).1 =
        { p with Inclusion := { p.Inclusion with MaxBlock := mb } }) ∧
      (∀ (p : mevSimBundleParams) (opts : List BundleOption), (∀ o ∈ opts, o.IsProvided) →
        (applyOptions opts p).1.Version = p.Version ∧
          (applyOptions opts p).1.Inclusion.Block = p.Inclusion.Block ∧
          (applyOptions opts p).1.Body = p.Body) ∧
      (∀ (f : flashbot) (L : Lib) (w : World) (bundle : Bundle) (targetBlock : Nat)
        (opts : List BundleOption) (m : method) (q : mevSimBundleParams),
        (∀ o ∈ opts, o.IsProvided) →
        (q ∈ w.paramsSince (f.Simulate L w bundle targetBlock opts).2 m ∨
          q ∈ w.paramsSince (f.Broadcast L w bundle targetBlock opts).2 m) →
        q.Version = "v0.1" ∧ q.Inclusion.Block = blockHex targetBlock ∧
          encodeBody bundle.CanRevert 0 bundle.Transactions [] = .ok q.Body) ∧
      (∀ (p q : mevSimBundleParams) (pre post : List BundleOption) v,
        (∀ o ∈ post, o.IsProvidedNonValidity) →
        applyOptions (pre ++ WithValidity v :: post) p = (q, none) → q.Validity = some v) ∧
      (∀ (p q : mevSimBundleParams) (pre post : List BundleOption) v,
        (∀ o ∈ post, o.IsProvidedNonPrivacy) →
        applyOptions (pre ++ WithPrivacy v :: post) p = (q, none) → q.Privacy = some v) ∧
      (∀ (p q : mevSimBundleParams) (pre post : List BundleOption) v,
        (∀ o ∈ post, o.IsProvidedNonMetadata) →
        applyOptions (pre ++ WithMetadata v :: post) p = (q, none) → q.Metadata = some v) ∧
      (∀ (p q : mevSimBundleParams) (pre post : List BundleOption) (B : Nat), B < 2 ^ 64 →
        (∀ o ∈ post, o.IsProvidedNonExpiration) →
        applyOptions (pre ++ WithExpirationBlock B :: post) p = (q, none) →
        q.Inclusion.MaxBlock = some (hexEncoding B)) ∧
      (∀ (p q : mevSimBundleParams) (pre post : List BundleOption) (D : Nat),
        (∀ o ∈ pre, o.IsProvided) → (∀ o ∈ post, o.IsProvidedNonExpiration) →
        applyOptions (pre ++ WithExpirationDurationInBlocks D :: post) p = (q, none) →
        ∃ block, strconv.ParseUint (strings.TrimPrefix p.Inclusion.Block "0x") 16 = .ok block ∧
          q.Inclusion.MaxBlock = some (hexEncoding ((block + D) % 2 ^ 64))) := by
  refine ⟨fun _ _ => rfl, fun _ _ => rfl, fun _ _ => rfl, fun _ _ => rfl, ?_,
    fun p opts h => applyOptions_frame opts h p,
    fun f L w bundle targetBlock opts m q h hq =>
      built_params_frame f L w bundle targetBlock opts h m q hq, ?_, ?_, ?_, ?_, ?_⟩
  · intro p d
    unfold WithExpirationDurationInBlocks
    split
    · exact ⟨p.Inclusion.MaxBlock, rfl⟩
    · exact ⟨_, rfl⟩
  · intro p q pre post v hpost h
    obtain ⟨p1, -, -, hq⟩ := applyOptions_split pre post _ p q h
    rw [hq, applyOptions_nonValidity post hpost]
    rfl
  · intro p q pre post v hpost h
    obtain ⟨p1, -, -, hq⟩ := applyOptions_split pre post _ p q h
    rw [hq, applyOptions_nonPrivacy post hpost]
    rfl
  · intro p q pre post v hpost h
    obtain ⟨p1, -, -, hq⟩ := applyOptions_split pre post _ p q h
    rw [hq, applyOptions_nonMetadata post hpost]
    rfl
  · intro p q pre post B hB hpost h
    obtain ⟨p1, -, -, hq⟩ := applyOptions_split pre post _ p q h
    rw [hq, (applyOptions_nonExpiration post hpost _).2, WithExpirationBlock_eq B hB]
  · intro p q pre post D hpre hpost h
    obtain ⟨p1, hp1, hok, hq⟩ := applyOptions_split pre post _ p q h
    have hblock : p1.Inclusion.Block = p.Inclusion.Block := by
      have := (applyOptions_frame pre hpre p).2.1
      rw [hp1] at this
      exact this
    cases hparse : strconv.ParseUint (strings.TrimPrefix p1.Inclusion.Block "0x") 16 with
    | error err =>
      simp only [WithExpirationDurationInBlocks, hparse] at hok
      cases hok
    | ok block =>
      refine ⟨block, by rw [← hblock, hparse], ?_⟩
      rw [hq, (applyOptions_nonExpiration post hpost _).2,
        WithExpirationDurationInBlocks_ok D block p1 hparse]

/-- C20 at a concrete input: two validity options around a privacy option and an
expiration option on the parameters for block 1000. -/
theorem options_frame_witness :
    (applyOptions ([WithValidity { Refund := [], RefundConfig := [] }] ++
        WithValidity demoValidity :: [WithPrivacy demoPrivacy, WithExpirationBlock 2000])
        demoParams).1.Validity = some demoValidity ∧
      (applyOptions ([WithValidity { Refund := [], RefundConfig := [] }] ++
        WithValidity demoValidity :: [WithPrivacy demoPrivacy, WithExpirationBlock 2000])
        demoParams).1.Inclusion.Block = "0x3e8" ∧
      (applyOptions ([WithValidity { Refund := [], RefundConfig := [] }] ++
        WithValidity demoValidity :: [WithPrivacy demoPrivacy, WithExpirationBlock 2000])
        demoParams).1.Inclusion.MaxBlock = some "0x7d0" :=
  ⟨options_frame.2.2.2.2.2.2.2.1 demoParams _ [WithValidity { Refund := [], RefundConfig := [] }]
      [WithPrivacy demoPrivacy, WithExpirationBlock 2000] demoValidity
      (by
        intro o ho
        rcases List.mem_cons.mp ho with rfl | ho
        · exact Or.inl ⟨_, rfl⟩
        · exact Or.inr (Or.inr (Or.inr ⟨_, List.mem_singleton.mp ho⟩)))
      (Prod.ext rfl (by decide)),
    by decide, by decide⟩

end Flashbot

namespace Flashbot

/-! ## The bundle behind the pointer -/

/-- The call `Simulate` is the parameter building followed by the request. -/
theorem Simulate_eq_send (f : flashbot) (L : Lib) (w : World) (bundle : Bundle)
    (targetBlock : Nat) (opts : List BundleOption) :
    f.Simulate L w bundle targetBlock opts =
      match simParams bundle targetBlock opts with
      | .error err => ((none, some err), w)
      | .ok params => f.simulateSend L w params := by
  unfold flashbot.Simulate
  cases simParams bundle targetBlock opts <;> rfl

/-- The call `Broadcast` is the simulation followed by the parameter building and the
request. -/
theorem Broadcast_eq_send (f : flashbot) (L : Lib) (w : World) (bundle : Bundle)
    (targetBlock : Nat) (opts : List BundleOption) :
    f.Broadcast L w bundle targetBlock opts =
      match f.Simulate L w bundle targetBlock [] with
      | ((_, some err), w0) => ((none, some (.wrap "failed to simulate bundle" err)), w0)
      | ((_, none), w0) =>
        match sendParams bundle targetBlock opts with
        | .error err => ((none, some err), w0)
        | .ok params => f.broadcastSend L w0 params := by
  unfold flashbot.Broadcast
  rcases f.Simulate L w bundle targetBlock [] with ⟨⟨r, e⟩, w0⟩
  cases e with
  | some err => rfl
  | none =>
    simp only []
    cases sendParams bundle targetBlock opts <;> rfl

/-- The option loop on the parameters object at an address does what the loop does
on the object, writes at that address only, and allocates nothing. -/
theorem applyOptionsAt_spec (opts : List BundleOption) :
    ∀ (m : Memory) (a : Nat) (p0 : mevSimBundleParams), m[a]? = some (.params p0) →
      ∃ m', applyOptionsAt opts m a = some (m', (applyOptions opts p0).2) ∧
        m'[a]? = some (.params (applyOptions opts p0).1) ∧ m'.length = m.length ∧
        ∀ a', a' ≠ a → m'[a']? = m[a']? := by
  induction opts with
  | nil =>
    intro m a p0 h
    exact ⟨m, rfl, h, rfl, fun _ _ => rfl⟩
  | cons o opts ih =>
    intro m a p0 h
    have hlt : a < m.length := by
      by_contra hc
      rw [List.getElem?_eq_none (by omega)] at h
      cases h
    have hset : (m.set a (.params (o p0).1))[a]? = some (.params (o p0).1) := by
      simp [List.getElem?_set, hlt]
    have hother : ∀ a', a' ≠ a → (m.set a (.params (o p0).1))[a']? = m[a']? := by
      intro a' hne
      simp [List.getElem?_set, Ne.symm hne]
    have hcall : o.callAt m a = some (m.set a (.params (o p0).1), (o p0).2) := by
      unfold BundleOption.callAt
      rw [h]
    rw [applyOptionsAt, hcall, applyOptions]
    rcases hop : o p0 with ⟨p1, e⟩
    rw [hop] at hset hother
    cases e with
    | some err => exact ⟨_, rfl, hset, by simp, hother⟩
    | none =>
      obtain ⟨m', h1, h2, h3, h4⟩ := ih _ a p1 hset
      refine ⟨m', h1, h2, by rw [h3]; simp, ?_⟩
      intro a' hne
      rw [h4 a' hne, hother a' hne]

/-- The call `SimulateAt` on the address of a bundle returns what `Simulate` returns on
that bundle, and leaves every cell that was allocated before the call as it was. -/
theorem SimulateAt_spec (f : flashbot) (L : Lib) (w : World) (m : Memory) (bundle : Nat)
    (b : Bundle) (targetBlock : Nat) (opts : List BundleOption)
    (hb : m[bundle]? = some (.bundle b)) :
    ∃ m', f.SimulateAt L w m bundle targetBlock opts =
        some (f.Simulate L w b targetBlock opts, m') ∧
      m.length ≤ m'.length ∧ ∀ a, a < m.length → m'[a]? = m[a]? := by
  rw [Simulate_eq_send]
  unfold flashbot.SimulateAt simParams
  rw [hb]
  simp only []
  by_cases hlen : b.Transactions.length = 0
  · rw [if_pos hlen, if_pos hlen]
    exact ⟨m, rfl, le_refl _, fun _ _ => rfl⟩
  · rw [if_neg hlen, if_neg hlen]
    cases hbody : encodeBody b.CanRevert 0 b.Transactions [] with
    | error err => exact ⟨m, rfl, le_refl _, fun _ _ => rfl⟩
    | ok body =>
      simp only []
      have halloc : (m ++ [Cell.params
          { Version := "v0.1", Inclusion := { Block := blockHex targetBlock, MaxBlock := none }
            Body := body, Validity := none, Privacy := none, Metadata := none }])[m.length]? =
          some (.params
            { Version := "v0.1", Inclusion := { Block := blockHex targetBlock, MaxBlock := none }
              Body := body, Validity := none, Privacy := none, Metadata := none }) := by
        simp
      obtain ⟨m', h1, h2, h3, h4⟩ := applyOptionsAt_spec opts _ _ _ halloc
      have hlen' : m.length ≤ m'.length := by
        rw [h3, List.length_append]
        omega
      have hframe : ∀ a, a < m.length → m'[a]? = m[a]? := by
        intro a ha
        rw [h4 a (by omega), List.getElem?_append_left ha]
      rw [h1]
      rcases hap : applyOptions opts
          { Version := "v0.1", Inclusion := { Block := blockHex targetBlock, MaxBlock := none }
            Body := body, Validity := none, Privacy := none, Metadata := none } with ⟨p, e⟩
      rw [hap] at h2
      cases e with
      | some err => exact ⟨m', rfl, hlen', hframe⟩
      | none =>
        simp only []
        rw [h2]
        exact ⟨m', rfl, hlen', hframe⟩

/-- The call `BroadcastAt` on the address of a bundle returns what `Broadcast` returns
on that bundle, and leaves every cell that was allocated before the call as it was. -/
theorem BroadcastAt_spec (f : flashbot) (L : Lib) (w : World) (m : Memory) (bundle : Nat)
    (b : Bundle) (targetBlock : Nat) (opts : List BundleOption)
    (hb : m[bundle]? = some (.bundle b)) :
    ∃ m', f.BroadcastAt L w m bundle targetBlock opts =
        some (f.Broadcast L w b targetBlock opts, m') ∧
      m.length ≤ m'.length ∧ ∀ a, a < m.length → m'[a]? = m[a]? := by
  have hlt : bundle < m.length := by
    by_contra hc
    rw [List.getElem?_eq_none (by omega)] at hb
    cases hb
  obtain ⟨m0, hs, hlen0, hfr0⟩ := SimulateAt_spec f L w m bundle b targetBlock [] hb
  have hb0 : m0[bundle]? = some (.bundle b) := by rw [hfr0 bundle hlt, hb]
  rw [Broadcast_eq_send]
  unfold flashbot.BroadcastAt sendParams
  rw [hs]
  rcases f.Simulate L w b targetBlock [] with ⟨⟨r, e⟩, w0⟩
  cases e with
  | some err => exact ⟨m0, rfl, hlen0, hfr0⟩
  | none =>
    simp only []
    rw [hb0]
    simp only []
    cases hbody : encodeBody b.CanRevert 0 b.Transactions [] with
    | error err => exact ⟨m0, rfl, hlen0, hfr0⟩
    | ok body =>
      simp only []
      have halloc : (m0 ++ [Cell.params
          { Version := "v0.1"
            Inclusion := { Block := blockHex targetBlock
                           MaxBlock := some ("0x" ++ strconv.FormatUint ((targetBlock + 30) % 2 ^ 64) 16) }
            Body := body, Validity := none, Privacy := none, Metadata := none }])[m0.length]? =
          some (.params
            { Version := "v0.1"
              Inclusion := { Block := blockHex targetBlock
                             MaxBlock := some ("0x" ++ strconv.FormatUint ((targetBlock + 30) % 2 ^ 64) 16) }
              Body := body, Validity := none, Privacy := none, Metadata := none }) := by
        simp
      obtain ⟨m', h1, h2, h3, h4⟩ := applyOptionsAt_spec opts _ _ _ halloc
      have hlen' : m.length ≤ m'.length := by
        rw [h3, List.length_append]
        omega
      have hframe : ∀ a, a < m.length → m'[a]? = m[a]? := by
        intro a ha
        rw [h4 a (by omega), List.getElem?_append_left (by omega), hfr0 a ha]
      rw [h1]
      rcases hap : applyOptions opts
          { Version := "v0.1"
            Inclusion := { Block := blockHex targetBlock
                           MaxBlock := some ("0x" ++ strconv.FormatUint ((targetBlock + 30) % 2 ^ 64) 16) }
            Body := body, Validity := none, Privacy := none, Metadata := none } with ⟨p, e⟩
      rw [hap] at h2
      cases e with
      | some err => exact ⟨m', rfl, hlen', hframe⟩
      | none =>
        simp only []
        rw [h2]
        exact ⟨m', rfl, hlen', hframe⟩

end Flashbot

namespace Flashbot

/-- C21: `Simulate`, `Broadcast` and `EstimateGasBundle` never mutate the bundle
passed to them.  For a pointer `bundle` to a bundle `b`, each call returns (it does
not panic), returns what the method returns on `b`, and leaves a memory in which the
address `bundle` still holds `b`, with the `Transactions`, `CanRevert`,
`ReplacementUUID`, `Builders` and `MinTimestamp` it had before the call, whether
the call returns an error or not; every other cell allocated before the call is left
as it was too, and `EstimateGasBundle` leaves the whole memory as it was. -/
theorem bundle_never_mutated (f : flashbot) (L : Lib) (w : World) (m : Memory) (bundle : Nat)
    (b : Bundle) (targetBlock : Nat) (opts : List BundleOption)
    (hb : m[bundle]? = some (.bundle b)) :
    (∃ m', f.SimulateAt L w m bundle targetBlock opts =
          some (f.Simulate L w b targetBlock opts, m') ∧
        m'[bundle]? = some (.bundle b) ∧ ∀ a, a < m.length → m'[a]? = m[a]?) ∧
      (∃ m', f.BroadcastAt L w m bundle targetBlock opts =
          some (f.Broadcast L w b targetBlock opts, m') ∧
        m'[bundle]? = some (.bundle b) ∧ ∀ a, a < m.length → m'[a]? = m[a]?) ∧
      f.EstimateGasBundleAt w m bundle = some (f.EstimateGasBundle w b, m) := by
  have hlt : bundle < m.length := by
    by_contra hc
    rw [List.getElem?_eq_none (by omega)] at hb
    cases hb
  obtain ⟨ms, hs, -, hfs⟩ := SimulateAt_spec f L w m bundle b targetBlock opts hb
  obtain ⟨mb, hbr, -, hfb⟩ := BroadcastAt_spec f L w m bundle b targetBlock opts hb
  refine ⟨⟨ms, hs, by rw [hfs bundle hlt, hb], hfs⟩, ⟨mb, hbr, by rw [hfb bundle hlt, hb], hfb⟩, ?_⟩
  unfold flashbot.EstimateGasBundleAt flashbot.EstimateGasBundle
  rw [hb]

/-- C21 at a concrete input: the tagged demonstration bundle at address 1 of a memory
of two cells, broadcast for block 1000 with four options to a relay that accepts.
The simulation allocates one parameters object and the broadcast two, and the bundle
is still at address 1. -/
theorem bundle_never_mutated_witness :
    (∃ m', (demoClient relayAccepting).BroadcastAt demoLib demoWorld demoMemory 1 1000
          demoAllOptions =
        some ((demoClient relayAccepting).Broadcast demoLib demoWorld demoBundleTagged 1000
          demoAllOptions, m') ∧
      m'[1]? = some (.bundle demoBundleTagged) ∧
      ∀ a, a < demoMemory.length → m'[a]? = demoMemory[a]?) ∧
      ((demoClient relayAccepting).SimulateAt demoLib demoWorld demoMemory 1 1000
        demoAllOptions).map (fun r => r.2.length) = some 3 ∧
      ((demoClient relayAccepting).BroadcastAt demoLib demoWorld demoMemory 1 1000
        demoAllOptions).map (fun r => (r.2.length, r.1.1.2)) = some (4, none) :=
  ⟨(bundle_never_mutated (demoClient relayAccepting) demoLib demoWorld demoMemory 1
      demoBundleTagged 1000 demoAllOptions rfl).2.1,
    by decide!, by decide!⟩

end Flashbot

namespace Flashbot

/-! ## Construction -/

/-- A provided construction option returns no error and leaves the key and the HTTP
client alone. -/
theorem clientOption_frame (o : ClientOption) (h : o.IsProvided) (f : flashbot) :
    (o f).2 = none ∧ (o f).1.pk = f.pk ∧ (o f).1.client = f.client := by
  rcases h with ⟨b, rfl⟩ | ⟨u, rfl⟩ | ⟨c, rfl⟩ <;> exact ⟨rfl, rfl, rfl⟩

/-- A list of provided construction options is applied without error and leaves the
key and the HTTP client alone. -/
theorem applyClientOptions_frame (opts : List ClientOption) (h : ∀ o ∈ opts, o.IsProvided) :
    ∀ f : flashbot, (applyClientOptions opts f).2 = none ∧
      (applyClientOptions opts f).1.pk = f.pk ∧
      (applyClientOptions opts f).1.client = f.client := by
  induction opts with
  | nil => intro f; exact ⟨rfl, rfl, rfl⟩
  | cons o opts ih =>
    intro f
    obtain ⟨h1, h2, h3⟩ := clientOption_frame o (h o (List.mem_cons_self _ _)) f
    have ih' := ih (fun o' ho' => h o' (List.mem_cons_of_mem _ ho')) (o f).1
    unfold applyClientOptions
    rcases hof : o f with ⟨f', e⟩
    rw [hof] at h1 h2 h3 ih'
    simp only at h1 h2 h3 ih'
    subst h1
    simp only []
    exact ⟨ih'.1, ih'.2.1.trans h2, ih'.2.2.trans h3⟩

/-- What `New` returns under provided options: the defaults with the options applied
when a key is generated, the error of the key generation otherwise. -/
theorem New_provided (R : Runtime) (opts : List ClientOption) (h : ∀ o ∈ opts, o.IsProvided) :
    (∀ key, R.GenerateKey = .ok key →
        New R opts = .ok (applyClientOptions opts
          { relayURL := MainnetRelayURL, chainID := 0, builders := [], pk := key
            client := R.DefaultClient }).1) ∧
      (∀ err, R.GenerateKey = .error err → New R opts = .error err) := by
  constructor
  · intro key hk
    have hfr := (applyClientOptions_frame opts h
      { relayURL := MainnetRelayURL, chainID := 0, builders := [], pk := key
        client := R.DefaultClient }).1
    unfold New flashbot.setDefaults
    rw [hk]
    simp only []
    rcases ha : applyClientOptions opts
      { relayURL := MainnetRelayURL, chainID := 0, builders := [], pk := key
        client := R.DefaultClient } with ⟨f', e⟩
    rw [ha] at hfr
    simp only at hfr
    subst hfr
    rfl
  · intro err hk
    unfold New flashbot.setDefaults
    rw [hk]

/-- The key and the HTTP client of a client `New` returns under provided options. -/
theorem New_key_and_client (R : Runtime) (opts : List ClientOption)
    (h : ∀ o ∈ opts, o.IsProvided) (f : flashbot) (hf : New R opts = .ok f) :
    R.GenerateKey = .ok f.pk ∧ f.client = R.DefaultClient := by
  cases hk : R.GenerateKey with
  | error err =>
    rw [(New_provided R opts h).2 err hk] at hf
    cases hf
  | ok key =>
    rw [(New_provided R opts h).1 key hk] at hf
    have hfr := applyClientOptions_frame opts h
      { relayURL := MainnetRelayURL, chainID := 0, builders := [], pk := key
        client := R.DefaultClient }
    simp only [Except.ok.injEq] at hf
    rw [hf] at hfr
    exact ⟨by rw [hfr.2.1], hfr.2.2⟩

/-- C22, refuted as stated: when key generation yields the key with scalar 1, no list
of the construction options the package provides makes `New` return a client that
signs with the caller's key with scalar 2. -/
theorem New_cannot_take_a_key :
    ¬ ∃ opts : List ClientOption, (∀ o ∈ opts, o.IsProvided) ∧
      ∃ f, New demoRuntime opts = .ok f ∧ f.pk = callerKey := by
  rintro ⟨opts, hopts, f, hf, hk⟩
  have h := (New_key_and_client demoRuntime opts hopts f hf).1
  rw [hk] at h
  revert h
  decide

/-- C22, amended: the signing key of the client is the key generated in
`setDefaults`, whatever construction options of the package are given.  Under every
list of provided options, `New` returns a client exactly when the key generation
succeeds, that client holds the generated key and signs every request with it, and no
provided option writes the key. -/
theorem New_signs_with_generated_key (R : Runtime) (opts : List ClientOption)
    (hopts : ∀ o ∈ opts, o.IsProvided) :
    (∀ key, R.GenerateKey = .ok key →
        ∃ f, New R opts = .ok f ∧ f.pk = key ∧
          ∀ (L : Lib) (body : Bytes),
            f.signRequest L body =
              (match L.Sign (accounts.TextHash
                  (stringBytes (common.Hash.Hex (crypto.Keccak256 body)))) key with
                | .error err => .error (.wrap "failed to sign request" err)
                | .ok sig =>
                  .ok (common.Address.Hex (crypto.PubkeyToAddress key) ++ ":" ++
                    hexutil.Encode sig))) ∧
      (∀ err, R.GenerateKey = .error err → New R opts = .error err) ∧
      (∀ f, New R opts = .ok f → R.GenerateKey = .ok f.pk) ∧
      (∀ o : ClientOption, o.IsProvided → ∀ f : flashbot, (o f).1.pk = f.pk) := by
  refine ⟨?_, (New_provided R opts hopts).2,
    fun f hf => (New_key_and_client R opts hopts f hf).1,
    fun o ho f => (clientOption_frame o ho f).2.1⟩
  intro key hk
  have hnew := (New_provided R opts hopts).1 key hk
  have hpk := (New_key_and_client R opts hopts _ hnew).1
  rw [hk] at hpk
  simp only [Except.ok.injEq] at hpk
  refine ⟨_, hnew, hpk.symm, ?_⟩
  intro L body
  unfold flashbot.signRequest
  rw [← hpk]

/-- C22 at a concrete input: the options of the test of the package, with a key
generation that yields the key with scalar 1. -/
theorem New_signs_with_generated_key_witness :
    ∃ f, New demoRuntime demoClientOptions = .ok f ∧ f.pk = demoKey ∧
      f.signRequest demoLib [] = (demoClient relayAccepting).signRequest demoLib [] := by
  have hopts : ∀ o ∈ demoClientOptions, o.IsProvided := by
    intro o ho
    simp only [demoClientOptions, List.mem_cons, List.mem_singleton, List.not_mem_nil,
      or_false] at ho
    rcases ho with rfl | rfl | rfl
    · exact Or.inl ⟨_, rfl⟩
    · exact Or.inr (Or.inr ⟨_, rfl⟩)
    · exact Or.inr (Or.inl ⟨_, rfl⟩)
  obtain ⟨f, hf, hk, hs⟩ :=
    (New_signs_with_generated_key demoRuntime demoClientOptions hopts).1 demoKey rfl
  exact ⟨f, hf, hk, by rw [hs]; rfl⟩

end Flashbot

namespace Flashbot

/-! ## The configuration surface -/

/-- An option that returns no error is followed by the rest of the list. -/
theorem applyClientOptions_cons (o : ClientOption) (opts : List ClientOption) (f : flashbot)
    (ho : (o f).2 = none) :
    applyClientOptions (o :: opts) f = applyClientOptions opts (o f).1 := by
  rw [applyClientOptions]
  rcases hof : o f with ⟨f', e⟩
  rw [hof] at ho
  simp only at ho
  subst ho
  rfl

/-- Construction options are applied in list order. -/
theorem applyClientOptions_append (pre rest : List ClientOption)
    (hpre : ∀ o ∈ pre, o.IsProvided) (f : flashbot) :
    applyClientOptions (pre ++ rest) f = applyClientOptions rest (applyClientOptions pre f).1 := by
  induction pre generalizing f with
  | nil => rfl
  | cons o pre ih =>
    have ho := (clientOption_frame o (hpre o (List.mem_cons_self _ _)) f).1
    rw [List.cons_append, applyClientOptions_cons o _ f ho, applyClientOptions_cons o _ f ho]
    exact ih (fun o' ho' => hpre o' (List.mem_cons_of_mem _ ho')) (o f).1

/-- Provided options other than `WithRelayURL` leave the relay URL alone. -/
theorem applyClientOptions_nonRelayURL (post : List ClientOption)
    (h : ∀ o ∈ post, o.IsProvidedNonRelayURL) :
    ∀ f : flashbot, (applyClientOptions post f).1.relayURL = f.relayURL := by
  induction post with
  | nil => intro f; rfl
  | cons o post ih =>
    intro f
    have ih' := ih (fun o' ho' => h o' (List.mem_cons_of_mem _ ho'))
    rcases h o (List.mem_cons_self _ _) with ⟨b, rfl⟩ | ⟨c, rfl⟩
    · exact ih' _
    · exact ih' _

/-- Provided options other than `WithChainID` leave the chain id alone. -/
theorem applyClientOptions_nonChainID (post : List ClientOption)
    (h : ∀ o ∈ post, o.IsProvidedNonChainID) :
    ∀ f : flashbot, (applyClientOptions post f).1.chainID = f.chainID := by
  induction post with
  | nil => intro f; rfl
  | cons o post ih =>
    intro f
    have ih' := ih (fun o' ho' => h o' (List.mem_cons_of_mem _ ho'))
    rcases h o (List.mem_cons_self _ _) with ⟨b, rfl⟩ | ⟨u, rfl⟩
    · exact ih' _
    · exact ih' _

/-- Provided options other than `WithBuilders` leave the builders alone. -/
theorem applyClientOptions_nonBuilders (post : List ClientOption)
    (h : ∀ o ∈ post, o.IsProvidedNonBuilders) :
    ∀ f : flashbot, (applyClientOptions post f).1.builders = f.builders := by
  induction post with
  | nil => intro f; rfl
  | cons o post ih =>
    intro f
    have ih' := ih (fun o' ho' => h o' (List.mem_cons_of_mem _ ho'))
    rcases h o (List.mem_cons_self _ _) with ⟨u, rfl⟩ | ⟨c, rfl⟩
    · exact ih' _
    · exact ih' _

/-- C23, refuted as stated: when `http.DefaultClient` is a relay that accepts, no list
of the construction options the package provides makes `New` return a client whose
HTTP client is the caller's one, a relay that rejects. -/
theorem New_cannot_take_a_client :
    ¬ ∃ opts : List ClientOption, (∀ o ∈ opts, o.IsProvided) ∧
      ∃ f, New demoRuntime opts = .ok f ∧ f.client = relayRejecting := by
  rintro ⟨opts, hopts, f, hf, hc⟩
  have h := (New_key_and_client demoRuntime opts hopts f hf).2
  rw [hc] at h
  have h' := congrFun (congrFun h []) demoHttpRequest
  revert h'
  decide

/-- C23, amended: the configuration surface at construction covers the relay URL, the
chain id and the builder list.  Each of `WithRelayURL`, `WithChainID` and
`WithBuilders` writes its field to the caller's value, returns no error and leaves
the other fields alone; under a list of provided options (with a key generated) `New`
returns a client in which each of these fields has the value of the last option of
the list that writes it, and whose HTTP client is `http.DefaultClient`, for which
there is no option; and with no options the relay URL is the one of the mainnet
relay, `https://relay.flashbots.net`. -/
theorem construction_surface (R : Runtime) (key : PrivateKey) (hkey : R.GenerateKey = .ok key) :
    (∀ (f : flashbot) (u : String) (c : Nat) (b : List String),
        WithRelayURL u f = ({ f with relayURL := u }, none) ∧
          WithChainID c f = ({ f with chainID := c }, none) ∧
          WithBuilders b f = ({ f with builders := b }, none)) ∧
      (∀ opts : List ClientOption, (∀ o ∈ opts, o.IsProvided) →
        ∃ f, New R opts = .ok f ∧ f.client = R.DefaultClient) ∧
      (∀ (pre post : List ClientOption) (u : String), (∀ o ∈ pre, o.IsProvided) →
        (∀ o ∈ post, o.IsProvidedNonRelayURL) →
        ∃ f, New R (pre ++ WithRelayURL u :: post) = .ok f ∧ f.relayURL = u) ∧
      (∀ (pre post : List ClientOption) (c : Nat), (∀ o ∈ pre, o.IsProvided) →
        (∀ o ∈ post, o.IsProvidedNonChainID) →
        ∃ f, New R (pre ++ WithChainID c :: post) = .ok f ∧ f.chainID = c) ∧
      (∀ (pre post : List ClientOption) (b : List String), (∀ o ∈ pre, o.IsProvided) →
        (∀ o ∈ post, o.IsProvidedNonBuilders) →
        ∃ f, New R (pre ++ WithBuilders b :: post) = .ok f ∧ f.builders = b) ∧
      New R [] = .ok { relayURL := "https://relay.flashbots.net", chainID := 0, builders := []
                       pk := key, client := R.DefaultClient } := by
  have hnew : ∀ opts : List ClientOption, (∀ o ∈ opts, o.IsProvided) →
      New R opts = .ok (applyClientOptions opts
        { relayURL := MainnetRelayURL, chainID := 0, builders := [], pk := key
          client := R.DefaultClient }).1 :=
    fun opts h => (New_provided R opts h).1 key hkey
  have hall : ∀ (pre post : List ClientOption) (o : ClientOption), (∀ o ∈ pre, o.IsProvided) →
      o.IsProvided → (∀ o ∈ post, o.IsProvided) → ∀ o' ∈ pre ++ o :: post, o'.IsProvided := by
    intro pre post o hpre ho hpost o' ho'
    rcases List.mem_append.mp ho' with h | h
    · exact hpre o' h
    · rcases List.mem_cons.mp h with rfl | h
      · exact ho
      · exact hpost o' h
  refine ⟨fun f u c b => ⟨rfl, rfl, rfl⟩, ?_, ?_, ?_, ?_, ?_⟩
  · intro opts hopts
    exact ⟨_, hnew opts hopts, (New_key_and_client R opts hopts _ (hnew opts hopts)).2⟩
  · intro pre post u hpre hpost
    have hp : ∀ o ∈ post, o.IsProvided := by
      intro o ho
      rcases hpost o ho with h | h
      · exact Or.inl h
      · exact Or.inr (Or.inr h)
    refine ⟨_, hnew _ (hall pre post _ hpre (Or.inr (Or.inl ⟨u, rfl⟩)) hp), ?_⟩
    rw [applyClientOptions_append pre _ hpre]
    exact applyClientOptions_nonRelayURL post hpost _
  · intro pre post c hpre hpost
    have hp : ∀ o ∈ post, o.IsProvided := by
      intro o ho
      rcases hpost o ho with h | h
      · exact Or.inl h
      · exact Or.inr (Or.inl h)
    refine ⟨_, hnew _ (hall pre post _ hpre (Or.inr (Or.inr ⟨c, rfl⟩)) hp), ?_⟩
    rw [applyClientOptions_append pre _ hpre]
    exact applyClientOptions_nonChainID post hpost _
  · intro pre post b hpre hpost
    have hp : ∀ o ∈ post, o.IsProvided := by
      intro o ho
      rcases hpost o ho with h | h
      · exact Or.inr (Or.inl h)
      · exact Or.inr (Or.inr h)
    refine ⟨_, hnew _ (hall pre post _ hpre (Or.inl ⟨b, rfl⟩) hp), ?_⟩
    rw [applyClientOptions_append pre _ hpre]
    exact applyClientOptions_nonBuilders post hpost _
  · exact hnew [] (by simp)

/-- C23 at concrete inputs: two relay URL options around a chain id option, of which
the later one decides, and the client built without options. -/
theorem construction_surface_witness :
    (∃ f, New demoRuntime ([WithRelayURL MainnetRelayURL] ++
          WithRelayURL SepoliaRelayURL :: [WithChainID SepoliaChainID]) = .ok f ∧
        f.relayURL = SepoliaRelayURL) ∧
      New demoRuntime [] = .ok { relayURL := "https://relay.flashbots.net", chainID := 0
                                 builders := [], pk := demoKey, client := relayAccepting } :=
  ⟨(construction_surface demoRuntime demoKey rfl).2.2.1 [WithRelayURL MainnetRelayURL]
      [WithChainID SepoliaChainID] SepoliaRelayURL
      (fun _ ho => Or.inr (Or.inl ⟨_, List.mem_singleton.mp ho⟩))
      (fun _ ho => Or.inr ⟨_, List.mem_singleton.mp ho⟩),
    (construction_surface demoRuntime demoKey rfl).2.2.2.2.2⟩

end Flashbot

namespace Flashbot

/-! ## The simulation inside `Broadcast` -/

/-- The `mev_simBundle` parameters of the requests `Broadcast` starts are those of the
requests its simulation starts: what follows the simulation is of another method. -/
theorem Broadcast_simParamsSince (f : flashbot) (L : Lib) (w : World) (bundle : Bundle)
    (targetBlock : Nat) (opts : List BundleOption) :
    w.paramsSince (f.Broadcast L w bundle targetBlock opts).2 methodMevSimBundle =
      w.paramsSince (f.Simulate L w bundle targetBlock []).2 methodMevSimBundle := by
  obtain ⟨evs, htr, -⟩ := Simulate_trace f L w bundle targetBlock []
  obtain ⟨evs', htr', hev'⟩ := Broadcast_trace f L w bundle targetBlock opts
  rw [htr, List.append_assoc] at htr'
  rw [World.paramsSince, World.paramsSince, eventsSince_of_trace _ _ _ htr',
    eventsSince_of_trace _ _ _ htr, List.filterMap_append, List.filter_append,
    List.flatMap_append]
  have hnil : (((evs'.filterMap Event.req?).filter fun req => req.Method = methodMevSimBundle).flatMap
      fun req => req.Params) = [] := by
    have hm : ¬ methodMevSendBundle = methodMevSimBundle := by decide
    rcases hev' with rfl | ⟨params, id, req, -, -, rfl, rfl | ⟨httpReq, -, rfl | ⟨bs, rfl⟩⟩⟩
    · rfl
    all_goals simp [Event.req?, hm]
  rw [hnil, List.append_nil]

/-- C24: the simulation inside `Broadcast` ignores the options of the caller.  The
`mev_simBundle` parameters of the requests `Broadcast(bundle, target, opts)` starts are
those of `Simulate(bundle, target)` without options, each of them is what `simParams`
builds without options, and they are the same for every other option list; and they
may differ from the `mev_sendBundle` parameters in validity, privacy, metadata and
`maxBlock`, as they do for the demonstration bundle with one option for each. -/
theorem Broadcast_simulation_ignores_options (f : flashbot) (L : Lib) (w : World)
    (bundle : Bundle) (targetBlock : Nat) (opts : List BundleOption) :
    w.paramsSince (f.Broadcast L w bundle targetBlock opts).2 methodMevSimBundle =
        w.paramsSince (f.Simulate L w bundle targetBlock []).2 methodMevSimBundle ∧
      (∀ p ∈ w.paramsSince (f.Broadcast L w bundle targetBlock opts).2 methodMevSimBundle,
        simParams bundle targetBlock [] = .ok p) ∧
      (∀ opts' : List BundleOption,
        w.paramsSince (f.Broadcast L w bundle targetBlock opts').2 methodMevSimBundle =
          w.paramsSince (f.Broadcast L w bundle targetBlock opts).2 methodMevSimBundle) ∧
      ∃ p ∈ demoWorld.paramsSince ((demoClient relayAccepting).Broadcast demoLib demoWorld
          demoBundle 1000 demoAllOptions).2 methodMevSimBundle,
        ∃ q ∈ demoWorld.paramsSince ((demoClient relayAccepting).Broadcast demoLib demoWorld
            demoBundle 1000 demoAllOptions).2 methodMevSendBundle,
          p.Validity ≠ q.Validity ∧ p.Privacy ≠ q.Privacy ∧ p.Metadata ≠ q.Metadata ∧
            p.Inclusion.MaxBlock ≠ q.Inclusion.MaxBlock := by
  refine ⟨Broadcast_simParamsSince f L w bundle targetBlock opts, ?_, ?_, ?_⟩
  · intro p hp
    rw [Broadcast_simParamsSince] at hp
    exact (Simulate_paramsSince f L w bundle targetBlock [] _ p hp).2
  · intro opts'
    rw [Broadcast_simParamsSince, Broadcast_simParamsSince]
  · exact ⟨(demoWorld.paramsSince ((demoClient relayAccepting).Broadcast demoLib demoWorld
        demoBundle 1000 demoAllOptions).2 methodMevSimBundle).get ⟨0, by decide!⟩,
      List.get_mem _ _ _,
      (demoWorld.paramsSince ((demoClient relayAccepting).Broadcast demoLib demoWorld
        demoBundle 1000 demoAllOptions).2 methodMevSendBundle).get ⟨0, by decide!⟩,
      List.get_mem _ _ _, by decide!, by decide!, by decide!, by decide!⟩

/-- C24 at a concrete input: the `mev_simBundle` parameters of a broadcast of the
demonstration bundle with four options are those built without options, and carry
none of the four fields. -/
theorem Broadcast_simulation_ignores_options_witness :
    ∃ p ∈ demoWorld.paramsSince ((demoClient relayAccepting).Broadcast demoLib demoWorld
        demoBundle 1000 demoAllOptions).2 methodMevSimBundle,
      simParams demoBundle 1000 [] = .ok p ∧ p.Validity = none ∧ p.Privacy = none ∧
        p.Metadata = none ∧ p.Inclusion.MaxBlock = none :=
  ⟨(demoWorld.paramsSince ((demoClient relayAccepting).Broadcast demoLib demoWorld
      demoBundle 1000 demoAllOptions).2 methodMevSimBundle).get ⟨0, by decide!⟩,
    List.get_mem _ _ _,
    (Broadcast_simulation_ignores_options (demoClient relayAccepting) demoLib demoWorld
      demoBundle 1000 demoAllOptions).2.1 _ (List.get_mem _ _ _),
    by decide!, by decide!, by decide!, by decide!⟩

/-! ## The default window on the latest block -/

/-- C25: for target block 0 and no options, the `mev_sendBundle` parameters of every
request `Broadcast` starts have `inclusion.block` equal to `latest` and
`inclusion.maxBlock` equal to `0x1e`, the hex encoding of 30: the default is computed
from the number 0 of the target, not from the latest block. -/
theorem latest_default_maxBlock (f : flashbot) (L : Lib) (w : World) (bundle : Bundle)
    (p : mevSimBundleParams)
    (hp : p ∈ w.paramsSince (f.Broadcast L w bundle 0 []).2 methodMevSendBundle) :
    p.Inclusion.Block = "latest" ∧ p.Inclusion.MaxBlock = some "0x1e" ∧
      p.Inclusion.MaxBlock = some (hexEncoding (0 + 30)) := by
  rcases Broadcast_paramsSince f L w bundle 0 [] _ p hp with ⟨hm, -⟩ | ⟨-, h, -⟩
  · exact absurd hm (by decide)
  · obtain ⟨body, -, ha⟩ := sendParams_ok bundle 0 [] p h
    simp only [applyOptions, Prod.mk.injEq, and_true] at ha
    have h30 : "0x" ++ strconv.FormatUint ((0 + 30) % 2 ^ 64) 16 = "0x1e" := by decide
    have hhex : hexEncoding (0 + 30) = "0x1e" := by
      rw [hexEncoding_eq_FormatUint _ (by norm_num)]
      decide
    rw [← ha, hhex]
    exact ⟨rfl, congrArg some h30, congrArg some h30⟩

/-- C25 at a concrete input: the demonstration bundle broadcast for target block 0
to a relay that accepts it. -/
theorem latest_default_maxBlock_witness :
    ∃ p ∈ demoWorld.paramsSince ((demoClient relayAccepting).Broadcast demoLib demoWorld
        demoBundle 0 []).2 methodMevSendBundle,
      p.Inclusion.Block = "latest" ∧ p.Inclusion.MaxBlock = some "0x1e" ∧
        p.Inclusion.MaxBlock = some (hexEncoding (0 + 30)) :=
  ⟨(demoWorld.paramsSince ((demoClient relayAccepting).Broadcast demoLib demoWorld
      demoBundle 0 []).2 methodMevSendBundle).get ⟨0, by decide!⟩,
    List.get_mem _ _ _,
    latest_default_maxBlock (demoClient relayAccepting) demoLib demoWorld demoBundle _
      (List.get_mem _ _ _)⟩

end Flashbot

/-! ## Parsing undoes formatting -/

/-- The value `strconv.ParseUint` reads for a base-16 digit written by `FormatUint`. -/
theorem strconv.digitVal_hex (d : Nat) (h : d < 16) :
    strconv.digitVal ("0123456789abcdef".data.getD d '0').toNat = some d := by
  interval_cases d <;> rfl

/-- The digit loop of `ParseUint` on lowercase base-16 digits: it reads them most
significant first, as long as the value stays within 64 bits. -/
theorem strconv.parseLoop_hex (s0 : String) (ds : List Nat) (n : Nat) (hds : ∀ d ∈ ds, d < 16)
    (hlt : ds.foldl (fun acc d => acc * 16 + d) n < 2 ^ 64) :
    strconv.parseLoop s0 16 (ds.map fun d => "0123456789abcdef".data.getD d '0') n =
      .ok (ds.foldl (fun acc d => acc * 16 + d) n) := by
  have hmono : ∀ (l : List Nat) (m : Nat), m ≤ l.foldl (fun acc d => acc * 16 + d) m := by
    intro l
    induction l with
    | nil => intro m; exact le_refl m
    | cons a l ih =>
      intro m
      exact le_trans (by omega) (ih (m * 16 + a))
  induction ds generalizing n with
  | nil => rfl
  | cons d ds ih =>
    have hd : d < 16 := hds d (List.mem_cons_self _ _)
    have hn1 : n * 16 + d < 2 ^ 64 := lt_of_le_of_lt (hmono ds _) hlt
    simp only [List.map_cons, strconv.parseLoop, strconv.digitVal_hex d hd]
    rw [if_neg (by omega), if_neg (by omega), if_neg (by omega)]
    exact ih (n * 16 + d) (fun e he => hds e (List.mem_cons_of_mem _ he)) hlt

/-- Reading the base-16 digits of a number, most significant first, gives the number. -/
theorem strconv.foldl_digits (n : Nat) :
    (Nat.digits 16 n).reverse.foldl (fun acc d => acc * 16 + d) 0 = n := by
  rw [List.foldl_reverse]
  conv_rhs => rw [← Nat.ofDigits_digits 16 n]
  rw [Nat.ofDigits_eq_foldr]
  congr 1
  funext d acc
  simp [Nat.mul_comm, Nat.add_comm]

/-- Parsing undoes formatting: `ParseUint` reads back the `uint64` that `FormatUint`
wrote in base 16. -/
theorem strconv.ParseUint_FormatUint (n : Nat) (h : n < 2 ^ 64) :
    strconv.ParseUint (strconv.FormatUint n 16) 16 = .ok n := by
  by_cases h0 : n = 0
  · subst h0; rfl
  · have hfmt : strconv.FormatUint n 16 =
        String.mk ((Nat.digits 16 n).reverse.map fun d => "0123456789abcdef".data.getD d '0') := by
      unfold strconv.FormatUint
      rw [strconv.formatBits_eq_digits 64 16 n [] (by decide) (by omega)
        (lt_trans h (by norm_num)), List.append_nil]
      congr 1
      apply List.map_congr_left
      intro d hd
      exact strconv.digits_getD_hex d (Nat.digits_lt_base (by decide) (List.mem_reverse.mp hd))
    have hne : (Nat.digits 16 n) ≠ [] := Nat.digits_ne_nil_iff_ne_zero.mpr h0
    rw [hfmt]
    unfold strconv.ParseUint
    rw [if_neg]
    · have := strconv.parseLoop_hex
        (String.mk ((Nat.digits 16 n).reverse.map fun d => "0123456789abcdef".data.getD d '0'))
        (Nat.digits 16 n).reverse 0
        (fun d hd => Nat.digits_lt_base (by decide) (List.mem_reverse.mp hd))
        (by rw [strconv.foldl_digits]; exact h)
      rw [strconv.foldl_digits] at this
      exact this
    · intro hc
      have := congrArg String.data hc
      simp at this
      exact hne this

namespace Flashbot

/-- The block text of a nonzero `uint64` target block parses back to the block. -/
theorem blockHex_parses (N : Nat) (h0 : N ≠ 0) (h : N < 2 ^ 64) :
    strconv.ParseUint (strings.TrimPrefix (blockHex N) "0x") 16 = .ok N := by
  have htrim : strings.TrimPrefix (blockHex N) "0x" = strconv.FormatUint N 16 := by
    unfold blockHex strings.TrimPrefix
    rw [if_neg h0]
    have hd : ("0x" ++ strconv.FormatUint N 16).data = '0' :: 'x' :: (strconv.FormatUint N 16).data := by
      rw [String.data_append]; rfl
    rw [hd]
    simp
  rw [htrim]
  exact strconv.ParseUint_FormatUint N h

end Flashbot

namespace Flashbot

/-! ## The duration option on built parameters -/

/-- A list whose first part applies without error goes on with the rest. -/
theorem applyOptions_append_ok (pre rest : List BundleOption) :
    ∀ (p p1 : mevSimBundleParams), applyOptions pre p = (p1, none) →
      applyOptions (pre ++ rest) p = applyOptions rest p1 := by
  induction pre with
  | nil =>
    intro p p1 h
    simp only [applyOptions, Prod.mk.injEq, and_true] at h
    rw [h, List.nil_append]
  | cons o pre ih =>
    intro p p1 h
    rw [List.cons_append]
    rcases ho : o p with ⟨p', e⟩
    cases e with
    | some err =>
      rw [applyOptions_cons_error _ _ _ _ _ ho] at h
      simp at h
    | none =>
      rw [applyOptions_cons_ok _ _ _ _ ho] at h ⊢
      exact ih p' p1 h

/-- The duration option on parameters whose block text is that of a nonzero `uint64`
target block: no error, and `maxBlock` is the wrapped sum. -/
theorem WithExpirationDurationInBlocks_built (N D : Nat) (hN0 : N ≠ 0) (hN : N < 2 ^ 64)
    (p : mevSimBundleParams) (hp : p.Inclusion.Block = blockHex N) :
    WithExpirationDurationInBlocks D p =
      ({ p with Inclusion := { p.Inclusion with
          MaxBlock := some (hexEncoding ((N + D) % 2 ^ 64)) } }, none) := by
  apply WithExpirationDurationInBlocks_ok
  rw [hp]
  exact blockHex_parses N hN0 hN

/-- Parameters built under provided options, followed by a duration option. -/
theorem simParams_then_duration (N D : Nat) (hN0 : N ≠ 0) (hN : N < 2 ^ 64) (bundle : Bundle)
    (opts : List BundleOption) (hopts : ∀ o ∈ opts, o.IsProvided) (p : mevSimBundleParams)
    (h : simParams bundle N opts = .ok p) :
    simParams bundle N (opts ++ [WithExpirationDurationInBlocks D]) =
      .ok { p with Inclusion := { p.Inclusion with
          MaxBlock := some (hexEncoding ((N + D) % 2 ^ 64)) } } := by
  obtain ⟨hne, body, hb, ha⟩ := simParams_ok bundle N opts p h
  have hblock : p.Inclusion.Block = blockHex N := by
    have hfr := (applyOptions_frame opts hopts
      { Version := "v0.1", Inclusion := { Block := blockHex N, MaxBlock := none }
        Body := body, Validity := none, Privacy := none, Metadata := none }).2.1
    rw [ha] at hfr
    exact hfr
  unfold simParams
  rw [if_neg (by simpa using hne)]
  simp only [hb]
  rw [applyOptions_append_ok opts _ _ p ha,
    applyOptions_cons_ok _ _ _ _ (WithExpirationDurationInBlocks_built N D hN0 hN p hblock)]
  rfl

/-- Parameters of the send step built under provided options, followed by a duration
option. -/
theorem sendParams_then_duration (N D : Nat) (hN0 : N ≠ 0) (hN : N < 2 ^ 64) (bundle : Bundle)
    (opts : List BundleOption) (hopts : ∀ o ∈ opts, o.IsProvided) (p : mevSimBundleParams)
    (h : sendParams bundle N opts = .ok p) :
    sendParams bundle N (opts ++ [WithExpirationDurationInBlocks D]) =
      .ok { p with Inclusion := { p.Inclusion with
          MaxBlock := some (hexEncoding ((N + D) % 2 ^ 64)) } } := by
  obtain ⟨body, hb, ha⟩ := sendParams_ok bundle N opts p h
  have hblock : p.Inclusion.Block = blockHex N := by
    have hfr := (applyOptions_frame opts hopts
      { Version := "v0.1"
        Inclusion := { Block := blockHex N
                       MaxBlock := some ("0x" ++ strconv.FormatUint ((N + 30) % 2 ^ 64) 16) }
        Body := body, Validity := none, Privacy := none, Metadata := none }).2.1
    rw [ha] at hfr
    exact hfr
  unfold sendParams
  simp only [hb]
  rw [applyOptions_append_ok opts _ _ p ha,
    applyOptions_cons_ok _ _ _ _ (WithExpirationDurationInBlocks_built N D hN0 hN p hblock)]
  rfl

/-- C26: parsing undoes formatting for block numbers.  For a nonzero `uint64` target
block `N` and every duration `D`, the option `WithExpirationDurationInBlocks(D)`
applied to parameters whose block text is the one `Simulate` and `Broadcast` write for
`N` returns no error and sets `inclusion.maxBlock` to the hex encoding (`0x` and
lowercase base-16 digits, as `FormatUint` writes them) of `(N + D) mod 2 ^ 64`,
whether or not `N + D` fits in 64 bits; so parameters that `Simulate` or `Broadcast`
build under provided options are built as well with the duration option added at the
end, and every request started with the duration option alone carries that
`maxBlock`; and the default `maxBlock` of `Broadcast` is the hex encoding of
`(N + 30) mod 2 ^ 64`. -/
theorem duration_parses_built_block (N D : Nat) (hN0 : N ≠ 0) (hN : N < 2 ^ 64) :
    strconv.ParseUint (strings.TrimPrefix (blockHex N) "0x") 16 = .ok N ∧
      hexEncoding ((N + D) % 2 ^ 64) = "0x" ++ strconv.FormatUint ((N + D) % 2 ^ 64) 16 ∧
      (∀ p : mevSimBundleParams, p.Inclusion.Block = blockHex N →
        WithExpirationDurationInBlocks D p =
          ({ p with Inclusion := { p.Inclusion with
              MaxBlock := some (hexEncoding ((N + D) % 2 ^ 64)) } }, none)) ∧
      (∀ (bundle : Bundle) (opts : List BundleOption) (p : mevSimBundleParams),
        (∀ o ∈ opts, o.IsProvided) →
        (simParams bundle N opts = .ok p →
          simParams bundle N (opts ++ [WithExpirationDurationInBlocks D]) =
            .ok { p with Inclusion := { p.Inclusion with
                MaxBlock := some (hexEncoding ((N + D) % 2 ^ 64)) } }) ∧
        (sendParams bundle N opts = .ok p →
          sendParams bundle N (opts ++ [WithExpirationDurationInBlocks D]) =
            .ok { p with Inclusion := { p.Inclusion with
                MaxBlock := some (hexEncoding ((N + D) % 2 ^ 64)) } })) ∧
      (∀ (f : flashbot) (L : Lib) (w : World) (bundle : Bundle) (p : mevSimBundleParams),
        (p ∈ w.paramsSince (f.Simulate L w bundle N [WithExpirationDurationInBlocks D]).2
            methodMevSimBundle ∨
          p ∈ w.paramsSince (f.Broadcast L w bundle N [WithExpirationDurationInBlocks D]).2
            methodMevSendBundle) →
        p.Inclusion.MaxBlock = some (hexEncoding ((N + D) % 2 ^ 64))) ∧
      (∀ (f : flashbot) (L : Lib) (w : World) (bundle : Bundle) (p : mevSimBundleParams),
        p ∈ w.paramsSince (f.Broadcast L w bundle N []).2 methodMevSendBundle →
        p.Inclusion.MaxBlock = some (hexEncoding ((N + 30) % 2 ^ 64))) := by
  refine ⟨blockHex_parses N hN0 hN,
    hexEncoding_eq_FormatUint _ (lt_trans (Nat.mod_lt _ (by norm_num)) (by norm_num)),
    fun p hp => WithExpirationDurationInBlocks_built N D hN0 hN p hp, ?_, ?_, ?_⟩
  · intro bundle opts p hopts
    exact ⟨simParams_then_duration N D hN0 hN bundle opts hopts p,
      sendParams_then_duration N D hN0 hN bundle opts hopts p⟩
  · intro f L w bundle p hp
    have hbuilt : ∀ p0 : mevSimBundleParams, p0.Inclusion.Block = blockHex N →
        applyOptions [WithExpirationDurationInBlocks D] p0 = (p, none) →
        p.Inclusion.MaxBlock = some (hexEncoding ((N + D) % 2 ^ 64)) := by
      intro p0 hp0 ha
      rw [applyOptions_cons_ok _ _ _ _ (WithExpirationDurationInBlocks_built N D hN0 hN p0 hp0)]
        at ha
      simp only [applyOptions, Prod.mk.injEq, and_true] at ha
      rw [← ha]
    rcases hp with hp | hp
    · obtain ⟨-, h⟩ := Simulate_paramsSince f L w bundle N _ _ p hp
      obtain ⟨-, body, -, ha⟩ := simParams_ok bundle N _ p h
      exact hbuilt _ rfl ha
    · rcases Broadcast_paramsSince f L w bundle N _ _ p hp with ⟨hm, -⟩ | ⟨-, h, -⟩
      · exact absurd hm (by decide)
      · obtain ⟨body, -, ha⟩ := sendParams_ok bundle N _ p h
        exact hbuilt _ rfl ha
  · intro f L w bundle p hp
    rcases Broadcast_paramsSince f L w bundle N [] _ p hp with ⟨hm, -⟩ | ⟨-, h, -⟩
    · exact absurd hm (by decide)
    · exact sendParams_nil_maxBlock bundle N p h

/-- C26 at concrete inputs: the largest target block with a duration of one block,
where the sum wraps to `0x0` without an error, and the request of a simulation for
block 1000 with a duration of five blocks. -/
theorem duration_parses_built_block_witness :
    (WithExpirationDurationInBlocks 1 demoParamsTop).2 = none ∧
      (WithExpirationDurationInBlocks 1 demoParamsTop).1.Inclusion.MaxBlock = some "0x0" ∧
      ∃ p ∈ demoWorld.paramsSince ((demoClient relayAccepting).Simulate demoLib demoWorld
          demoBundle 1000 [WithExpirationDurationInBlocks 5]).2 methodMevSimBundle,
        p.Inclusion.MaxBlock = some (hexEncoding ((1000 + 5) % 2 ^ 64)) ∧
          p.Inclusion.MaxBlock = some "0x3ed" := by
  have htop := (duration_parses_built_block (2 ^ 64 - 1) 1 (by norm_num)
    (by norm_num)).2.2.1 demoParamsTop (by decide)
  have hzero : hexEncoding ((2 ^ 64 - 1 + 1) % 2 ^ 64) = "0x0" := by
    rw [hexEncoding_eq_FormatUint _ (by norm_num)]
    decide
  refine ⟨by rw [htop], by rw [htop, hzero], ?_⟩
  exact ⟨(demoWorld.paramsSince ((demoClient relayAccepting).Simulate demoLib demoWorld
      demoBundle 1000 [WithExpirationDurationInBlocks 5]).2 methodMevSimBundle).get
        ⟨0, by decide!⟩,
    List.get_mem _ _ _,
    (duration_parses_built_block 1000 5 (by norm_num) (by norm_num)).2.2.2.2.1
      (demoClient relayAccepting) demoLib demoWorld demoBundle _ (Or.inl (List.get_mem _ _ _)),
    by decide!⟩

/-! ## The default window and a duration of 30 blocks -/

/-- The parameters of the send step without options are those with the single option
`WithExpirationDurationInBlocks(30)`. -/
theorem sendParams_default_eq_duration (bundle : Bundle) (N : Nat) (hN0 : N ≠ 0)
    (hN : N < 2 ^ 64) :
    sendParams bundle N [] = sendParams bundle N [WithExpirationDurationInBlocks 30] := by
  cases h : sendParams bundle N [] with
  | error err =>
    unfold sendParams at h ⊢
    cases hb : encodeBody bundle.CanRevert 0 bundle.Transactions [] with
    | error e => simp only [hb] at h ⊢; exact h.symm
    | ok body => simp [hb, applyOptions] at h
  | ok p =>
    have hd := sendParams_then_duration N 30 hN0 hN bundle [] (by simp) p h
    rw [List.nil_append] at hd
    rw [hd]
    have hmax := sendParams_nil_maxBlock bundle N p h
    congr 1
    cases p with
    | mk v inc b va pr me =>
      cases inc with
      | mk blk mb =>
        simp only at hmax
        rw [hmax]

/-- C27: for every nonzero `uint64` target block `N` and every bundle, the
`mev_sendBundle` parameters `Broadcast` builds with no options are those it builds
with the single option `WithExpirationDurationInBlocks(30)`, also when `N + 30` does
not fit in 64 bits; the two calls return the same and leave the same world, so they
start the same requests. -/
theorem default_window_is_duration_30 (f : flashbot) (L : Lib) (w : World) (bundle : Bundle)
    (N : Nat) (hN0 : N ≠ 0) (hN : N < 2 ^ 64) :
    sendParams bundle N [] = sendParams bundle N [WithExpirationDurationInBlocks 30] ∧
      f.Broadcast L w bundle N [] =
        f.Broadcast L w bundle N [WithExpirationDurationInBlocks 30] ∧
      w.paramsSince (f.Broadcast L w bundle N []).2 methodMevSendBundle =
        w.paramsSince (f.Broadcast L w bundle N [WithExpirationDurationInBlocks 30]).2
          methodMevSendBundle := by
  have hp := sendParams_default_eq_duration bundle N hN0 hN
  have hb : f.Broadcast L w bundle N [] =
      f.Broadcast L w bundle N [WithExpirationDurationInBlocks 30] := by
    unfold flashbot.Broadcast
    rw [hp]
  exact ⟨hp, hb, by rw [hb]⟩

/-- C27 at concrete inputs: target block 1000, and the largest target block, where
the default and the duration of 30 blocks both wrap to `0x1d`. -/
theorem default_window_is_duration_30_witness :
    (sendParams demoBundle 1000 [] =
        sendParams demoBundle 1000 [WithExpirationDurationInBlocks 30] ∧
      (sendParams demoBundle 1000 []).toOption.map (fun p => p.Inclusion.MaxBlock) =
        some (some "0x406")) ∧
      sendParams demoBundle (2 ^ 64 - 1) [] =
        sendParams demoBundle (2 ^ 64 - 1) [WithExpirationDurationInBlocks 30] ∧
      (sendParams demoBundle (2 ^ 64 - 1) [WithExpirationDurationInBlocks 30]).toOption.map
        (fun p => p.Inclusion.MaxBlock) = some (some "0x1d") :=
  ⟨⟨(default_window_is_duration_30 (demoClient relayAccepting) demoLib demoWorld demoBundle
      1000 (by norm_num) (by norm_num)).1, by decide⟩,
    (default_window_is_duration_30 (demoClient relayAccepting) demoLib demoWorld demoBundle
      (2 ^ 64 - 1) (by norm_num) (by norm_num)).1, by decide⟩

end Flashbot

/-! ## What `ParseUint` accepts in base 16 -/

/-- Setting bit 5 of a byte value of 128 or more leaves it at 128 or more. -/
theorem strconv.lower_ge (n : Nat) (h : 128 ≤ n) : 128 ≤ n ||| 32 := by
  by_contra hlt
  have hlt' : n ||| 32 < 2 ^ 7 := by omega
  have hn : n < 2 ^ 7 := by
    apply Nat.lt_pow_two_of_testBit
    intro i hi
    have hbit : (n ||| 32).testBit i = false :=
      Nat.testBit_lt_two_pow (lt_of_lt_of_le hlt' (Nat.pow_le_pow_right (by decide) hi))
    rw [Nat.testBit_or, Bool.or_eq_false_iff] at hbit
    exact hbit.1
  omega

/-- The digit `ParseUint` reads is below 16 exactly for a hexadecimal digit, and is
then its value. -/
theorem strconv.digitVal_hexDigitValue (c : Char) (d : Nat) :
    (strconv.digitVal c.toNat = some d ∧ d < 16) ↔ Flashbot.hexDigitValue c = some d := by
  have hsmall : ∀ n < 128, ∀ d : Nat, (strconv.digitVal n = some d ∧ d < 16) ↔
      (if 48 ≤ n ∧ n ≤ 57 then some (n - 48)
        else if 97 ≤ n ∧ n ≤ 102 then some (n - 97 + 10)
        else if 65 ≤ n ∧ n ≤ 70 then some (n - 65 + 10)
        else none) = some d := by
    intro n hn d
    interval_cases n <;> simp [strconv.digitVal] <;> omega
  by_cases hc : c.toNat < 128
  · exact hsmall c.toNat hc d
  · have hge : 128 ≤ c.toNat ||| 32 := strconv.lower_ge _ (by omega)
    have h1 : strconv.digitVal c.toNat = none := by
      unfold strconv.digitVal
      rw [if_neg (by omega), if_neg (by omega)]
    have h2 : Flashbot.hexDigitValue c = none := by
      unfold Flashbot.hexDigitValue
      have e0 : '0'.toNat = 48 := rfl
      have e9 : '9'.toNat = 57 := rfl
      have ea : 'a'.toNat = 97 := rfl
      have ef : 'f'.toNat = 102 := rfl
      have eA : 'A'.toNat = 65 := rfl
      have eF : 'F'.toNat = 70 := rfl
      rw [e0, e9, ea, ef, eA, eF, if_neg (by omega), if_neg (by omega), if_neg (by omega)]
    rw [h1, h2]
    simp

/-- The value of a run of hexadecimal digits is at least the value before it. -/
theorem Flashbot.hexDigitsValue_ge (cs : List Char) :
    ∀ n m : Nat, Flashbot.hexDigitsValue cs n = some m → n ≤ m := by
  induction cs with
  | nil =>
    intro n m h
    simp only [Flashbot.hexDigitsValue, Option.some.injEq] at h
    omega
  | cons c cs ih =>
    intro n m h
    unfold Flashbot.hexDigitsValue at h
    cases hd : Flashbot.hexDigitValue c with
    | none => simp [hd] at h
    | some d =>
      simp only [hd] at h
      have := ih _ _ h
      omega

/-- The digit loop of `ParseUint` in base 16 returns a number exactly when the text
is a run of hexadecimal digits whose value fits in 64 bits, and then that value. -/
theorem strconv.parseLoop_hex_iff (s0 : String) (cs : List Char) :
    ∀ n m : Nat, n < 2 ^ 64 →
      (strconv.parseLoop s0 16 cs n = .ok m ↔
        Flashbot.hexDigitsValue cs n = some m ∧ m < 2 ^ 64) := by
  induction cs with
  | nil =>
    intro n m hn
    simp only [strconv.parseLoop, Flashbot.hexDigitsValue, Except.ok.injEq, Option.some.injEq]
    constructor
    · intro h; exact ⟨h, h ▸ hn⟩
    · intro h; exact h.1
  | cons c cs ih =>
    intro n m hn
    unfold strconv.parseLoop Flashbot.hexDigitsValue
    cases hv : strconv.digitVal c.toNat with
    | none =>
      have hx : Flashbot.hexDigitValue c = none := by
        cases hh : Flashbot.hexDigitValue c with
        | none => rfl
        | some d =>
          have := (strconv.digitVal_hexDigitValue c d).mpr hh
          rw [hv] at this
          simp at this
      simp [hx]
    | some d =>
      by_cases hd : d ≥ 16
      · have hx : Flashbot.hexDigitValue c = none := by
          cases hh : Flashbot.hexDigitValue c with
          | none => rfl
          | some d' =>
            have := (strconv.digitVal_hexDigitValue c d').mpr hh
            rw [hv] at this
            simp only [Option.some.injEq] at this
            omega
        simp [hx, hd]
      · have hx : Flashbot.hexDigitValue c = some d :=
          (strconv.digitVal_hexDigitValue c d).mp ⟨hv, by omega⟩
        simp only [hx, if_neg hd]
        by_cases hcut : n ≥ (2 ^ 64 - 1) / 16 + 1
        · rw [if_pos hcut]
          constructor
          · intro h; cases h
          · intro h
            have := Flashbot.hexDigitsValue_ge cs _ _ h.1
            omega
        · rw [if_neg hcut, if_neg (by omega)]
          exact ih (n * 16 + d) m (by omega)

/-- In base 16 `ParseUint` returns a number exactly for a text that is not empty, is
made of hexadecimal digits only and denotes a number that fits in 64 bits; the
number it returns is that one. -/
theorem strconv.ParseUint_hex_iff (s : String) (m : Nat) :
    strconv.ParseUint s 16 = .ok m ↔ Flashbot.hexNumber s = some m ∧ m < 2 ^ 64 := by
  unfold strconv.ParseUint Flashbot.hexNumber
  by_cases hs : s = ""
  · subst hs
    simp
  · have hd : s.data ≠ [] := by
      intro hc
      apply hs
      cases s
      simp_all
    rw [if_neg hs, if_neg hd]
    exact strconv.parseLoop_hex_iff s s.data 0 m (by norm_num)

/-- Whatever `ParseUint` does not return a number for, it returns an error for. -/
theorem strconv.ParseUint_error_iff (s : String) :
    (∃ err, strconv.ParseUint s 16 = .error err) ↔
      ¬ ∃ m, Flashbot.hexNumber s = some m ∧ m < 2 ^ 64 := by
  constructor
  · rintro ⟨err, he⟩ ⟨m, hm⟩
    rw [(strconv.ParseUint_hex_iff s m).mpr hm] at he
    cases he
  · intro h
    cases hp : strconv.ParseUint s 16 with
    | error err => exact ⟨err, rfl⟩
    | ok m => exact absurd ⟨m, (strconv.ParseUint_hex_iff s m).mp hp⟩ h

namespace Flashbot

/-! ## A failing option -/

/-- The duration option either fails and hands back the parameters it was given, or
succeeds: it returns an error exactly when `ParseUint` does. -/
theorem WithExpirationDurationInBlocks_error (D : Nat) (p : mevSimBundleParams) :
    (∀ e, (WithExpirationDurationInBlocks D p).2 = some e →
        (WithExpirationDurationInBlocks D p).1 = p ∧
          ∃ err, strconv.ParseUint (strings.TrimPrefix p.Inclusion.Block "0x") 16 = .error err ∧
            e = .wrap "failed to parse block number" err) ∧
      ((WithExpirationDurationInBlocks D p).2 = none →
        ∃ block, strconv.ParseUint (strings.TrimPrefix p.Inclusion.Block "0x") 16 = .ok block) := by
  unfold WithExpirationDurationInBlocks
  cases hp : strconv.ParseUint (strings.TrimPrefix p.Inclusion.Block "0x") 16 with
  | error err =>
    refine ⟨fun e he => ⟨rfl, err, rfl, ?_⟩, fun h => ?_⟩
    · simp only [Option.some.injEq] at he
      exact he.symm
    · simp at h
  | ok block =>
    refine ⟨fun e he => ?_, fun _ => ⟨block, rfl⟩⟩
    simp at he

/-- C28: a failing bundle option changes nothing.  When
`WithExpirationDurationInBlocks(D)` returns an error on a parameters object, the
object is left exactly as it was, its previous `inclusion.maxBlock` included; it
returns an error exactly when `inclusion.block`, without a leading `0x`, is not a
hexadecimal number that fits in 64 bits, as for `latest`; and `WithValidity`,
`WithPrivacy`, `WithMetadata` and `WithExpirationBlock` never return an error. -/
theorem failing_option_changes_nothing (p : mevSimBundleParams) (D : Nat) :
    (∀ e, (WithExpirationDurationInBlocks D p).2 = some e →
        (WithExpirationDurationInBlocks D p).1 = p ∧
          (WithExpirationDurationInBlocks D p).1.Inclusion.MaxBlock = p.Inclusion.MaxBlock) ∧
      ((∃ e, (WithExpirationDurationInBlocks D p).2 = some e) ↔
        ¬ ∃ n, hexNumber (strings.TrimPrefix p.Inclusion.Block "0x") = some n ∧ n < 2 ^ 64) ∧
      (p.Inclusion.Block = "latest" → ∃ e, (WithExpirationDurationInBlocks D p).2 = some e) ∧
      (∀ v, (WithValidity v p).2 = none) ∧ (∀ v, (WithPrivacy v p).2 = none) ∧
      (∀ v, (WithMetadata v p).2 = none) ∧ (∀ B, (WithExpirationBlock B p).2 = none) := by
  obtain ⟨herr, hok⟩ := WithExpirationDurationInBlocks_error D p
  have hiff : (∃ e, (WithExpirationDurationInBlocks D p).2 = some e) ↔
      ¬ ∃ n, hexNumber (strings.TrimPrefix p.Inclusion.Block "0x") = some n ∧ n < 2 ^ 64 := by
    rw [← strconv.ParseUint_error_iff]
    constructor
    · rintro ⟨e, he⟩
      obtain ⟨-, err, hp, -⟩ := herr e he
      exact ⟨err, hp⟩
    · rintro ⟨err, hp⟩
      cases h2 : (WithExpirationDurationInBlocks D p).2 with
      | some e => exact ⟨e, rfl⟩
      | none =>
        obtain ⟨block, hb⟩ := hok h2
        rw [hb] at hp
        cases hp
  refine ⟨fun e he => ⟨(herr e he).1, by rw [(herr e he).1]⟩, hiff, ?_,
    fun _ => rfl, fun _ => rfl, fun _ => rfl, fun _ => rfl⟩
  intro hl
  rw [hiff, hl]
  rintro ⟨n, hn, -⟩
  have hnone : hexNumber (strings.TrimPrefix "latest" "0x") = none := by decide
  rw [hnone] at hn
  cases hn

/-- C28 at a concrete input: parameters for the latest block that carry the
`maxBlock` `0x406`, on which a duration of five blocks fails with the parse error
and leaves `0x406` in place. -/
theorem failing_option_changes_nothing_witness :
    (WithExpirationDurationInBlocks 5 demoParamsLatest).2 =
        some (.wrap "failed to parse block number"
          (.numError "ParseUint" "latest" "invalid syntax")) ∧
      (WithExpirationDurationInBlocks 5 demoParamsLatest).1 = demoParamsLatest ∧
      (WithExpirationDurationInBlocks 5 demoParamsLatest).1.Inclusion.MaxBlock = some "0x406" := by
  have he : (WithExpirationDurationInBlocks 5 demoParamsLatest).2 =
      some (.wrap "failed to parse block number"
        (.numError "ParseUint" "latest" "invalid syntax")) := by decide
  have h := (failing_option_changes_nothing demoParamsLatest 5).1 _ he
  exact ⟨he, h.1, by rw [h.2]; rfl⟩

end Flashbot

namespace Flashbot

/-! ## The outcome as a function of the decoded answer -/

/-- C29: the outcome of `Simulate` and of the send step of `Broadcast` is a function
of the result and the error object of the decoded answer only.  Two calls, of any
clients on any inputs, whose responses decode to answers with the same result and the
same error object return the same result and the same error; the decoding reads the
body only, not the status code or the headers, and the id of the answer is not
compared with anything. -/
theorem outcome_from_result_and_error (L : Lib) (f₁ f₂ : flashbot) (w₁ w₂ : World)
    (b₁ b₂ : Bundle) (N₁ N₂ : Nat) (o₁ o₂ : List BundleOption) :
    (∀ (resp₁ resp₂ : HttpResponse) (d₁ d₂ : simRpcResp),
        f₁.simulateResponse L w₁ b₁ N₁ o₁ = some resp₁ →
        f₂.simulateResponse L w₂ b₂ N₂ o₂ = some resp₂ →
        L.decodeSim resp₁ = some d₁ → L.decodeSim resp₂ = some d₂ →
        d₁.Result = d₂.Result → d₁.Error = d₂.Error →
        (f₁.Simulate L w₁ b₁ N₁ o₁).1 = (f₂.Simulate L w₂ b₂ N₂ o₂).1) ∧
      (∀ (resp₁ resp₂ : HttpResponse) (d₁ d₂ : broadcastRpcResp),
        f₁.broadcastResponse L w₁ b₁ N₁ o₁ = some resp₁ →
        f₂.broadcastResponse L w₂ b₂ N₂ o₂ = some resp₂ →
        L.decodeBroadcast resp₁ = some d₁ → L.decodeBroadcast resp₂ = some d₂ →
        d₁.Result = d₂.Result → d₁.Error = d₂.Error →
        (f₁.Broadcast L w₁ b₁ N₁ o₁).1 = (f₂.Broadcast L w₂ b₂ N₂ o₂).1) ∧
      (∀ (resp : HttpResponse) (status : Int) (header : List (String × String)),
        L.decodeSim { resp with StatusCode := status, Header := header } = L.decodeSim resp ∧
          L.decodeBroadcast { resp with StatusCode := status, Header := header } =
            L.decodeBroadcast resp) := by
  refine ⟨?_, ?_, fun resp status header => ⟨rfl, rfl⟩⟩
  · intro resp₁ resp₂ d₁ d₂ hr₁ hr₂ hd₁ hd₂ hres herr
    rw [Simulate_of_decoded f₁ L w₁ b₁ N₁ o₁ resp₁ d₁ hr₁ hd₁,
      Simulate_of_decoded f₂ L w₂ b₂ N₂ o₂ resp₂ d₂ hr₂ hd₂, hres, herr]
  · intro resp₁ resp₂ d₁ d₂ hr₁ hr₂ hd₁ hd₂ hres herr
    rw [Broadcast_of_decoded f₁ L w₁ b₁ N₁ o₁ resp₁ d₁ hr₁ hd₁,
      Broadcast_of_decoded f₂ L w₂ b₂ N₂ o₂ resp₂ d₂ hr₂ hd₂, hres, herr]

/-- C29 at concrete inputs: a relay that answers with status 200 and one that answers
with status 500 and a header, both with a body that decodes to the same result with
the id 1, while the request carries the id 234567; the simulation reports the
result and no error in both cases. -/
theorem outcome_from_result_and_error_witness :
    ((demoClient relayAccepting).Simulate demoLib demoWorld demoBundle 1000 []).1 =
        ((demoClient (relayAnswering 500 [("Retry-After", "1")] [114])).Simulate demoLib
          demoWorld demoBundle 1000 []).1 ∧
      ((demoClient (relayAnswering 500 [("Retry-After", "1")] [114])).Simulate demoLib
          demoWorld demoBundle 1000 []).1 = (some demoSimResponse, none) ∧
      (demoWorld.Intn 1000000).1 = 234567 ∧
      (demoLib.decodeSim
        { StatusCode := 500, Header := [("Retry-After", "1")], Body := .ok [114]
          Close := none }).map (fun d => d.Id) = some 1 :=
  ⟨(outcome_from_result_and_error demoLib (demoClient relayAccepting)
      (demoClient (relayAnswering 500 [("Retry-After", "1")] [114])) demoWorld demoWorld
      demoBundle demoBundle 1000 1000 [] []).1
      { StatusCode := 200, Header := [], Body := .ok [114], Close := none }
      { StatusCode := 500, Header := [("Retry-After", "1")], Body := .ok [114], Close := none }
      { Id := 1, Result := some demoSimResponse, Error := none }
      { Id := 1, Result := some demoSimResponse, Error := none }
      (by decide!) (by decide!) (by decide) (by decide) rfl rfl,
    by decide!, by decide, by decide⟩

/-! ## What the parameters depend on -/

/-- The request `newRequest` builds depends on the relay URL and the key of the
client only. -/
theorem newRequest_congr (f₁ f₂ : flashbot) (L : Lib) (req : rpcReq)
    (hurl : f₁.relayURL = f₂.relayURL) (hpk : f₁.pk = f₂.pk) :
    f₁.newRequest L req = f₂.newRequest L req := by
  unfold flashbot.newRequest flashbot.signRequest
  rw [hurl, hpk]

/-- The parameters depend on the transactions and the revert flags of the bundle only. -/
theorem simParams_congr (b₁ b₂ : Bundle) (N : Nat) (opts : List BundleOption)
    (htx : b₁.Transactions = b₂.Transactions) (hcr : b₁.CanRevert = b₂.CanRevert) :
    simParams b₁ N opts = simParams b₂ N opts ∧ sendParams b₁ N opts = sendParams b₂ N opts := by
  unfold simParams sendParams
  rw [htx, hcr]
  exact ⟨rfl, rfl⟩

/-- A call of `Simulate` depends on the relay URL, the key and the HTTP client of the
client and on the transactions and the revert flags of the bundle only. -/
theorem Simulate_congr (f₁ f₂ : flashbot) (L : Lib) (w : World) (b₁ b₂ : Bundle) (N : Nat)
    (opts : List BundleOption) (hurl : f₁.relayURL = f₂.relayURL) (hpk : f₁.pk = f₂.pk)
    (hcl : f₁.client = f₂.client) (htx : b₁.Transactions = b₂.Transactions)
    (hcr : b₁.CanRevert = b₂.CanRevert) :
    f₁.Simulate L w b₁ N opts = f₂.Simulate L w b₂ N opts := by
  unfold flashbot.Simulate
  rw [(simParams_congr b₁ b₂ N opts htx hcr).1, hcl]
  cases simParams b₂ N opts with
  | error err => rfl
  | ok params =>
    simp only []
    rw [newRequest_congr f₁ f₂ L _ hurl hpk]

/-- C30: the request parameters depend only on the transactions and the revert flags
of the bundle, the target block and the bundle options.  For two clients with the
same relay URL, key and HTTP client (so that they differ in builders and chain id at
most) and two bundles with the same transactions and revert flags (so that they
differ in replacement UUID, builders and minimum timestamp at most), `Simulate` and
`Broadcast` build the same parameters, return the same and leave the same world:
they start and send the same requests. -/
theorem params_depend_on_transactions_only (f₁ f₂ : flashbot) (L : Lib) (w : World)
    (b₁ b₂ : Bundle) (N : Nat) (opts : List BundleOption)
    (hurl : f₁.relayURL = f₂.relayURL) (hpk : f₁.pk = f₂.pk) (hcl : f₁.client = f₂.client)
    (htx : b₁.Transactions = b₂.Transactions) (hcr : b₁.CanRevert = b₂.CanRevert) :
    simParams b₁ N opts = simParams b₂ N opts ∧ sendParams b₁ N opts = sendParams b₂ N opts ∧
      f₁.Simulate L w b₁ N opts = f₂.Simulate L w b₂ N opts ∧
      f₁.Broadcast L w b₁ N opts = f₂.Broadcast L w b₂ N opts ∧
      (∀ m, w.paramsSince (f₁.Simulate L w b₁ N opts).2 m =
        w.paramsSince (f₂.Simulate L w b₂ N opts).2 m) ∧
      (∀ m, w.paramsSince (f₁.Broadcast L w b₁ N opts).2 m =
        w.paramsSince (f₂.Broadcast L w b₂ N opts).2 m) ∧
      w.sentSince (f₁.Simulate L w b₁ N opts).2 = w.sentSince (f₂.Simulate L w b₂ N opts).2 ∧
      w.sentSince (f₁.Broadcast L w b₁ N opts).2 =
        w.sentSince (f₂.Broadcast L w b₂ N opts).2 := by
  have hs := Simulate_congr f₁ f₂ L w b₁ b₂ N opts hurl hpk hcl htx hcr
  have hb : f₁.Broadcast L w b₁ N opts = f₂.Broadcast L w b₂ N opts := by
    unfold flashbot.Broadcast
    rw [Simulate_congr f₁ f₂ L w b₁ b₂ N [] hurl hpk hcl htx hcr,
      (simParams_congr b₁ b₂ N opts htx hcr).2, hcl]
    rcases f₂.Simulate L w b₂ N [] with ⟨⟨r, e⟩, w0⟩
    cases e with
    | some err => rfl
    | none =>
      simp only []
      cases sendParams b₂ N opts with
      | error err => rfl
      | ok params =>
        simp only []
        rw [newRequest_congr f₁ f₂ L _ hurl hpk]
  exact ⟨(simParams_congr b₁ b₂ N opts htx hcr).1, (simParams_congr b₁ b₂ N opts htx hcr).2,
    hs, hb, fun m => by rw [hs], fun m => by rw [hb], by rw [hs], by rw [hb]⟩

/-- C30 at concrete inputs: the Sepolia client against the same client configured
for another chain with two builders, and the demonstration bundle against the same
bundle with a replacement UUID, a builder and a minimum timestamp. -/
theorem params_depend_on_transactions_only_witness :
    (demoClient relayAccepting).chainID ≠ (demoClientWithBuilders relayAccepting).chainID ∧
      (demoClient relayAccepting).builders ≠ (demoClientWithBuilders relayAccepting).builders ∧
      demoBundle ≠ demoBundleTagged ∧
      (demoClient relayAccepting).Broadcast demoLib demoWorld demoBundle 1000 demoAllOptions =
        (demoClientWithBuilders relayAccepting).Broadcast demoLib demoWorld demoBundleTagged 1000
          demoAllOptions ∧
      (demoWorld.sentSince ((demoClientWithBuilders relayAccepting).Broadcast demoLib demoWorld
        demoBundleTagged 1000 demoAllOptions).2).length = 2 :=
  ⟨by decide, by decide, by decide,
    (params_depend_on_transactions_only (demoClient relayAccepting)
      (demoClientWithBuilders relayAccepting) demoLib demoWorld demoBundle demoBundleTagged 1000
      demoAllOptions rfl rfl rfl rfl rfl).2.2.2.1,
    by decide!⟩

end Flashbot

namespace Flashbot

/-! ## The body of the requests -/

/-- The loop over the transactions returns a body when every transaction serializes. -/
theorem encodeBody_total (cr : List Bool) (txs : List Transaction)
    (h : ∀ tx ∈ txs, ∃ bs, tx.MarshalBinary = .ok bs) :
    ∀ (i : Nat) (body0 : List mevSendBundleBodyItem), ∃ body, encodeBody cr i txs body0 = .ok body := by
  induction txs with
  | nil => intro i body0; exact ⟨body0, rfl⟩
  | cons tx txs ih =>
    intro i body0
    obtain ⟨bs, hbs⟩ := h tx (List.mem_cons_self _ _)
    unfold encodeBody
    rw [hbs]
    exact ih (fun tx' htx' => h tx' (List.mem_cons_of_mem _ htx')) _ _

/-- Provided options return no error on parameters whose block text is that of a
nonzero `uint64` target block. -/
theorem applyOptions_provided_ok (opts : List BundleOption) (hopts : ∀ o ∈ opts, o.IsProvided)
    (N : Nat) (hN0 : N ≠ 0) (hN : N < 2 ^ 64) :
    ∀ p : mevSimBundleParams, p.Inclusion.Block = blockHex N → (applyOptions opts p).2 = none := by
  induction opts with
  | nil => intro p _; rfl
  | cons o opts ih =>
    intro p hp
    have ih' := ih (fun o' ho' => hopts o' (List.mem_cons_of_mem _ ho'))
    have hstep : ∀ p1, o p = (p1, none) → p1.Inclusion.Block = blockHex N →
        (applyOptions (o :: opts) p).2 = none := by
      intro p1 h1 hb1
      rw [applyOptions_cons_ok _ _ _ _ h1]
      exact ih' p1 hb1
    rcases hopts o (List.mem_cons_self _ _) with ⟨v, rfl⟩ | ⟨v, rfl⟩ | ⟨v, rfl⟩ | ⟨d, rfl⟩ | ⟨b, rfl⟩
    · exact hstep _ rfl hp
    · exact hstep _ rfl hp
    · exact hstep _ rfl hp
    · exact hstep _ (WithExpirationDurationInBlocks_built N d hN0 hN p hp) hp
    · exact hstep _ rfl hp

/-- The parameters of an envelope among the requests of a call are among the
parameters of the requests of its method. -/
theorem mem_paramsSince (w w' : World) (req : rpcReq) (p : mevSimBundleParams)
    (hreq : req ∈ w.requestsSince w') (hp : p ∈ req.Params) :
    p ∈ w.paramsSince w' req.Method := by
  unfold World.paramsSince
  unfold World.requestsSince at hreq
  rw [List.mem_flatMap]
  exact ⟨req, List.mem_filter.mpr ⟨hreq, by simp⟩, hp⟩

/-- The requests of a call of `Broadcast` are those of its simulation followed by
those of its send step. -/
theorem Broadcast_requestsSince (f : flashbot) (L : Lib) (w : World) (bundle : Bundle)
    (targetBlock : Nat) (opts : List BundleOption) :
    w.requestsSince (f.Broadcast L w bundle targetBlock opts).2 =
      w.requestsSince (f.Simulate L w bundle targetBlock []).2 ++
        (f.Simulate L w bundle targetBlock []).2.requestsSince
          (f.Broadcast L w bundle targetBlock opts).2 := by
  obtain ⟨evs, htr, -⟩ := Simulate_trace f L w bundle targetBlock []
  obtain ⟨evs', htr', -⟩ := Broadcast_trace f L w bundle targetBlock opts
  have h1 : (f.Simulate L w bundle targetBlock []).2.eventsSince
      (f.Broadcast L w bundle targetBlock opts).2 = evs' := eventsSince_of_trace _ _ _ htr'
  rw [htr, List.append_assoc] at htr'
  unfold World.requestsSince
  rw [eventsSince_of_trace _ _ _ htr', eventsSince_of_trace _ _ _ htr, h1, List.filterMap_append]

/-- The requests a call starts once it has built the parameters: `Simulate` starts a
`mev_simBundle` request for the parameters it builds; `Broadcast` starts one for
the parameters built without options, and a `mev_sendBundle` request for the
parameters of the send step once the simulation has returned without error. -/
theorem built_params_requested (f : flashbot) (L : Lib) (w : World) (bundle : Bundle)
    (targetBlock : Nat) (opts : List BundleOption) :
    (∀ p, simParams bundle targetBlock opts = .ok p →
        p ∈ w.paramsSince (f.Simulate L w bundle targetBlock opts).2 methodMevSimBundle) ∧
      (∀ p, simParams bundle targetBlock [] = .ok p →
        p ∈ w.paramsSince (f.Broadcast L w bundle targetBlock opts).2 methodMevSimBundle) ∧
      (∀ p, (f.Simulate L w bundle targetBlock []).1.2 = none →
        sendParams bundle targetBlock opts = .ok p →
        p ∈ w.paramsSince (f.Broadcast L w bundle targetBlock opts).2 methodMevSendBundle) := by
  have hsim : ∀ (os : List BundleOption) (p : mevSimBundleParams),
      simParams bundle targetBlock os = .ok p →
      (⟨jsonRPCVersion, (w.Intn 1000000).1, methodMevSimBundle, [p]⟩ : rpcReq) ∈
        w.requestsSince (f.Simulate L w bundle targetBlock os).2 := by
    intro os p hp
    unfold World.requestsSince
    rcases Simulate_builds f L w bundle targetBlock os p hp with h | ⟨httpReq, -, h⟩ <;>
      rw [h] <;> simp [Event.req?]
  refine ⟨?_, ?_, ?_⟩
  · intro p hp
    exact mem_paramsSince w _ _ p (hsim opts p hp) (List.mem_singleton.mpr rfl)
  · intro p hp
    refine mem_paramsSince w _
      (⟨jsonRPCVersion, (w.Intn 1000000).1, methodMevSimBundle, [p]⟩ : rpcReq) p ?_
      (List.mem_singleton.mpr rfl)
    rw [Broadcast_requestsSince]
    exact List.mem_append_left _ (hsim [] p hp)
  · intro p hs hp
    obtain ⟨evs, h⟩ := Broadcast_builds f L w bundle targetBlock opts p hs hp
    refine mem_paramsSince w _
      (⟨jsonRPCVersion, ((f.Simulate L w bundle targetBlock []).2.Intn 1000000).1,
        methodMevSendBundle, [p]⟩ : rpcReq) p ?_ (List.mem_singleton.mpr rfl)
    rw [Broadcast_requestsSince]
    apply List.mem_append_right
    unfold World.requestsSince
    rw [h]
    simp [Event.req?]

/-- C6: under provided options, the parameters of every request that `Simulate` or
`Broadcast` starts have a body with as many items as the bundle has transactions,
and the can-revert flag of item `i` is `CanRevert[i]` when `i < len(CanRevert)` and
false otherwise.  And such requests are started: for a bundle that is not empty and
whose transactions serialize, the loop builds a body, `Broadcast` starts its
`mev_simBundle` request with it, and when no option fails (the target block is not
0, or no expiration option is given) `Simulate` starts its `mev_simBundle` request
with it and, once the simulation has returned without error, `Broadcast` its
`mev_sendBundle` request. -/
theorem body_length_and_flags (f : flashbot) (L : Lib) (w : World) (bundle : Bundle)
    (targetBlock : Nat) (opts : List BundleOption) (hopts : ∀ o ∈ opts, o.IsProvided) :
    (∀ (m : method) (p : mevSimBundleParams),
        (p ∈ w.paramsSince (f.Simulate L w bundle targetBlock opts).2 m ∨
          p ∈ w.paramsSince (f.Broadcast L w bundle targetBlock opts).2 m) →
        p.Body.length = bundle.Transactions.length ∧
          ∀ (i : Nat) (hi : i < p.Body.length),
            p.Body[i].CanRevert =
              some (if h : i < bundle.CanRevert.length then bundle.CanRevert[i] else false)) ∧
      (bundle.Transactions ≠ [] → (∀ tx ∈ bundle.Transactions, ∃ bs, tx.MarshalBinary = .ok bs) →
        (∃ body, encodeBody bundle.CanRevert 0 bundle.Transactions [] = .ok body ∧
          body.length = bundle.Transactions.length ∧
          ∃ p ∈ w.paramsSince (f.Broadcast L w bundle targetBlock opts).2 methodMevSimBundle,
            p.Body = body) ∧
        ((targetBlock ≠ 0 ∧ targetBlock < 2 ^ 64 ∨ ∀ o ∈ opts, o.IsProvidedNonExpiration) →
          (∃ p ∈ w.paramsSince (f.Simulate L w bundle targetBlock opts).2 methodMevSimBundle,
            p.Body.length = bundle.Transactions.length) ∧
          ((f.Simulate L w bundle targetBlock []).1.2 = none →
            ∃ p ∈ w.paramsSince (f.Broadcast L w bundle targetBlock opts).2 methodMevSendBundle,
              p.Body.length = bundle.Transactions.length))) := by
  have hA : ∀ (m : method) (p : mevSimBundleParams),
      (p ∈ w.paramsSince (f.Simulate L w bundle targetBlock opts).2 m ∨
        p ∈ w.paramsSince (f.Broadcast L w bundle targetBlock opts).2 m) →
      p.Body.length = bundle.Transactions.length ∧
        ∀ (i : Nat) (hi : i < p.Body.length),
          p.Body[i].CanRevert =
            some (if h : i < bundle.CanRevert.length then bundle.CanRevert[i] else false) := by
    intro m p hp
    obtain ⟨-, -, hb⟩ := built_params_frame f L w bundle targetBlock opts hopts m p hp
    obtain ⟨hlen, hidx⟩ := encodeBody_index _ _ _ hb
    refine ⟨hlen, ?_⟩
    intro i hi
    obtain ⟨bs, -, hitem⟩ := hidx i hi (by omega)
    rw [hitem]
    simp only [mevSendBundleBodyItem.CanRevert, Option.some.injEq]
    split
    · rename_i h; exact List.getD_eq_getElem _ _ h
    · rename_i h; exact List.getD_eq_default _ _ (by omega)
  refine ⟨hA, ?_⟩
  intro hne hser
  obtain ⟨body, hbody⟩ := encodeBody_total bundle.CanRevert bundle.Transactions hser 0 []
  obtain ⟨hreqS, hreqB, hreqSend⟩ := built_params_requested f L w bundle targetBlock opts
  have hlen0 : ¬ bundle.Transactions.length = 0 := by
    intro hc
    exact hne (List.length_eq_zero.mp hc)
  have hsim0 : simParams bundle targetBlock [] =
      .ok { Version := "v0.1", Inclusion := { Block := blockHex targetBlock, MaxBlock := none }
            Body := body, Validity := none, Privacy := none, Metadata := none } := by
    unfold simParams
    rw [if_neg hlen0]
    simp only [hbody]
    rfl
  refine ⟨⟨body, hbody, (encodeBody_index _ _ _ hbody).1, _, hreqB _ hsim0, rfl⟩, ?_⟩
  intro hok
  have hopt : ∀ p : mevSimBundleParams, p.Inclusion.Block = blockHex targetBlock →
      (applyOptions opts p).2 = none := by
    intro p hp
    rcases hok with ⟨hN0, hN⟩ | hnon
    · exact applyOptions_provided_ok opts hopts targetBlock hN0 hN p hp
    · exact (applyOptions_nonExpiration opts hnon p).1
  constructor
  · have hp0 := hopt
      { Version := "v0.1", Inclusion := { Block := blockHex targetBlock, MaxBlock := none }
        Body := body, Validity := none, Privacy := none, Metadata := none } rfl
    have hsim : simParams bundle targetBlock opts =
        .ok (applyOptions opts
          { Version := "v0.1", Inclusion := { Block := blockHex targetBlock, MaxBlock := none }
            Body := body, Validity := none, Privacy := none, Metadata := none }).1 := by
      unfold simParams
      rw [if_neg hlen0]
      simp only [hbody]
      rcases hap : applyOptions opts
        { Version := "v0.1", Inclusion := { Block := blockHex targetBlock, MaxBlock := none }
          Body := body, Validity := none, Privacy := none, Metadata := none } with ⟨q, e⟩
      rw [hap] at hp0
      simp only at hp0
      subst hp0
      rfl
    exact ⟨_, hreqS _ hsim, (hA _ _ (Or.inl (hreqS _ hsim))).1⟩
  · intro hs
    have hp0 := hopt
      { Version := "v0.1"
        Inclusion := { Block := blockHex targetBlock
                       MaxBlock := some ("0x" ++ strconv.FormatUint ((targetBlock + 30) % 2 ^ 64) 16) }
        Body := body, Validity := none, Privacy := none, Metadata := none } rfl
    have hsend : sendParams bundle targetBlock opts =
        .ok (applyOptions opts
          { Version := "v0.1"
            Inclusion := { Block := blockHex targetBlock
                           MaxBlock := some ("0x" ++ strconv.FormatUint ((targetBlock + 30) % 2 ^ 64) 16) }
            Body := body, Validity := none, Privacy := none, Metadata := none }).1 := by
      unfold sendParams
      simp only [hbody]
      rcases hap : applyOptions opts
        { Version := "v0.1"
          Inclusion := { Block := blockHex targetBlock
                         MaxBlock := some ("0x" ++ strconv.FormatUint ((targetBlock + 30) % 2 ^ 64) 16) }
          Body := body, Validity := none, Privacy := none, Metadata := none } with ⟨q, e⟩
      rw [hap] at hp0
      simp only at hp0
      subst hp0
      rfl
    exact ⟨_, hreqSend _ hs hsend, (hA _ _ (Or.inr (hreqSend _ hs hsend))).1⟩

/-- C6 at a concrete input: a bundle of two transactions with one flag, simulated and
broadcast for block 1000 with one option.  The `mev_simBundle` request of `Simulate`
and the `mev_sendBundle` request of `Broadcast` are started, each with a body of two
items whose flags are the flag of the bundle and false. -/
theorem body_length_and_flags_witness :
    (∃ p ∈ demoWorld.paramsSince ((demoClient relayAccepting).Simulate demoLib demoWorld
        demoBundle 1000 [WithExpirationBlock 1005]).2 methodMevSimBundle,
      p.Body.length = demoBundle.Transactions.length) ∧
      (∃ p ∈ demoWorld.paramsSince ((demoClient relayAccepting).Simulate demoLib demoWorld
          demoBundle 1000 [WithExpirationBlock 1005]).2 methodMevSimBundle,
        p.Body.length = demoBundle.Transactions.length ∧
          p.Body.map (fun item => item.CanRevert) = [some true, some false]) ∧
      ∃ p ∈ demoWorld.paramsSince ((demoClient relayAccepting).Broadcast demoLib demoWorld
          demoBundle 1000 [WithExpirationBlock 1005]).2 methodMevSendBundle,
        p.Body.length = demoBundle.Transactions.length ∧
          p.Body.map (fun item => item.CanRevert) = [some true, some false] := by
  have hopts : ∀ o ∈ [WithExpirationBlock 1005], o.IsProvided :=
    fun _ ho => Or.inr (Or.inr (Or.inr (Or.inr ⟨1005, List.mem_singleton.mp ho⟩)))
  have hser : ∀ tx ∈ demoBundle.Transactions, ∃ bs, tx.MarshalBinary = .ok bs := by
    intro tx htx
    simp only [demoBundle, List.mem_cons, List.mem_singleton, List.not_mem_nil, or_false] at htx
    rcases htx with rfl | rfl <;> exact ⟨_, rfl⟩
  exact ⟨(((body_length_and_flags (demoClient relayAccepting) demoLib demoWorld demoBundle 1000
        [WithExpirationBlock 1005] hopts).2 (by decide) hser).2
          (Or.inl ⟨by decide, by norm_num⟩)).1,
    ⟨(demoWorld.paramsSince ((demoClient relayAccepting).Simulate demoLib demoWorld
        demoBundle 1000 [WithExpirationBlock 1005]).2 methodMevSimBundle).get ⟨0, by decide!⟩,
      List.get_mem _ _ _,
      ((body_length_and_flags (demoClient relayAccepting) demoLib demoWorld demoBundle 1000
        [WithExpirationBlock 1005] hopts).1 methodMevSimBundle _
          (Or.inl (List.get_mem _ _ _))).1,
      by decide!⟩,
    ⟨(demoWorld.paramsSince ((demoClient relayAccepting).Broadcast demoLib demoWorld
        demoBundle 1000 [WithExpirationBlock 1005]).2 methodMevSendBundle).get ⟨0, by decide!⟩,
      List.get_mem _ _ _,
      ((body_length_and_flags (demoClient relayAccepting) demoLib demoWorld demoBundle 1000
        [WithExpirationBlock 1005] hopts).1 methodMevSendBundle _
          (Or.inr (List.get_mem _ _ _))).1,
      by decide!⟩⟩

end Flashbot
